import Mathlib

/-!
# Vookoo demo framework (`vku_framework.hpp`): queue registry, synchronized queue, window,
per-thread descriptor pools

A shallow embedding of the parts of `include/vku/vku_framework.hpp` that carry the
synchronisation and lifecycle contract: `Framework::getQueue`, `SynchronizedQueue`,
`Window::{init, draw, recreate, createSwapchain, createImages, createFrameBuffers,
createDepthStencil, buildStaticCBs, setStaticCommands, ~Window}`, and
`Framework::{descriptorPool, ~Framework}` with `final_act` and `on_death`.

Vulkan handles are natural numbers, `0` being the null handle.  Calls into the device
are recorded in a trace of `Event`s; what the device answers is supplied by an
environment record, one per call of the embedded function.  The `Framework` objects of a
process, the tables of live pools and the thread-local variables of `descriptorPool` live
in a `Process`, whose trace is made of `PoolEvent`s.
-/

namespace vku

/-! ## Queue registry (`Framework::getQueue`) -/

/-- A `synchronized_ref<vk::Queue>`: the raw queue `t` and the address `mtx` of the
mutex guarding it. Copies of a handle share both. -/
structure SynchronizedQueue where
  t : Nat
  mtx : Nat
deriving DecidableEq, Repr

/-- The key `std::tuple<vk::Device, uint32_t, uint32_t>` of the registry:
(device, queueFamily, queueIndex). -/
abbrev Request := Nat × Nat × Nat

/-- The function-local statics of `Framework::getQueue`: the map `allQueues`, and the
number of `new std::mutex{}` allocations performed so far. Allocations are never freed;
the k-th allocation has address `k`, and address `0` is `nullptr`. -/
structure QueueRegistry where
  allQueues : List (Request × SynchronizedQueue)
  heapMutexes : Nat
deriving DecidableEq, Repr

/-- The registry before the first call. -/
def QueueRegistry.empty : QueueRegistry := ⟨[], 0⟩

/-- `Framework::getQueue(device, queueFamily, queueIndex)`. The body runs under the static
mutex `mtx`, so calls are atomic with respect to each other. `deviceGetQueue` is
`vk::Device::getQueue`. -/
def getQueue (deviceGetQueue : Nat → Nat → Nat → Nat) (reg : QueueRegistry)
    (device queueFamily queueIndex : Nat) : SynchronizedQueue × QueueRegistry :=
  match reg.allQueues.lookup (device, queueFamily, queueIndex) with
  | some it => (it, reg)
  | none =>
    let entry : SynchronizedQueue :=
      ⟨deviceGetQueue device queueFamily queueIndex, reg.heapMutexes + 1⟩
    (entry, ⟨reg.allQueues ++ [((device, queueFamily, queueIndex), entry)],
             reg.heapMutexes + 1⟩)

/-- A sequence of `getQueue` calls, in the order in which they obtain the static mutex;
returns the handle given to each caller and the final registry. -/
def getQueueCalls (deviceGetQueue : Nat → Nat → Nat → Nat) :
    QueueRegistry → List Request → List SynchronizedQueue × QueueRegistry
  | reg, [] => ([], reg)
  | reg, k :: ks =>
    let r := getQueue deviceGetQueue reg k.1 k.2.1 k.2.2
    let rs := getQueueCalls deviceGetQueue r.2 ks
    (r.1 :: rs.1, rs.2)

/-- What is true of the registry after the requests `seen` returned the handles `hs`. -/
structure RegistryOK (reg : QueueRegistry) (seen : List Request)
    (hs : List SynchronizedQueue) : Prop where
  nodup : (reg.allQueues.map Prod.fst).Nodup
  keys : ∀ k, k ∈ reg.allQueues.map Prod.fst ↔ k ∈ seen
  count : reg.heapMutexes = reg.allQueues.length
  fresh : ∀ e ∈ reg.allQueues, e.2.mtx ≤ reg.heapMutexes
  len : hs.length = seen.length
  handle : ∀ (i : Nat) (k : Request), seen[i]? = some k → ∃ h, hs[i]? = some h ∧ reg.allQueues.lookup k = some h

/-! ## Device values -/

/-- A `vk::Result`, by its numeric `VkResult` code. -/
abbrev Result := Int

def eSuccess : Result := 0
def eNotReady : Result := 1
def eTimeout : Result := 2
def eSuboptimalKHR : Result := 1000001003
def eErrorOutOfHostMemory : Result := -1
def eErrorOutOfDeviceMemory : Result := -2
def eErrorDeviceLost : Result := -4
def eErrorSurfaceLostKHR : Result := -1000000000
def eErrorOutOfDateKHR : Result := -1000001004

/-- A `vk::Format`, by its numeric code. -/
abbrev Format := Nat

def eUndefined : Format := 0
def eB8G8R8A8Unorm : Format := 44

/-- A `vk::ColorSpaceKHR`, by its numeric code. -/
abbrev ColorSpaceKHR := Nat

def eSrgbNonlinear : ColorSpaceKHR := 0

/-- A `vk::PresentModeKHR`, by its numeric code. -/
abbrev PresentModeKHR := Nat

def eImmediate : PresentModeKHR := 0
def eMailbox : PresentModeKHR := 1
def eFifo : PresentModeKHR := 2
def eFifoRelaxed : PresentModeKHR := 3

/-- The value of `std::numeric_limits<uint64_t>::max()`. -/
def umax : Nat := 2 ^ 64 - 1

/-- The stage `vk::PipelineStageFlagBits::eColorAttachmentOutput` (its bit value). -/
def eColorAttachmentOutput : Nat := 0x400

/-- A `vk::ClearValue`; float components are given in hundredths. -/
inductive ClearValue
  | color (r g b a : Nat)
  | depthStencil (depth stencil : Nat)
deriving DecidableEq, Repr

/-- The fields of `vk::RenderPassBeginInfo` that the window fills in. The render area is
`{{x, y}, {width, height}}`. -/
structure RenderPassBeginInfo where
  renderPass : Nat
  framebuffer : Nat
  renderArea : (Nat × Nat) × (Nat × Nat)
  pClearValues : List ClearValue
deriving DecidableEq, Repr

/-- The fields of `vk::SubmitInfo` that `draw` fills in. -/
structure SubmitInfo where
  pWaitSemaphores : List Nat
  pWaitDstStageMask : List Nat
  pCommandBuffers : List Nat
  pSignalSemaphores : List Nat
deriving DecidableEq, Repr

/-- The fields of `vk::PresentInfoKHR` that `draw` fills in. -/
structure PresentInfoKHR where
  pWaitSemaphores : List Nat
  pSwapchains : List Nat
  pImageIndices : List Nat
deriving DecidableEq, Repr

/-- The fields of `vk::SurfaceCapabilitiesKHR` that `createSwapchain` reads. -/
structure SurfaceCapabilitiesKHR where
  minImageCount : Nat
  currentExtent : Nat × Nat
  currentTransform : Nat
deriving DecidableEq, Repr

/-- A `vk::SurfaceFormatKHR`. -/
structure SurfaceFormatKHR where
  format : Format
  colorSpace : ColorSpaceKHR
deriving DecidableEq, Repr

/-- The `vk::SwapchainCreateInfoKHR` built by `createSwapchain`; `concurrent` is
`imageSharingMode == eConcurrent`. -/
structure SwapchainCreateInfoKHR where
  surface : Nat
  minImageCount : Nat
  imageFormat : Format
  imageColorSpace : ColorSpaceKHR
  imageExtent : Nat × Nat
  concurrent : Bool
  queueFamilyIndexCount : Nat
  pQueueFamilyIndices : List Nat
  preTransform : Nat
  presentMode : PresentModeKHR
  oldSwapchain : Nat
deriving DecidableEq, Repr

/-- Calls that leave the embedded code: calls into the device, mutex operations,
invocations of the caller's callbacks, and a marker for each entry into
`Window::recreate`. Creation events carry the handle the device returned. -/
inductive Event
  | acquireNextImageKHR (swapchain timeout semaphore fence : Nat)
  | waitForFences (fences : List Nat) (waitAll : Bool) (timeout : Nat)
  | resetFences (fences : List Nat)
  | dynamic (f cb imageIndex : Nat) (rpbi : RenderPassBeginInfo)
  | func (f cb i : Nat) (rpbi : RenderPassBeginInfo)
  | lock (mtx : Nat)
  | unlock (mtx : Nat)
  | queueSubmit (queue : Nat) (submits : List SubmitInfo) (fence : Nat)
  | queuePresentKHR (queue : Nat) (presentInfo : PresentInfoKHR)
  | recreate
  | cerr (msg : String)
  | createSwapchainKHR (info : SwapchainCreateInfoKHR) (swapchain : Nat)
  | destroySwapchainKHR (swapchain : Nat)
  | createImageView (image : Nat) (format : Format) (imageView : Nat)
  | destroyImageView (imageView : Nat)
  | createDepthStencilImage (width height image : Nat)
  | destroyDepthStencilImage (image : Nat)
  | createRenderPass (colorFormat : Format) (renderPass : Nat)
  | createFramebuffer (renderPass : Nat) (attachments : List Nat) (width height : Nat)
      (framebuffer : Nat)
  | destroyFramebuffer (framebuffer : Nat)
  | createSemaphore (semaphore : Nat)
  | createCommandPool (flags queueFamilyIndex commandPool : Nat)
  | allocateCommandBuffers (commandPool count : Nat) (commandBuffers : List Nat)
  | createFence (signaled : Bool) (fence : Nat)
  | destroyFence (fence : Nat)
  | beginEnd (cb : Nat)
deriving DecidableEq, Repr

/-- How an embedded member function ends: it returns, it throws the exception that
vulkan.hpp raises for a result code, or it runs into undefined behaviour (an index
outside a vector, a null handle passed to the device). -/
inductive Outcome
  | ok
  | threw (r : Result)
  | undefined
deriving DecidableEq, Repr

/-- The check vulkan.hpp applies to the result of an enhanced-mode call: a result
among the call's success codes is returned, any other is thrown as the matching
exception. -/
def resultCheck (result : Result) (successCodes : List Result) : Outcome :=
  if result ∈ successCodes then .ok else .threw result

/-! ## Synchronized queue -/

/-- `SynchronizedQueue::submit(submits, fence)`, both overloads alike:
`this->operator->()->submit(submits, fence, d)`. The temporary `locked_access` locks
the mutex in its constructor, the queue call runs, and the temporary is destroyed
(unlocking) at the end of the full expression, also when the call throws. -/
def SynchronizedQueue.submit (q : SynchronizedQueue) (submits : List SubmitInfo)
    (fence : Nat) : List Event :=
  [.lock q.mtx, .queueSubmit q.t submits fence, .unlock q.mtx]

/-- `SynchronizedQueue::presentKHR(presentInfo)`:
`return this->operator->()->presentKHR(presentInfo, d)`, locking as in `submit`. -/
def SynchronizedQueue.presentKHR (q : SynchronizedQueue) (presentInfo : PresentInfoKHR) :
    List Event :=
  [.lock q.mtx, .queuePresentKHR q.t presentInfo, .unlock q.mtx]

/-- A call made through a queue handle. -/
inductive QueueCall
  | submit (q : SynchronizedQueue) (submits : List SubmitInfo) (fence : Nat)
  | presentKHR (q : SynchronizedQueue) (presentInfo : PresentInfoKHR)
deriving DecidableEq, Repr

/-- The events of one call through a handle. -/
def QueueCall.events : QueueCall → List Event
  | .submit q submits fence => q.submit submits fence
  | .presentKHR q presentInfo => q.presentKHR presentInfo

/-- The events of a thread that makes the calls `cs` one after the other. -/
def program (cs : List QueueCall) : List Event :=
  cs.flatMap QueueCall.events

/-- Whether an event is a call on the underlying `vk::Queue`. -/
def Event.isQueueCall : Event → Bool
  | .queueSubmit _ _ _ => true
  | .queuePresentKHR _ _ => true
  | _ => false

/-- A thread: the events it has still to perform, and whether the queue call at the
head of `todo` has started and not yet returned. -/
structure Thread where
  todo : List Event
  inCall : Bool
deriving DecidableEq, Repr

/-- Threads running side by side, and for every mutex the thread that holds it. -/
structure Machine where
  threads : List Thread
  owner : Nat → Option Nat

/-- The machine in which thread `i` is about to make the calls `progs[i]` and no mutex
is held. -/
def Machine.start (progs : List (List QueueCall)) : Machine :=
  ⟨progs.map (fun cs => ⟨program cs, false⟩), fun _ => none⟩

/-- Thread `i` is scheduled. `lock` on a held mutex blocks (the machine is unchanged), a
free mutex is taken; `unlock` frees it; a queue call takes two steps, the first starts
it and the second is its return; every other event takes one step. Scheduling a thread
that does not exist or has finished changes nothing. -/
def Machine.step (m : Machine) (i : Nat) : Machine :=
  match m.threads[i]? with
  | none => m
  | some t =>
    match t.todo with
    | [] => m
    | .lock x :: rest =>
      if m.owner x = none then
        ⟨m.threads.set i ⟨rest, false⟩, Function.update m.owner x (some i)⟩
      else m
    | .unlock x :: rest =>
      ⟨m.threads.set i ⟨rest, false⟩, Function.update m.owner x none⟩
    | e :: rest =>
      if e.isQueueCall then
        if t.inCall then ⟨m.threads.set i ⟨rest, false⟩, m.owner⟩
        else ⟨m.threads.set i ⟨e :: rest, true⟩, m.owner⟩
      else ⟨m.threads.set i ⟨rest, false⟩, m.owner⟩

/-- The machine after the threads were scheduled in the order `sched`. -/
def Machine.run (m : Machine) (sched : List Nat) : Machine :=
  sched.foldl Machine.step m

/-- Whether the thread is inside an underlying queue call made through the handle `e`:
the call on `e.t` has started, has not returned, and is followed by the unlock of
`e.mtx`. -/
def Thread.inCallVia (e : SynchronizedQueue) (t : Thread) : Bool :=
  t.inCall &&
    match t.todo with
    | .queueSubmit q _ _ :: .unlock x :: _ => q == e.t && x == e.mtx
    | .queuePresentKHR q _ :: .unlock x :: _ => q == e.t && x == e.mtx
    | _ => false

/-- Where thread `i` can be: between calls; after the lock and before the return of the
queue call, holding the mutex; or after the return and before the unlock, holding the
mutex. -/
def ThreadOK (owner : Nat → Option Nat) (i : Nat) (t : Thread) : Prop :=
  ∃ cs : List QueueCall,
    (t.inCall = false ∧ t.todo = program cs) ∨
    (∃ c x, c.isQueueCall = true ∧ t.todo = c :: .unlock x :: program cs ∧
      owner x = some i) ∨
    (t.inCall = false ∧ ∃ x, t.todo = .unlock x :: program cs ∧ owner x = some i)

/-- Every thread of the machine is in one of the places of `ThreadOK`. -/
def Machine.OK (m : Machine) : Prop :=
  ∀ (i : Nat) (t : Thread), m.threads[i]? = some t → ThreadOK m.owner i t

/-! ## Window -/

/-- The data members of `Window`; the defaults are the state of a default-constructed
object (`width_`, `height_` and `graphicsQueueFamilyIndex_` have no initialiser and are
taken as `0`). `func` is the registered static callback, by identity; `none` is an empty
`std::function`. `depthStencilImage_` stands for the whole `vku::DepthStencilImage`. -/
structure Window where
  instance_ : Nat := 0
  physicalDevice_ : Nat := 0
  graphicsQueueFamilyIndex_ : Nat := 0
  surface_ : Nat := 0
  swapchain_ : Nat := 0
  renderPass_ : Nat := 0
  imageAcquireSemaphore_ : Nat := 0
  commandCompleteSemaphore_ : Nat := 0
  dynamicSemaphore_ : Nat := 0
  commandPool_ : Nat := 0
  imageViews_ : List Nat := []
  images_ : List Nat := []
  commandBufferFences_ : List Nat := []
  framebuffers_ : List Nat := []
  staticDrawBuffers_ : List Nat := []
  dynamicDrawBuffers_ : List Nat := []
  func : Option Nat := none
  depthStencilImage_ : Nat := 0
  presentQueueFamily_ : Nat := 0
  presentQueue_ : SynchronizedQueue := ⟨0, 0⟩
  width_ : Nat := 0
  height_ : Nat := 0
  swapchainImageFormat_ : Format := eB8G8R8A8Unorm
  swapchainColorSpace_ : ColorSpaceKHR := eSrgbNonlinear
  device_ : Nat := 0
  ok_ : Bool := false
deriving DecidableEq, Repr

/-- The window together with what it acts on: the process-wide statics of
`Framework::getQueue`, the next handle the device will hand out (handles are never
reused), and the events so far. -/
structure State where
  win : Window
  queues : QueueRegistry
  fresh : Nat
  trace : List Event
deriving DecidableEq, Repr

/-- Append events to the trace. -/
def State.emit (s : State) (es : List Event) : State :=
  { s with trace := s.trace ++ es }

/-- What the physical device reports for the surface when a swapchain is (re)built:
`getSurfacePresentModesKHR`, `getSurfaceCapabilitiesKHR`, and the images that
`getSwapchainImagesKHR` returns for the window's swapchain. -/
structure SurfaceEnv where
  presentModes : List PresentModeKHR
  surfaceCaps : SurfaceCapabilitiesKHR
  swapchainImages : List Nat
deriving DecidableEq, Repr

/-- The `vk::SwapchainCreateInfoKHR` that `createSwapchain` fills in (`swapinfo`), with
FIFO as the present mode. -/
def swapinfo (w : Window) (surfaceCaps : SurfaceCapabilitiesKHR) : SwapchainCreateInfoKHR :=
  let sameQueues := w.graphicsQueueFamilyIndex_ == w.presentQueueFamily_
  { surface := w.surface_
    minImageCount := (surfaceCaps.minImageCount + 1) % 2 ^ 32
    imageFormat := w.swapchainImageFormat_
    imageColorSpace := w.swapchainColorSpace_
    imageExtent := surfaceCaps.currentExtent
    concurrent := !sameQueues
    queueFamilyIndexCount := if !sameQueues then 2 else 0
    pQueueFamilyIndices := [w.graphicsQueueFamilyIndex_, w.presentQueueFamily_]
    preTransform := surfaceCaps.currentTransform
    presentMode := eFifo
    oldSwapchain := 0 }

/-- `Window::createSwapchain`. Reading `pms[0]` of an empty vector is undefined. Creating
the swapchain is taken to succeed; assigning to `swapchain_` destroys the previous
swapchain, if any, after the new one was created. -/
def createSwapchain (env : SurfaceEnv) (s : State) : Outcome × State :=
  match env.presentModes with
  | [] => (.undefined, s)
  | _ :: _ =>
    if eFifo ∈ env.presentModes then
      let w := s.win
      let surfaceCaps := env.surfaceCaps
      (.ok,
        { s with
          win := { w with
            width_ := surfaceCaps.currentExtent.1
            height_ := surfaceCaps.currentExtent.2
            swapchain_ := s.fresh }
          fresh := s.fresh + 1
          trace := s.trace ++ [.createSwapchainKHR (swapinfo w surfaceCaps) s.fresh] ++
            (if w.swapchain_ = 0 then [] else [.destroySwapchainKHR w.swapchain_]) })
    else
      (.ok, s.emit [.cerr "No fifo mode available\n"])

/-- `Window::createImages`. Asking for the images of a null swapchain is undefined.
The old views are destroyed, then one view is created per image. -/
def createImages (env : SurfaceEnv) (s : State) : Outcome × State :=
  if s.win.swapchain_ = 0 then (.undefined, s)
  else
    let images := env.swapchainImages
    let views := List.range' s.fresh images.length
    (.ok,
      { s with
        win := { s.win with images_ := images, imageViews_ := views }
        fresh := s.fresh + images.length
        trace := s.trace ++ s.win.imageViews_.map Event.destroyImageView ++
          List.zipWith (fun img iv => Event.createImageView img s.win.swapchainImageFormat_ iv)
            images views })

/-- Modelled from the spec: `vku::DepthStencilImage` (declared in `vku.hpp`) is the depth
buffer, owned exclusively by the window and sized to the window's extent.
`Window::createDepthStencil` builds a new one with `width_` and `height_` and assigns it
to `depthStencilImage_`, which releases the previous one, if any. -/
def createDepthStencil (s : State) : State :=
  { s with
    win := { s.win with depthStencilImage_ := s.fresh }
    fresh := s.fresh + 1
    trace := s.trace ++ [.createDepthStencilImage s.win.width_ s.win.height_ s.fresh] ++
      (if s.win.depthStencilImage_ = 0 then []
       else [.destroyDepthStencilImage s.win.depthStencilImage_]) }

/-- Modelled from the spec: `vku::RenderpassMaker` (declared in `vku.hpp`) builds a
render pass with two attachments (colour in the swapchain format, depth/stencil) and one
subpass. `Window::createRenderPass` stores the new render pass in `renderPass_`. -/
def createRenderPass (s : State) : State :=
  { s with
    win := { s.win with renderPass_ := s.fresh }
    fresh := s.fresh + 1
    trace := s.trace ++ [.createRenderPass s.win.swapchainImageFormat_ s.fresh] }

/-- `Window::createFrameBuffers`: `framebuffers_.clear()` destroys the old framebuffers,
then one framebuffer is created per image view. -/
def createFrameBuffers (s : State) : State :=
  let w := s.win
  let fbs := List.range' s.fresh w.imageViews_.length
  { s with
    win := { w with framebuffers_ := fbs }
    fresh := s.fresh + w.imageViews_.length
    trace := s.trace ++ w.framebuffers_.map Event.destroyFramebuffer ++
      List.zipWith
        (fun iv fb =>
          Event.createFramebuffer w.renderPass_ [iv, w.depthStencilImage_] w.width_ w.height_ fb)
        w.imageViews_ fbs }

/-- The two clear values used by `buildStaticCBs` and `draw`: colour
`{0.75, 0.75, 0.75, 1}` and depth/stencil `{1.0, 0}`. -/
def clearColours : List ClearValue := [.color 75 75 75 100, .depthStencil 100 0]

/-- The `vk::RenderPassBeginInfo` that `buildStaticCBs` and `draw` prepare for a
framebuffer. -/
def Window.rpbi (w : Window) (framebuffer : Nat) : RenderPassBeginInfo :=
  { renderPass := w.renderPass_
    framebuffer := framebuffer
    renderArea := ((0, 0), (w.width_, w.height_))
    pClearValues := clearColours }

/-- The loop of `Window::buildStaticCBs` from index `i` on, over the remaining static
command buffers. `framebuffers_[i]` outside the vector is undefined. -/
def buildStaticCBsFrom (w : Window) (f : Nat) : Nat → List Nat → Outcome × List Event
  | _, [] => (.ok, [])
  | i, cb :: cbs =>
    match w.framebuffers_[i]? with
    | none => (.undefined, [])
    | some fb =>
      let r := buildStaticCBsFrom w f (i + 1) cbs
      (r.1, Event.func f cb i (w.rpbi fb) :: r.2)

/-- `Window::buildStaticCBs`: when a callback is registered, call it once per static
command buffer. -/
def buildStaticCBs (s : State) : Outcome × State :=
  match s.win.func with
  | none => (.ok, s)
  | some f =>
    let r := buildStaticCBsFrom s.win f 0 s.win.staticDrawBuffers_
    (r.1, s.emit r.2)

/-- The four rebuilding calls that `init` (with `createRenderPass` in between) and
`recreate` make in a row when none of them stops early: `createSwapchain`,
`createImages`, `createDepthStencil`, `createFrameBuffers`. -/
def rebuilt (env : SurfaceEnv) (s : State) : State :=
  createFrameBuffers (createDepthStencil (createImages env (createSwapchain env s).2).2)

/-- What the device answers during one `Window::recreate`: the result of waiting for
the fences, and the surface as reported when the swapchain is rebuilt. -/
structure RecreateEnv where
  waitResult : Result
  surface : SurfaceEnv
deriving DecidableEq, Repr

/-- `Window::recreate`. The trace records the entry into the function. `waitForFences`
returns on `eSuccess` and `eTimeout` and throws on every other result. -/
def recreate (env : RecreateEnv) (s : State) : Outcome × State :=
  let s0 := s.emit [.recreate, .waitForFences s.win.commandBufferFences_ true umax]
  match resultCheck env.waitResult [eSuccess, eTimeout] with
  | .ok =>
    match createSwapchain env.surface s0 with
    | (.ok, s1) =>
      match createImages env.surface s1 with
      | (.ok, s2) => buildStaticCBs (createFrameBuffers (createDepthStencil s2))
      | r => r
    | r => r
  | o => (o, s0)

/-- What the device answers during one `Window::draw`: the result of
`acquireNextImageKHR` and the image index it wrote, the results of waiting for and
resetting the slot fence, of the submission and of the present call, and the answers for
the `recreate` that `draw` may run. -/
structure DrawEnv where
  acquired : Result
  imageIndex : Nat
  waitResult : Result
  resetResult : Result
  submitResult : Result
  presentResult : Result
  recreate : RecreateEnv
deriving DecidableEq, Repr

/-- The first `vk::SubmitInfo` of `draw`. -/
def dynamicSubmit (w : Window) (pscb : Nat) : SubmitInfo :=
  { pWaitSemaphores := [w.imageAcquireSemaphore_]
    pWaitDstStageMask := [eColorAttachmentOutput]
    pCommandBuffers := [pscb]
    pSignalSemaphores := [w.dynamicSemaphore_] }

/-- The second `vk::SubmitInfo` of `draw`. -/
def staticSubmit (w : Window) (cb : Nat) : SubmitInfo :=
  { pWaitSemaphores := [w.dynamicSemaphore_]
    pWaitDstStageMask := [eColorAttachmentOutput]
    pCommandBuffers := [cb]
    pSignalSemaphores := [w.commandCompleteSemaphore_] }

/-- The `vk::PresentInfoKHR` of `draw`. -/
def presentInfo (w : Window) (imageIndex : Nat) : PresentInfoKHR :=
  { pWaitSemaphores := [w.commandCompleteSemaphore_]
    pSwapchains := [w.swapchain_]
    pImageIndices := [imageIndex] }

/-- `Window::draw(device, graphicsQueue, dynamic)`; `dynamic` is the callback, by
identity. `acquireNextImageKHR` is the overload that returns the raw result. Indexing a
vector at `imageIndex` outside its size is undefined. `waitForFences` throws on results
other than `eSuccess` and `eTimeout`, `resetFences` and `submit` on results other than
`eSuccess`, `presentKHR` on results other than `eSuccess` and `eSuboptimalKHR`; only
`vk::OutOfDateKHRError` is caught. The frame-time bookkeeping (`rdtsc`, the `Time:`
printout) is left out. -/
def draw (env : DrawEnv) (graphicsQueue : SynchronizedQueue) (dynamic : Nat) (s : State) :
    Outcome × State :=
  let w := s.win
  let s1 := s.emit [.acquireNextImageKHR w.swapchain_ umax w.imageAcquireSemaphore_ 0]
  if env.acquired ≠ eSuccess then recreate env.recreate s1
  else
    let imageIndex := env.imageIndex
    match w.staticDrawBuffers_[imageIndex]?, w.dynamicDrawBuffers_[imageIndex]?,
        w.commandBufferFences_[imageIndex]? with
    | some cb, some pscb, some cbFence =>
      let s2 := s1.emit [.waitForFences [cbFence] true umax]
      match resultCheck env.waitResult [eSuccess, eTimeout] with
      | .ok =>
        let s3 := s2.emit [.resetFences [cbFence]]
        match resultCheck env.resetResult [eSuccess] with
        | .ok =>
          match w.framebuffers_[imageIndex]? with
          | some fb =>
            let s4 := s3.emit [.dynamic dynamic pscb imageIndex (w.rpbi fb)]
            let s5 := s4.emit
              (graphicsQueue.submit [dynamicSubmit w pscb, staticSubmit w cb] cbFence)
            match resultCheck env.submitResult [eSuccess] with
            | .ok =>
              let s6 := s5.emit (w.presentQueue_.presentKHR (presentInfo w imageIndex))
              match resultCheck env.presentResult [eSuccess, eSuboptimalKHR] with
              | .threw r =>
                if r = eErrorOutOfDateKHR then recreate env.recreate s6 else (.threw r, s6)
              | o => (o, s6)
            | o => (o, s5)
          | none => (.undefined, s3)
        | o => (o, s3)
      | o => (o, s2)
    | _, _, _ => (.undefined, s1)

/-- What the physical device and the device answer during `Window::init`: per queue
family, whether it can present to the surface and whether it has the graphics flag; the
surface formats; the surface as reported when the swapchain is built; and
`vk::Device::getQueue`. -/
structure InitEnv where
  qprops : List (Bool × Bool)
  fmts : List SurfaceFormatKHR
  surface : SurfaceEnv
  deviceGetQueue : Nat → Nat → Nat → Nat

/-- The format and colour space that `Window::init` selects; `fmts[0]` of an empty vector
is undefined (`none`). The loop keeps the last entry whose format is
`eB8G8R8A8Unorm`. -/
def selectFormat (fmts : List SurfaceFormatKHR) : Option (Format × ColorSpaceKHR) :=
  match fmts with
  | [] => none
  | f0 :: _ =>
    if fmts.length = 1 ∧ f0.format = eUndefined then some (eB8G8R8A8Unorm, eSrgbNonlinear)
    else
      some (fmts.foldl
        (fun acc fmt => if fmt.format = eB8G8R8A8Unorm then (fmt.format, fmt.colorSpace) else acc)
        (f0.format, f0.colorSpace))

/-- The part of `Window::init` after the calls to `createSwapchain` ... `createFrameBuffers`:
three semaphores, the command pool, one static and one dynamic command buffer per
framebuffer, one signaled fence per static command buffer (appended to
`commandBufferFences_`), an empty recording of every static command buffer, and
`ok_ = true`. -/
def initSync (graphicsQueueFamilyIndex : Nat) (s : State) : State :=
  let w := s.win
  let n := w.framebuffers_.length
  let imageAcquire := s.fresh
  let commandComplete := s.fresh + 1
  let dynamicSem := s.fresh + 2
  let pool := s.fresh + 3
  let statics := List.range' (s.fresh + 4) n
  let dynamics := List.range' (s.fresh + 4 + n) n
  let fences := List.range' (s.fresh + 4 + n + n) statics.length
  { s with
    win := { w with
      imageAcquireSemaphore_ := imageAcquire
      commandCompleteSemaphore_ := commandComplete
      dynamicSemaphore_ := dynamicSem
      commandPool_ := pool
      staticDrawBuffers_ := statics
      dynamicDrawBuffers_ := dynamics
      commandBufferFences_ := w.commandBufferFences_ ++ fences
      ok_ := true }
    fresh := s.fresh + 4 + n + n + statics.length
    trace := s.trace ++
      [.createSemaphore imageAcquire, .createSemaphore commandComplete,
       .createSemaphore dynamicSem, .createCommandPool 3 graphicsQueueFamilyIndex pool,
       .allocateCommandBuffers pool n statics, .allocateCommandBuffers pool n dynamics] ++
      fences.map (Event.createFence true) ++ statics.map Event.beginEnd }

/-- `Window::init(instance, device, physicalDevice, graphicsQueueFamilyIndex, surface)`. -/
def init (env : InitEnv) (instance_ device physicalDevice graphicsQueueFamilyIndex
    surface : Nat) (s : State) : Outcome × State :=
  let w0 : Window :=
    { s.win with
      surface_ := surface
      graphicsQueueFamilyIndex_ := graphicsQueueFamilyIndex
      physicalDevice_ := physicalDevice
      instance_ := instance_
      device_ := device
      presentQueueFamily_ := 0 }
  match env.qprops.findIdx? (fun qprop => qprop.1 && qprop.2) with
  | none => (.ok, { s with win := w0, trace := s.trace ++ [.cerr "No Vulkan present queues found\n"] })
  | some qi =>
    let q := getQueue env.deviceGetQueue s.queues device qi 0
    match selectFormat env.fmts with
    | none => (.undefined, { s with win := { w0 with presentQueueFamily_ := qi, presentQueue_ := q.1 }, queues := q.2 })
    | some fc =>
      let w1 : Window :=
        { w0 with
          presentQueueFamily_ := qi
          presentQueue_ := q.1
          swapchainImageFormat_ := fc.1
          swapchainColorSpace_ := fc.2 }
      match createSwapchain env.surface { s with win := w1, queues := q.2 } with
      | (.ok, s1) =>
        match createImages env.surface s1 with
        | (.ok, s2) =>
          (.ok, initSync graphicsQueueFamilyIndex
            (createFrameBuffers (createRenderPass (createDepthStencil s2))))
        | r => r
      | r => r

/-- `Window::setStaticCommands(func)`: register the callback and build the static command
buffers. -/
def setStaticCommands (f : Nat) (s : State) : Outcome × State :=
  buildStaticCBs { s with win := { s.win with func := some f } }

/-- A default-constructed `Window` in a process where `getQueue` has not been called, the
device handing out handles from `1`. -/
def State.start : State := ⟨{}, QueueRegistry.empty, 1, []⟩

/-! ## A concrete scenario -/

/-- A surface that supports immediate and FIFO presentation, has extent 800 x 600 and
reports the given swapchain images. -/
def scenarioSurface (images : List Nat) : SurfaceEnv :=
  ⟨[eImmediate, eFifo], ⟨2, (800, 600), 1⟩, images⟩

/-- A physical device with two queue families, the second of which can present, one
surface format, and a swapchain of three images. -/
def scenarioInit : InitEnv :=
  ⟨[(false, true), (true, true)], [⟨eB8G8R8A8Unorm, eSrgbNonlinear⟩],
    scenarioSurface [101, 102, 103], fun _ family index => 1000 + 10 * family + index⟩

/-- The window of the scenario after `init`, with an empty trace: swapchain `1`, fences
`[20, 21, 22]`, static command buffers `[14, 15, 16]`, dynamic command buffers
`[17, 18, 19]`, framebuffers `[7, 8, 9]`. -/
def scenarioWindow : State :=
  { (init scenarioInit 1 2 3 1 4 State.start).2 with trace := [] }

/-- The graphics queue handle of the scenario. -/
def scenarioQueue : SynchronizedQueue := ⟨1010, 1⟩

/-- A `draw` of the scenario in which acquire answers `acquired` with image index `1`,
present answers `presented`, the fence wait inside `recreate` answers `recreateWait`, every
other call succeeds, and a rebuilt swapchain reports the images `images`. -/
def scenarioDraw (acquired presented recreateWait : Result) (images : List Nat) : DrawEnv :=
  ⟨acquired, 1, eSuccess, eSuccess, eSuccess, presented, ⟨recreateWait, scenarioSurface images⟩⟩

/-- The members of the window that are per-slot or shared by all frames and are not
swapchain-dependent: render pass, command pool, fences, command buffers, the registered
static callback, the semaphores and the present queue are the same in `w` and `w'`. -/
structure SameSlots (w w' : Window) : Prop where
  renderPass_ : w'.renderPass_ = w.renderPass_
  commandPool_ : w'.commandPool_ = w.commandPool_
  commandBufferFences_ : w'.commandBufferFences_ = w.commandBufferFences_
  staticDrawBuffers_ : w'.staticDrawBuffers_ = w.staticDrawBuffers_
  dynamicDrawBuffers_ : w'.dynamicDrawBuffers_ = w.dynamicDrawBuffers_
  func : w'.func = w.func
  imageAcquireSemaphore_ : w'.imageAcquireSemaphore_ = w.imageAcquireSemaphore_
  commandCompleteSemaphore_ : w'.commandCompleteSemaphore_ = w.commandCompleteSemaphore_
  dynamicSemaphore_ : w'.dynamicSemaphore_ = w.dynamicSemaphore_
  presentQueue_ : w'.presentQueue_ = w.presentQueue_

/-- A surface that supports only immediate presentation, has extent 1024 x 768 and reports
the given swapchain images. -/
def scenarioSurfaceNoFifo (images : List Nat) : SurfaceEnv :=
  ⟨[eImmediate], ⟨2, (1024, 768), 1⟩, images⟩

/-- The invariant of the swapchain state:
`images.length == imageViews.length == framebuffers.length == commandBufferFences.length`. -/
def Window.Invariant (w : Window) : Prop :=
  w.images_.length = w.imageViews_.length ∧
  w.imageViews_.length = w.framebuffers_.length ∧
  w.framebuffers_.length = w.commandBufferFences_.length

instance (w : Window) : Decidable w.Invariant := by
  unfold Window.Invariant
  infer_instance

/-! ## Kinds of events -/

/-- Events of rebuilding the swapchain-dependent resources: creating and destroying
swapchains, image views, depth buffers and framebuffers, the message of
`createSwapchain`, and calls of the static callback. -/
def Event.isRebuild : Event → Bool
  | .cerr _ => true
  | .createSwapchainKHR _ _ => true
  | .destroySwapchainKHR _ => true
  | .createImageView _ _ _ => true
  | .destroyImageView _ => true
  | .createDepthStencilImage _ _ _ => true
  | .destroyDepthStencilImage _ => true
  | .createFramebuffer _ _ _ _ _ => true
  | .destroyFramebuffer _ => true
  | .func _ _ _ _ => true
  | _ => false

/-- Waiting for fences and resetting fences. -/
def Event.isFenceOp : Event → Bool
  | .waitForFences _ _ _ => true
  | .resetFences _ => true
  | _ => false

/-- A call of the dynamic callback of `draw`. -/
def Event.isDynamic : Event → Bool
  | .dynamic _ _ _ _ => true
  | _ => false

/-- The events a function appended to the trace are all of the rebuilding kind. -/
def Rebuilds (s s' : State) : Prop :=
  ∃ es, s'.trace = s.trace ++ es ∧ ∀ e ∈ es, e.isRebuild = true

/-- The ten events of a complete frame of `draw` for the slot `imageIndex`, whose static
command buffer is `cb`, dynamic command buffer `pscb`, fence `cbFence` and framebuffer
`fb`. -/
def frameEvents (w : Window) (imageIndex : Nat) (graphicsQueue : SynchronizedQueue)
    (dynamic cb pscb cbFence fb : Nat) : List Event :=
  [.acquireNextImageKHR w.swapchain_ umax w.imageAcquireSemaphore_ 0,
   .waitForFences [cbFence] true umax,
   .resetFences [cbFence],
   .dynamic dynamic pscb imageIndex (w.rpbi fb),
   .lock graphicsQueue.mtx,
   .queueSubmit graphicsQueue.t [dynamicSubmit w pscb, staticSubmit w cb] cbFence,
   .unlock graphicsQueue.mtx,
   .lock w.presentQueue_.mtx,
   .queuePresentKHR w.presentQueue_.t (presentInfo w imageIndex),
   .unlock w.presentQueue_.mtx]

/-! ## Fences and submissions on the device -/

/-- The device as far as fences go: the fences that are unsignaled, and the fences of
the submissions that have not completed yet. -/
structure Gpu where
  unsignaled : List Nat
  inFlight : List Nat
deriving DecidableEq, Repr

/-- The effect of an event on the fences, `none` when the calling thread cannot go on.
A wait goes on only when the fences it waits for are signaled (all of them with
`waitAll`, one of them otherwise); the timeout is not modelled, the window waits with
`2^64 - 1` ns. A reset unsignals the fences, a submission is in flight with its fence, and
a fence created unsignaled is unsignaled. -/
def Gpu.apply (g : Gpu) : Event → Option Gpu
  | .waitForFences fences waitAll _ =>
    if (if waitAll then fences.all (fun f => decide (f ∉ g.unsignaled))
        else fences.any (fun f => decide (f ∉ g.unsignaled))) then some g
    else none
  | .resetFences fences => some { g with unsignaled := fences ++ g.unsignaled }
  | .queueSubmit _ _ fence => some { g with inFlight := fence :: g.inFlight }
  | .createFence signaled fence =>
    some (if signaled then g else { g with unsignaled := fence :: g.unsignaled })
  | _ => some g

/-- The device completes the `k`-th submission in flight, which signals its fence. -/
def Gpu.complete (g : Gpu) (k : Nat) : Gpu :=
  match g.inFlight[k]? with
  | none => g
  | some f => ⟨g.unsignaled.filter (fun x => x ≠ f), g.inFlight.eraseIdx k⟩

/-- A window, the device, and the events of the running `draw` that the calling thread
has not performed yet. -/
structure Sys where
  st : State
  gpu : Gpu
  todo : List Event

/-- What can happen next: the thread that owns the window calls `draw`; it performs the
next event of the running `draw`; the device completes a submission. -/
inductive Label
  | call (env : DrawEnv) (graphicsQueue : SynchronizedQueue) (dynamic : Nat)
  | perform
  | complete (k : Nat)

/-- One step. A `draw` is called when the previous one has finished; it is a successful
`draw`: acquire succeeds, the waits return `eSuccess` and `draw` returns normally. Its
events are then performed one by one, a wait blocking until the device has signaled the
fences. Steps that cannot happen leave the system as it is. -/
def Sys.step (sys : Sys) : Label → Sys
  | .call env graphicsQueue dynamic =>
    let r := draw env graphicsQueue dynamic { sys.st with trace := [] }
    if sys.todo = [] ∧ env.acquired = eSuccess ∧ env.waitResult = eSuccess ∧
        env.recreate.waitResult = eSuccess ∧ r.1 = .ok then
      ⟨{ r.2 with trace := [] }, sys.gpu, r.2.trace⟩
    else sys
  | .perform =>
    match sys.todo with
    | [] => sys
    | e :: rest =>
      match sys.gpu.apply e with
      | none => sys
      | some g => ⟨sys.st, g, rest⟩
  | .complete k => { sys with gpu := sys.gpu.complete k }

/-- The system after the steps `labels`. -/
def Sys.run (sys : Sys) (labels : List Label) : Sys :=
  labels.foldl Sys.step sys

/-- Events that leave the fences and the submissions in flight as they are. -/
def Event.isQuiet : Event → Bool
  | .resetFences _ => false
  | .queueSubmit _ _ _ => false
  | .createFence _ _ => false
  | _ => true

/-- All events of the list are quiet. -/
def Quiet (es : List Event) : Prop := ∀ e ∈ es, e.isQuiet = true

/-- The events still to do are quiet ones and then the submission with fence `f`, followed
by quiet ones. -/
def AfterReset (f : Nat) (todo : List Event) : Prop :=
  ∃ c q submits d, todo = c ++ .queueSubmit q submits f :: d ∧ Quiet c ∧ Quiet d

/-- The events still to do are quiet ones and then the reset of `f`, followed by
`AfterReset`. -/
def AfterWait (f : Nat) (todo : List Event) : Prop :=
  ∃ b rest, todo = b ++ .resetFences [f] :: rest ∧ Quiet b ∧ AfterReset f rest

/-- How the events still to do relate to the device: either they are quiet; or the wait
on the slot fence `f` is still to come, followed by reset and submission; or the wait is
done and `f` is not in flight; or the reset is done too and `f` is unsignaled and not in
flight. -/
def Pending (F : List Nat) (g : Gpu) (todo : List Event) : Prop :=
  Quiet todo ∨
  ∃ f, f ∈ F ∧
    ((∃ a t rest, todo = a ++ .waitForFences [f] true t :: rest ∧ Quiet a ∧ AfterWait f rest) ∨
     (f ∉ g.inFlight ∧ AfterWait f todo) ∨
     (f ∉ g.inFlight ∧ f ∈ g.unsignaled ∧ AfterReset f todo))

/-- The invariant of the system with slot fences `F`: the window keeps its fences, no
two submissions in flight have the same fence, every fence in flight is an unsignaled
slot fence, and the events still to do are `Pending`. -/
structure Sys.Inv (F : List Nat) (sys : Sys) : Prop where
  fences : sys.st.win.commandBufferFences_ = F
  nodup : sys.gpu.inFlight.Nodup
  inFlight : ∀ f ∈ sys.gpu.inFlight, f ∈ F ∧ f ∈ sys.gpu.unsignaled
  pending : Pending F sys.gpu sys.todo

/-- The steps of one complete frame of the scenario on the slot `imageIndex`: the call of
`draw`, every call of the device succeeding, and ten steps of the calling thread. -/
def scenarioFrame (imageIndex : Nat) : List Label :=
  Label.call
      ⟨eSuccess, imageIndex, eSuccess, eSuccess, eSuccess, eSuccess,
        ⟨eSuccess, scenarioSurface []⟩⟩
      scenarioQueue 77 ::
    List.replicate 10 Label.perform

/-- The physical device of `scenarioInit` on a surface that offers only immediate
presentation. -/
def scenarioInitNoFifo : InitEnv :=
  ⟨[(false, true), (true, true)], [⟨eB8G8R8A8Unorm, eSrgbNonlinear⟩],
    scenarioSurfaceNoFifo [101, 102, 103], fun _ family index => 1000 + 10 * family + index⟩

/-- A physical device none of whose queue families can both draw and present, on the
surface of `scenarioInit`. -/
def scenarioInitNoPresent : InitEnv :=
  ⟨[(false, true), (true, false)], [⟨eB8G8R8A8Unorm, eSrgbNonlinear⟩],
    scenarioSurface [101, 102, 103], fun _ family index => 1000 + 10 * family + index⟩

/-- A call of the static callback of `buildStaticCBs`. -/
def Event.isStatic : Event → Bool
  | .func _ _ _ _ => true
  | _ => false

/-- Events that are neither a call of the static callback nor the creation or destruction
of an image view or of a fence. -/
def Event.isPlain : Event → Bool
  | .func _ _ _ _ => false
  | .createImageView _ _ _ => false
  | .destroyImageView _ => false
  | .createFence _ _ => false
  | .destroyFence _ => false
  | _ => true

/-- The image views created in a trace, in the order of their creation. -/
def createdViews (trace : List Event) : List Nat :=
  trace.filterMap fun e =>
    match e with
    | .createImageView _ _ imageView => some imageView
    | _ => none

/-- The image views destroyed in a trace, in the order of their destruction. -/
def destroyedViews (trace : List Event) : List Nat :=
  trace.filterMap fun e =>
    match e with
    | .destroyImageView imageView => some imageView
    | _ => none

/-- The fences created in a trace, in the order of their creation. -/
def createdFences (trace : List Event) : List Nat :=
  trace.filterMap fun e =>
    match e with
    | .createFence _ fence => some fence
    | _ => none

/-- The fences destroyed in a trace, in the order of their destruction. -/
def destroyedFences (trace : List Event) : List Nat :=
  trace.filterMap fun e =>
    match e with
    | .destroyFence fence => some fence
    | _ => none

/-- The events that a step from `s` to `s'` appended to the trace. -/
def State.since (s s' : State) : List Event := s'.trace.drop s.trace.length

/-- A step that leaves image views and fences alone: it appends only plain events, keeps
the image views and the fences of the window, and does not take back handles. -/
structure Keeps (s s' : State) : Prop where
  plain : ∃ es, s'.trace = s.trace ++ es ∧ ∀ e ∈ es, e.isPlain = true
  imageViews_ : s'.win.imageViews_ = s.win.imageViews_
  commandBufferFences_ : s'.win.commandBufferFences_ = s.win.commandBufferFences_
  fresh : s.fresh ≤ s'.fresh

/-- A step from `a` to `b` that appends events which destroy the image views `dv`, create
the image views `cv`, and neither create nor destroy a fence. -/
def ViewsDelta (a b : State) (dv cv : List Nat) : Prop :=
  ∃ es, b.trace = a.trace ++ es ∧ destroyedViews es = dv ∧ createdViews es = cv ∧
    createdFences es = [] ∧ destroyedFences es = []

/-- `vk::DescriptorType`, with the values of the Vulkan headers. -/
abbrev DescriptorType := Nat

def eCombinedImageSampler : DescriptorType := 1
def eUniformBuffer : DescriptorType := 6
def eStorageBuffer : DescriptorType := 7

/-- `vk::DescriptorPoolCreateFlagBits::eFreeDescriptorSet`. -/
def eFreeDescriptorSet : Nat := 1

/-- `vk::DescriptorPoolCreateInfo`; `poolSizeCount` is the length of `pPoolSizes`. -/
structure DescriptorPoolCreateInfo where
  flags : Nat := 0
  maxSets : Nat := 0
  pPoolSizes : List (DescriptorType × Nat) := []
deriving DecidableEq, Repr

/-- What `Framework` does to the device, to the instance and to the table of live pools.
A table and its mutex (`livePools_->first`) are named by the address of the
`SyncDescriptors` object. -/
inductive PoolEvent where
  | waitIdle (device : Nat)
  | destroyPipelineCache (pipelineCache : Nat)
  | createDescriptorPool (device : Nat) (info : DescriptorPoolCreateInfo) (pool : Nat)
  | destroyDescriptorPool (pool : Nat)
  | lock (table : Nat)
  | unlock (table : Nat)
  | insert (table threadID pool : Nat)
  | erase (table threadID : Nat)
  | clear (table : Nat)
  | destroyDevice (device : Nat)
  | destroyDebugCallback (callback : Nat)
  | destroyInstance (instance_ : Nat)
deriving DecidableEq, Repr

/-- `final_act<F>`: a function to run on destruction unless moved from. -/
structure final_act (F : Type) where
  f_ : F
  invoke_ : Bool
deriving DecidableEq, Repr

/-- `on_death(f)`. -/
def on_death {F : Type} (f : F) : final_act F := ⟨f, true⟩

/-- The move constructor of `final_act`: the new object and what is left of `other`. -/
def final_act.move {F : Type} (other : final_act F) : final_act F × final_act F :=
  (⟨other.f_, other.invoke_⟩, { other with invoke_ := false })

/-- A `SyncDescriptors` object on the heap: whether a `shared_ptr` still owns it, and its
map from thread id to pool (`second`), in insertion order. -/
structure SyncDescriptors where
  alive : Bool := false
  second : List (Nat × Nat) := []
deriving DecidableEq, Repr

/-- The `thread_local` variables of `Framework::descriptorPool` in one thread: `desc_pool`
(`none` until it is initialised) and `cleanup`, whose function captured `threadID` and
`weakLivePools`. -/
structure ThreadLocals where
  desc_pool : Option Nat := none
  cleanup : Option (final_act (Nat × Nat)) := none
deriving DecidableEq, Repr

/-- The members of `Framework` that its destructor and `descriptorPool` use. -/
structure Framework where
  instance_ : Nat := 0
  callback_ : Nat := 0
  device_ : Nat := 0
  pipelineCache_ : Nat := 0
  livePools_ : Nat := 0
deriving DecidableEq, Repr

/-- The state that `Framework` objects and threads share: the `SyncDescriptors` objects by
address, the thread-local variables by thread id, the next fresh handle or address, and
the trace. -/
structure Heap where
  tables : Nat → SyncDescriptors
  threads : Nat → ThreadLocals
  fresh : Nat
  trace : List PoolEvent

/-- Modelled from the spec: `vku::InstanceMaker`, `vku::DebugCallback` and
`vku::DeviceMaker` (declared in `vku.hpp`) create the instance, the debug/validation hook
and the device. `Framework(const std::string &name)` on the path that reaches `ok_ = true`
makes the table of live pools, the instance, the hook, the device and the pipeline cache,
in this order. -/
def Framework.create (h : Heap) : Framework × Heap :=
  ({ livePools_ := h.fresh
     instance_ := h.fresh + 1
     callback_ := h.fresh + 2
     device_ := h.fresh + 3
     pipelineCache_ := h.fresh + 4 },
   { h with
     tables := Function.update h.tables h.fresh { alive := true, second := [] }
     fresh := h.fresh + 5 })

/-- The lambda `makeDescPool` of `Framework::descriptorPool`, run by thread `threadID`.
Using a null `device_` or `livePools_`, or a table that no longer exists, is undefined.
`std::map::insert` does not replace an entry; the pool it was offered is then destroyed
with the temporary pair. The lock is released at the end of the inner block. -/
def makeDescPool (this : Framework) (threadID : Nat) (h : Heap) : Outcome × Nat × Heap :=
  let descriptorPoolInfo : DescriptorPoolCreateInfo :=
    { flags := eFreeDescriptorSet
      maxSets := 256
      pPoolSizes := [(eUniformBuffer, 128), (eCombinedImageSampler, 128), (eStorageBuffer, 128)] }
  if this.device_ = 0 then (.undefined, 0, h)
  else
    let descPool := h.fresh
    let result := descPool
    let h1 : Heap :=
      { h with
        fresh := h.fresh + 1
        trace := h.trace ++ [.createDescriptorPool this.device_ descriptorPoolInfo descPool] }
    if this.livePools_ = 0 ∨ (h1.tables this.livePools_).alive = false then
      (.undefined, result, h1)
    else
      let table := h1.tables this.livePools_
      let h2 : Heap :=
        if threadID ∈ table.second.map Prod.fst then
          { h1 with
            trace := h1.trace ++
              [.lock this.livePools_, .insert this.livePools_ threadID descPool,
               .destroyDescriptorPool descPool, .unlock this.livePools_] }
        else
          { h1 with
            tables := Function.update h1.tables this.livePools_
              { table with second := table.second ++ [(threadID, descPool)] }
            trace := h1.trace ++
              [.lock this.livePools_, .insert this.livePools_ threadID descPool,
               .unlock this.livePools_] }
      let weakLivePools := this.livePools_
      let h3 : Heap :=
        match (h2.threads threadID).cleanup with
        | some _ => h2
        | none =>
          { h2 with
            threads := Function.update h2.threads threadID
              { h2.threads threadID with cleanup := some (on_death (threadID, weakLivePools)) } }
      (.ok, result, h3)

/-- `Framework::descriptorPool`, called by thread `threadID`: `desc_pool` is initialised
with `makeDescPool()` the first time the thread gets here, and returned. -/
def descriptorPool (this : Framework) (threadID : Nat) (h : Heap) : Outcome × Nat × Heap :=
  match (h.threads threadID).desc_pool with
  | some desc_pool => (.ok, desc_pool, h)
  | none =>
    match makeDescPool this threadID h with
    | (.ok, result, h1) =>
      (.ok, result,
        { h1 with
          threads := Function.update h1.threads threadID
            { h1.threads threadID with desc_pool := some result } })
    | r => r

/-- The function given to `on_death` in `makeDescPool`: when the table still exists,
`livePools->second.erase(threadID)`, which destroys the pool of the entry. -/
def cleanupHook (f : Nat × Nat) (h : Heap) : Heap :=
  let threadID := f.1
  let weakLivePools := f.2
  if (h.tables weakLivePools).alive then
    let table := h.tables weakLivePools
    { h with
      tables := Function.update h.tables weakLivePools
        { table with second := table.second.filter (fun e => e.1 ≠ threadID) }
      trace := h.trace ++ [.erase weakLivePools threadID] ++
        (table.second.filter (fun e => e.1 = threadID)).map
          (fun e => PoolEvent.destroyDescriptorPool e.2) }
  else h

/-- The destructor of the `final_act` that holds the exit hook. -/
def final_act.destroy (a : final_act (Nat × Nat)) (h : Heap) : Heap :=
  if a.invoke_ then cleanupHook a.f_ h else h

/-- Thread `threadID` ends: its thread-local variables are destroyed; a later thread with
the same id starts with fresh ones. -/
def threadExit (threadID : Nat) (h : Heap) : Heap :=
  let h1 :=
    match (h.threads threadID).cleanup with
    | some cleanup => cleanup.destroy h
    | none => h
  { h1 with threads := Function.update h1.threads threadID {} }

/-- Modelled from the spec: `DebugCallback::reset` (declared in `vku.hpp`) releases the
debug/validation hook, if there is one. -/
def DebugCallback.reset (callback : Nat) : List PoolEvent :=
  if callback = 0 then [] else [.destroyDebugCallback callback]

/-- `Framework::~Framework`, followed by the destruction of the member `livePools_`, the
only owner of the table. `device_->waitIdle()` is taken to return. The lock guard taken
before `clear()` lives to the end of the `if (device_)` block, after `device_.reset()`. -/
def Framework.destroy (this : Framework) (h : Heap) : Outcome × Framework × Heap :=
  let r : Outcome × Framework × Heap :=
    if this.device_ = 0 then (.ok, this, h)
    else
      let h1 : Heap :=
        { h with
          trace := h.trace ++ [.waitIdle this.device_] ++
            (if this.pipelineCache_ = 0 then []
             else [.destroyPipelineCache this.pipelineCache_]) }
      if this.livePools_ = 0 ∨ (h1.tables this.livePools_).alive = false then
        (.undefined, { this with pipelineCache_ := 0 }, h1)
      else
        let table := h1.tables this.livePools_
        (.ok, { this with pipelineCache_ := 0, device_ := 0 },
          { h1 with
            tables := Function.update h1.tables this.livePools_ { table with second := [] }
            trace := h1.trace ++ [.lock this.livePools_, .clear this.livePools_] ++
              table.second.map (fun e => PoolEvent.destroyDescriptorPool e.2) ++
              [.destroyDevice this.device_, .unlock this.livePools_] })
  match r with
  | (.ok, fw1, h1) =>
    let fw2 : Framework :=
      if fw1.instance_ = 0 then fw1 else { fw1 with callback_ := 0, instance_ := 0 }
    let h2 : Heap :=
      if fw1.instance_ = 0 then h1
      else
        { h1 with
          trace := h1.trace ++ DebugCallback.reset fw1.callback_ ++
            [.destroyInstance fw1.instance_] }
    let h3 : Heap :=
      if fw2.livePools_ = 0 then h2
      else
        { h2 with
          tables := Function.update h2.tables fw2.livePools_ { alive := false, second := [] }
          trace := h2.trace ++
            (h2.tables fw2.livePools_).second.map
              (fun e => PoolEvent.destroyDescriptorPool e.2) }
    (.ok, { fw2 with livePools_ := 0 }, h3)
  | r => r

/-- The `Framework` objects of a process, by index (`none` once destroyed), and the state
they share. -/
structure Process where
  frameworks : List (Option Framework)
  heap : Heap

/-- A process before any `Framework` was made, the device handing out handles from `1`. -/
def Process.start : Process := ⟨[], ⟨fun _ => {}, fun _ => {}, 1, []⟩⟩

/-- What a process does next: construct a `Framework`, call `descriptorPool` of a
`Framework` from a thread, end a thread, destroy a `Framework`. -/
inductive Op where
  | construct
  | descriptorPool (framework threadID : Nat)
  | threadExit (threadID : Nat)
  | destroy (framework : Nat)
deriving DecidableEq, Repr

/-- One operation. Calls on a `Framework` that does not exist are not made. -/
def Process.step (p : Process) : Op → Process
  | .construct => ⟨p.frameworks ++ [some (Framework.create p.heap).1], (Framework.create p.heap).2⟩
  | .descriptorPool i threadID =>
    match p.frameworks[i]? with
    | some (some fw) => { p with heap := (descriptorPool fw threadID p.heap).2.2 }
    | _ => p
  | .threadExit threadID => { p with heap := threadExit threadID p.heap }
  | .destroy i =>
    match p.frameworks[i]? with
    | some (some fw) => ⟨p.frameworks.set i none, (fw.destroy p.heap).2.2⟩
    | _ => p

/-- A run of operations. -/
def Process.run (ops : List Op) (p : Process) : Process := ops.foldl Process.step p

/-! ## A concrete process -/

/-- The first `Framework` of `scenarioProcess`: table 1, instance 2, debug callback 3,
device 4, pipeline cache 5. -/
def scenarioFrameworkA : Framework :=
  { livePools_ := 1, instance_ := 2, callback_ := 3, device_ := 4, pipelineCache_ := 5 }

/-- The second `Framework` of `scenarioProcess`: table 6, instance 7, debug callback 8,
device 9, pipeline cache 10. -/
def scenarioFrameworkB : Framework :=
  { livePools_ := 6, instance_ := 7, callback_ := 8, device_ := 9, pipelineCache_ := 10 }

/-- Two `Framework` objects were constructed, and thread 7 has called `descriptorPool` of
the first. -/
def scenarioProcess : Process :=
  Process.run [.construct, .construct, .descriptorPool 0 7] Process.start

/-! ## Invariant of the per-thread pools -/

/-- How thread-local variables and tables fit together in a process: a thread that has
its pool has its hook, which is armed and bound to the thread and to one table, and that
table, while it exists, holds the pool under the thread's id; a thread without a pool has
no hook; every entry of a table belongs to the thread it names; a table that no longer
exists is empty; no table has two entries for a thread; the tables the hooks are bound to
were made earlier. -/
structure Heap.OK (h : Heap) : Prop where
  pool : ∀ (threadID pool : Nat), (h.threads threadID).desc_pool = some pool →
    ∃ table, (h.threads threadID).cleanup = some (on_death (threadID, table)) ∧
      ((h.tables table).alive = true → (threadID, pool) ∈ (h.tables table).second)
  nohook : ∀ (threadID : Nat), (h.threads threadID).desc_pool = none →
    (h.threads threadID).cleanup = none
  entry : ∀ (table threadID pool : Nat), (threadID, pool) ∈ (h.tables table).second →
    (h.threads threadID).desc_pool = some pool ∧
    (h.threads threadID).cleanup = some (on_death (threadID, table))
  dead : ∀ (table : Nat), (h.tables table).alive = false → (h.tables table).second = []
  keys : ∀ (table : Nat), ((h.tables table).second.map Prod.fst).Nodup
  bound : ∀ (threadID : Nat) (f : final_act (Nat × Nat)),
    (h.threads threadID).cleanup = some f → f.f_.2 < h.fresh
  fresh : 0 < h.fresh

/-- The `Framework` objects of a process that have not been destroyed own a device and a
table that exists, and no two of them share a table. -/
structure Process.OK (p : Process) : Prop where
  heap : p.heap.OK
  live : ∀ (i : Nat) (fw : Framework), p.frameworks[i]? = some (some fw) →
    fw.device_ ≠ 0 ∧ fw.livePools_ ≠ 0 ∧ fw.livePools_ < p.heap.fresh ∧
      (p.heap.tables fw.livePools_).alive = true
  distinct : ∀ (i j : Nat) (fw fw' : Framework), p.frameworks[i]? = some (some fw) →
    p.frameworks[j]? = some (some fw') → fw.livePools_ = fw'.livePools_ → i = j

/-! # Theorems -/

/-! ### Lemmas on the registry -/

theorem lookup_snoc_of_mem {l : List (Request × SynchronizedQueue)} {k k' : Request}
    {v v' : SynchronizedQueue} (h : l.lookup k = some v) :
    (l ++ [(k', v')]).lookup k = some v := by
  induction l with
  | nil => simp at h
  | cons e l ih =>
    obtain ⟨a, b⟩ := e
    by_cases hk : k = a
    · subst hk
      simp_all [List.lookup]
    · have hb : (k == a) = false := by simpa using hk
      simp only [List.cons_append, List.lookup, hb] at h ⊢
      exact ih h

theorem lookup_snoc_of_none {l : List (Request × SynchronizedQueue)} {k : Request}
    {v : SynchronizedQueue} (h : l.lookup k = none) :
    (l ++ [(k, v)]).lookup k = some v := by
  induction l with
  | nil => simp [List.lookup]
  | cons e l ih =>
    obtain ⟨a, b⟩ := e
    by_cases hk : k = a
    · subst hk
      simp [List.lookup] at h
    · have hb : (k == a) = false := by simpa using hk
      simp only [List.cons_append, List.lookup, hb] at h ⊢
      exact ih h

theorem lookup_none_iff {l : List (Request × SynchronizedQueue)} {k : Request} :
    l.lookup k = none ↔ k ∉ l.map Prod.fst := by
  induction l with
  | nil => simp
  | cons e l ih =>
    obtain ⟨a, b⟩ := e
    by_cases hk : k = a
    · subst hk
      simp [List.lookup]
    · have hb : (k == a) = false := by simpa using hk
      simp only [List.lookup, hb, List.map_cons, List.mem_cons, hk, false_or]
      exact ih

theorem mem_of_lookup {l : List (Request × SynchronizedQueue)} {k : Request}
    {v : SynchronizedQueue} (h : l.lookup k = some v) : (k, v) ∈ l := by
  induction l with
  | nil => simp at h
  | cons e l ih =>
    obtain ⟨a, b⟩ := e
    by_cases hk : k = a
    · subst hk
      simp [List.lookup] at h
      simp [h]
    · have hb : (k == a) = false := by simpa using hk
      simp only [List.lookup, hb] at h
      exact List.mem_cons_of_mem _ (ih h)

theorem RegistryOK.empty : RegistryOK QueueRegistry.empty [] [] where
  nodup := by simp [QueueRegistry.empty]
  keys := by simp [QueueRegistry.empty]
  count := rfl
  fresh := by simp [QueueRegistry.empty]
  len := rfl
  handle := by simp

theorem getQueue_of_lookup_some (g : Nat → Nat → Nat → Nat) (reg : QueueRegistry)
    (k : Request) (h : SynchronizedQueue) (hl : reg.allQueues.lookup k = some h) :
    getQueue g reg k.1 k.2.1 k.2.2 = (h, reg) := by
  simp [getQueue, hl]

theorem getQueue_of_lookup_none (g : Nat → Nat → Nat → Nat) (reg : QueueRegistry)
    (k : Request) (hl : reg.allQueues.lookup k = none) :
    getQueue g reg k.1 k.2.1 k.2.2 =
      (⟨g k.1 k.2.1 k.2.2, reg.heapMutexes + 1⟩,
       ⟨reg.allQueues ++ [(k, ⟨g k.1 k.2.1 k.2.2, reg.heapMutexes + 1⟩)],
        reg.heapMutexes + 1⟩) := by
  simp [getQueue, hl]

theorem RegistryOK.step (g : Nat → Nat → Nat → Nat) {reg : QueueRegistry}
    {seen : List Request} {hs : List SynchronizedQueue} (ok : RegistryOK reg seen hs)
    (k : Request) :
    RegistryOK (getQueue g reg k.1 k.2.1 k.2.2).2 (seen ++ [k])
      (hs ++ [(getQueue g reg k.1 k.2.1 k.2.2).1]) := by
  cases hl : reg.allQueues.lookup k with
  | some h =>
    rw [getQueue_of_lookup_some g reg k h hl]
    have hk : k ∈ seen := by
      rw [← ok.keys]
      by_contra hc
      rw [← lookup_none_iff, hl] at hc
      exact absurd hc (by simp)
    refine ⟨ok.nodup, ?_, ok.count, ok.fresh, by simp [ok.len], ?_⟩
    · intro k'
      rw [ok.keys, List.mem_append, List.mem_singleton]
      constructor
      · exact Or.inl
      · rintro (h1 | h1)
        · exact h1
        · exact h1 ▸ hk
    · intro i k' hi
      by_cases hlt : i < seen.length
      · rw [List.getElem?_append_left hlt] at hi
        rw [List.getElem?_append_left (by rw [ok.len]; exact hlt)]
        exact ok.handle i k' hi
      · have hge : seen.length ≤ i := Nat.le_of_not_lt hlt
        rw [List.getElem?_append_right hge] at hi
        rw [List.getElem?_append_right (by rw [ok.len]; exact hge), ok.len]
        cases hd : i - seen.length with
        | zero =>
          rw [hd] at hi
          simp only [List.getElem?_cons_zero, Option.some.injEq] at hi
          subst hi
          exact ⟨h, by simp, hl⟩
        | succ n => rw [hd] at hi; simp at hi
  | none =>
    rw [getQueue_of_lookup_none g reg k hl]
    have hk : k ∉ reg.allQueues.map Prod.fst := lookup_none_iff.1 hl
    refine ⟨?_, ?_, ?_, ?_, by simp [ok.len], ?_⟩
    · simp only [List.map_append, List.map_cons, List.map_nil]
      rw [List.nodup_append]
      refine ⟨ok.nodup, by simp, ?_⟩
      intro a ha hb
      rw [List.mem_singleton] at hb
      exact hk (hb ▸ ha)
    · intro k'
      simp only [List.map_append, List.map_cons, List.map_nil, List.mem_append,
        List.mem_singleton]
      rw [ok.keys]
    · simp [ok.count]
    · intro e he
      simp only [List.mem_append, List.mem_singleton] at he
      rcases he with he | he
      · exact Nat.le_succ_of_le (ok.fresh e he)
      · subst he
        exact Nat.le_refl _
    · intro i k' hi
      by_cases hlt : i < seen.length
      · rw [List.getElem?_append_left hlt] at hi
        rw [List.getElem?_append_left (by rw [ok.len]; exact hlt)]
        obtain ⟨h, h1, h2⟩ := ok.handle i k' hi
        exact ⟨h, h1, lookup_snoc_of_mem h2⟩
      · have hge : seen.length ≤ i := Nat.le_of_not_lt hlt
        rw [List.getElem?_append_right hge] at hi
        rw [List.getElem?_append_right (by rw [ok.len]; exact hge), ok.len]
        cases hd : i - seen.length with
        | zero =>
          rw [hd] at hi
          simp only [List.getElem?_cons_zero, Option.some.injEq] at hi
          subst hi
          exact ⟨_, by simp, lookup_snoc_of_none hl⟩
        | succ n => rw [hd] at hi; simp at hi

theorem RegistryOK.calls (g : Nat → Nat → Nat → Nat) (ks : List Request) :
    ∀ {reg : QueueRegistry} {seen : List Request} {hs : List SynchronizedQueue},
      RegistryOK reg seen hs →
      RegistryOK (getQueueCalls g reg ks).2 (seen ++ ks) (hs ++ (getQueueCalls g reg ks).1) := by
  induction ks with
  | nil => intro reg seen hs ok; simpa [getQueueCalls] using ok
  | cons k ks ih =>
    intro reg seen hs ok
    have h := ih (ok.step g k)
    simpa [getQueueCalls, List.append_assoc] using h

theorem RegistryOK.run (g : Nat → Nat → Nat → Nat) (reqs : List Request) :
    RegistryOK (getQueueCalls g QueueRegistry.empty reqs).2 reqs
      (getQueueCalls g QueueRegistry.empty reqs).1 := by
  simpa using RegistryOK.calls g reqs RegistryOK.empty

theorem RegistryOK.length_eq {reg : QueueRegistry} {seen : List Request}
    {hs : List SynchronizedQueue} (ok : RegistryOK reg seen hs) :
    reg.allQueues.length = seen.dedup.length := by
  have hp : (reg.allQueues.map Prod.fst).Perm seen.dedup :=
    (List.perm_ext_iff_of_nodup ok.nodup (List.nodup_dedup seen)).2
      (fun k => by rw [ok.keys, List.mem_dedup])
  simpa using hp.length_eq

/-! ### C1 -/

/-- C1: after any sequence `reqs` of `Framework::getQueue` calls the registry holds one
entry, and one allocated mutex, per distinct key requested. A further call with a key
`k` not requested before creates exactly one entry (the raw queue of the device with a
fresh non-null mutex, different from every stored one) and stores it; a further call with a key
requested before leaves the registry untouched and returns the very handle (same queue,
same mutex) that every earlier caller with that key received, which is the stored
entry. -/
theorem getQueue_one_entry_per_key (g : Nat → Nat → Nat → Nat) (reqs : List Request)
    (k : Request) :
    let hs := (getQueueCalls g QueueRegistry.empty reqs).1
    let reg := (getQueueCalls g QueueRegistry.empty reqs).2
    let out := getQueue g reg k.1 k.2.1 k.2.2
    (reg.allQueues.length = reqs.dedup.length ∧ reg.heapMutexes = reqs.dedup.length) ∧
    (k ∉ reqs →
      out.1 = ⟨g k.1 k.2.1 k.2.2, reg.heapMutexes + 1⟩ ∧
      out.2.allQueues = reg.allQueues ++ [(k, out.1)] ∧
      out.2.heapMutexes = reg.heapMutexes + 1 ∧
      ∀ e ∈ reg.allQueues, e.2.mtx ≠ out.1.mtx) ∧
    (k ∈ reqs →
      out.2 = reg ∧ (k, out.1) ∈ reg.allQueues ∧
      ∀ i : Nat, reqs[i]? = some k → hs[i]? = some out.1) := by
  intro hs reg out
  have ok : RegistryOK reg reqs hs := RegistryOK.run g reqs
  refine ⟨⟨ok.length_eq, by rw [ok.count, ok.length_eq]⟩, ?_, ?_⟩
  · intro hk
    have hl : reg.allQueues.lookup k = none :=
      lookup_none_iff.2 (fun hc => hk ((ok.keys k).1 hc))
    have ho : out = _ := getQueue_of_lookup_none g reg k hl
    rw [ho]
    refine ⟨rfl, rfl, rfl, ?_⟩
    intro e he
    exact Nat.ne_of_lt (Nat.lt_succ_of_le (ok.fresh e he))
  · intro hk
    cases hl : reg.allQueues.lookup k with
    | none => exact absurd ((ok.keys k).2 hk) (lookup_none_iff.1 hl)
    | some h =>
      have ho : out = _ := getQueue_of_lookup_some g reg k h hl
      rw [ho]
      refine ⟨rfl, mem_of_lookup hl, ?_⟩
      intro i hi
      obtain ⟨h', h1, h2⟩ := ok.handle i k hi
      rw [hl] at h2
      rw [h1, Option.some.inj h2]

/-! ### Lemmas on interleaved queue calls -/

theorem program_nil : program [] = [] := rfl

theorem program_cons (c : QueueCall) (cs : List QueueCall) :
    program (c :: cs) = c.events ++ program cs := by
  simp [program]

theorem Machine.OK_start (progs : List (List QueueCall)) : (Machine.start progs).OK := by
  intro i t ht
  simp only [Machine.start, List.getElem?_map, Option.map_eq_some'] at ht
  obtain ⟨cs, _, rfl⟩ := ht
  exact ⟨cs, Or.inl ⟨rfl, rfl⟩⟩

theorem getElem?_set_some {α : Type} {l : List α} {i j : Nat} {a b : α}
    (h : (l.set j a)[i]? = some b) : (i = j ∧ b = a) ∨ (i ≠ j ∧ l[i]? = some b) := by
  by_cases hij : i = j
  · subst hij
    left
    refine ⟨rfl, ?_⟩
    rw [List.getElem?_set_self'] at h
    cases hl : l[i]? with
    | none => rw [hl] at h; simp at h
    | some x => rw [hl] at h; simpa using h.symm
  · right
    rw [List.getElem?_set_ne (Ne.symm hij)] at h
    exact ⟨hij, h⟩

theorem ThreadOK.update {owner : Nat → Option Nat} {i : Nat} {t : Thread} (x : Nat)
    (v : Option Nat) (h : ThreadOK owner i t) (hx : owner x ≠ some i) :
    ThreadOK (Function.update owner x v) i t := by
  obtain ⟨cs, h1 | ⟨c, y, hc, ht, ho⟩ | ⟨hin, y, ht, ho⟩⟩ := h
  · exact ⟨cs, Or.inl h1⟩
  · have hne : y ≠ x := fun e => hx (e ▸ ho)
    exact ⟨cs, Or.inr (Or.inl ⟨c, y, hc, ht, by rw [Function.update_noteq hne]; exact ho⟩)⟩
  · have hne : y ≠ x := fun e => hx (e ▸ ho)
    exact ⟨cs, Or.inr (Or.inr ⟨hin, y, ht, by rw [Function.update_noteq hne]; exact ho⟩)⟩

/-- A step of thread `j` that puts it in a good place and changes the owner of at most one
mutex, which no other thread holds, keeps the machine good. -/
theorem Machine.OK_set {m : Machine} {j : Nat} (t' : Thread) (owner' : Nat → Option Nat)
    (hj : ThreadOK owner' j t')
    (ho : ∀ i t, i ≠ j → m.threads[i]? = some t → ThreadOK owner' i t) :
    Machine.OK ⟨m.threads.set j t', owner'⟩ := by
  intro i t ht
  rcases getElem?_set_some ht with ⟨rfl, rfl⟩ | ⟨hne, hi⟩
  · exact hj
  · exact ho i t hne hi

theorem Machine.OK_step (m : Machine) (j : Nat) (h : m.OK) : (m.step j).OK := by
  unfold Machine.step
  cases hj : m.threads[j]? with
  | none => exact h
  | some t =>
    have hall : ∀ i t2, i ≠ j → m.threads[i]? = some t2 → ThreadOK m.owner i t2 :=
      fun i t2 _ hi => h i t2 hi
    obtain ⟨cs, ⟨hin, htodo⟩ | ⟨c, x, hc, htodo, hown⟩ | ⟨hin, x, htodo, hown⟩⟩ := h j t hj
    · obtain ⟨todo, inCall⟩ := t
      simp only at hin htodo
      subst hin htodo
      cases cs with
      | nil => exact h
      | cons c cs =>
        have hev : ∃ q e, e.isQueueCall = true ∧
            program (c :: cs) = .lock q :: e :: .unlock q :: program cs := by
          cases c with
          | submit q s f => exact ⟨q.mtx, .queueSubmit q.t s f, rfl, by rw [program_cons]; rfl⟩
          | presentKHR q p =>
            exact ⟨q.mtx, .queuePresentKHR q.t p, rfl, by rw [program_cons]; rfl⟩
        obtain ⟨q, e, he, hprog⟩ := hev
        simp only [hprog]
        split
        · rename_i hfree
          refine Machine.OK_set _ _ ⟨cs, Or.inr (Or.inl ⟨e, q, he, rfl, by simp⟩)⟩ ?_
          intro i t2 _ hi
          exact (h i t2 hi).update q _ (by rw [hfree]; simp)
        · exact h
    · obtain ⟨todo, inCall⟩ := t
      simp only at htodo
      subst htodo
      have hgoal : ∀ b : Bool, Machine.OK
          (if b = true then
            (⟨m.threads.set j ⟨.unlock x :: program cs, false⟩, m.owner⟩ : Machine)
          else ⟨m.threads.set j ⟨c :: .unlock x :: program cs, true⟩, m.owner⟩) := by
        intro b
        split
        · exact Machine.OK_set _ _ ⟨cs, Or.inr (Or.inr ⟨rfl, x, rfl, hown⟩)⟩ hall
        · exact Machine.OK_set _ _ ⟨cs, Or.inr (Or.inl ⟨c, x, hc, rfl, hown⟩)⟩ hall
      cases c <;> first | exact hgoal inCall | simp [Event.isQueueCall] at hc
    · obtain ⟨todo, inCall⟩ := t
      simp only at hin htodo
      subst hin htodo
      simp only
      refine Machine.OK_set _ _ ⟨cs, Or.inl ⟨rfl, rfl⟩⟩ ?_
      intro i t2 hne hi
      refine (h i t2 hi).update x _ ?_
      rw [hown]
      intro e
      exact hne (Option.some.inj e).symm

theorem Machine.OK_run (sched : List Nat) : ∀ m : Machine, m.OK → (m.run sched).OK := by
  induction sched with
  | nil => intro m h; exact h
  | cons j sched ih => intro m h; exact ih _ (Machine.OK_step m j h)

theorem ThreadOK.owner_of_inCallVia {owner : Nat → Option Nat} {i : Nat} {t : Thread}
    {e : SynchronizedQueue} (h : ThreadOK owner i t) (hc : t.inCallVia e = true) :
    owner e.mtx = some i := by
  obtain ⟨cs, ⟨hin, _⟩ | ⟨c, x, _, ht, ho⟩ | ⟨hin, _⟩⟩ := h
  · simp [Thread.inCallVia, hin] at hc
  · simp only [Thread.inCallVia, ht, Bool.and_eq_true] at hc
    cases c <;> simp_all
  · simp [Thread.inCallVia, hin] at hc

theorem filter_length_le_one {α : Type} (p : α → Bool) :
    ∀ (l : List α),
      (∀ (i j : Nat) (a b : α), l[i]? = some a → l[j]? = some b → p a = true →
        p b = true → i = j) →
      (l.filter p).length ≤ 1 := by
  intro l
  induction l with
  | nil => intro _; simp
  | cons a l ih =>
    intro h
    have hl : ∀ (i j : Nat) (x y : α), l[i]? = some x → l[j]? = some y → p x = true →
        p y = true → i = j := by
      intro i j x y hx hy px py
      have := h (i + 1) (j + 1) x y (by simpa using hx) (by simpa using hy) px py
      omega
    by_cases pa : p a = true
    · have hnone : l.filter p = [] := by
        rw [List.filter_eq_nil_iff]
        intro b hb pb
        obtain ⟨n, hn⟩ := List.mem_iff_getElem?.1 hb
        have := h 0 (n + 1) a b (by simp) (by simpa using hn) pa pb
        omega
      simp [List.filter_cons, pa, hnone]
    · simp only [List.filter_cons, pa]
      exact ih hl

/-! ### C2 -/

/-- C2: `SynchronizedQueue::submit` and `SynchronizedQueue::presentKHR` lock the entry's
mutex, then make the underlying queue call, then unlock. For threads that make any calls
through any handles, under every schedule, at most one thread is inside an underlying
queue call made through a given entry `e`, and a thread inside such a call holds the
mutex of `e`. -/
theorem synchronized_queue_calls_never_overlap (progs : List (List QueueCall))
    (sched : List Nat) (e : SynchronizedQueue) :
    let m := (Machine.start progs).run sched
    (m.threads.filter (Thread.inCallVia e)).length ≤ 1 ∧
    (∀ (i : Nat) (t : Thread), m.threads[i]? = some t → t.inCallVia e = true →
      m.owner e.mtx = some i) ∧
    (∀ (q : SynchronizedQueue) (submits : List SubmitInfo) (fence : Nat),
      q.submit submits fence =
        [.lock q.mtx, .queueSubmit q.t submits fence, .unlock q.mtx]) ∧
    (∀ (q : SynchronizedQueue) (presentInfo : PresentInfoKHR),
      q.presentKHR presentInfo =
        [.lock q.mtx, .queuePresentKHR q.t presentInfo, .unlock q.mtx]) := by
  intro m
  have ok : m.OK := Machine.OK_run sched _ (Machine.OK_start progs)
  have hown : ∀ (i : Nat) (t : Thread), m.threads[i]? = some t → t.inCallVia e = true →
      m.owner e.mtx = some i := fun i t hi hc => (ok i t hi).owner_of_inCallVia hc
  refine ⟨?_, hown, fun _ _ _ => rfl, fun _ _ => rfl⟩
  apply filter_length_le_one
  intro i j a b ha hb pa pb
  have h1 := hown i a ha pa
  have h2 := hown j b hb pb
  rw [h1] at h2
  exact Option.some.inj h2

/-! ### Lemmas on the window -/

@[simp] theorem State.emit_trace (s : State) (es : List Event) :
    (s.emit es).trace = s.trace ++ es := rfl

@[simp] theorem State.emit_win (s : State) (es : List Event) : (s.emit es).win = s.win := rfl

@[simp] theorem State.emit_fresh (s : State) (es : List Event) :
    (s.emit es).fresh = s.fresh := rfl

@[simp] theorem State.emit_queues (s : State) (es : List Event) :
    (s.emit es).queues = s.queues := rfl

theorem State.emit_emit (s : State) (es fs : List Event) :
    (s.emit es).emit fs = s.emit (es ++ fs) := by
  simp [State.emit, List.append_assoc]

theorem Rebuilds.refl (s : State) : Rebuilds s s := ⟨[], by simp, by simp⟩

theorem Rebuilds.trans {a b c : State} (h1 : Rebuilds a b) (h2 : Rebuilds b c) :
    Rebuilds a c := by
  obtain ⟨es, he, hes⟩ := h1
  obtain ⟨fs, hf, hfs⟩ := h2
  refine ⟨es ++ fs, by rw [hf, he, List.append_assoc], ?_⟩
  intro e hm
  rcases List.mem_append.1 hm with h | h
  · exact hes e h
  · exact hfs e h

theorem createSwapchain_rebuilds (env : SurfaceEnv) (s : State) :
    Rebuilds s (createSwapchain env s).2 := by
  unfold createSwapchain
  split
  · exact Rebuilds.refl s
  · split
    · refine ⟨_, by simp only [List.append_assoc]; rfl, ?_⟩
      intro e he
      simp only [List.mem_append, List.mem_singleton] at he
      rcases he with rfl | he
      · rfl
      · split at he
        · simp at he
        · simp only [List.mem_singleton] at he
          subst he
          rfl
    · exact ⟨_, rfl, by simp [Event.isRebuild]⟩

theorem mem_zipWith {α β γ : Type} (f : α → β → γ) :
    ∀ (l : List α) (r : List β) (c : γ), c ∈ List.zipWith f l r → ∃ a b, c = f a b := by
  intro l
  induction l with
  | nil => intro r c h; simp at h
  | cons a l ih =>
    intro r c h
    cases r with
    | nil => simp at h
    | cons b r =>
      simp only [List.zipWith_cons_cons, List.mem_cons] at h
      rcases h with rfl | h
      · exact ⟨a, b, rfl⟩
      · exact ih r c h

theorem createImages_rebuilds (env : SurfaceEnv) (s : State) :
    Rebuilds s (createImages env s).2 := by
  unfold createImages
  split
  · exact Rebuilds.refl s
  · refine ⟨_, by simp only [List.append_assoc]; rfl, ?_⟩
    intro e he
    simp only [List.mem_append, List.mem_map] at he
    rcases he with ⟨iv, _, rfl⟩ | he
    · rfl
    · obtain ⟨a, b, rfl⟩ := mem_zipWith _ _ _ _ he
      rfl

theorem createDepthStencil_rebuilds (s : State) : Rebuilds s (createDepthStencil s) := by
  unfold createDepthStencil
  refine ⟨_, by simp only [List.append_assoc]; rfl, ?_⟩
  intro e he
  simp only [List.mem_append, List.mem_singleton] at he
  rcases he with rfl | he
  · rfl
  · split at he
    · simp at he
    · simp only [List.mem_singleton] at he
      subst he
      rfl

theorem createFrameBuffers_rebuilds (s : State) : Rebuilds s (createFrameBuffers s) := by
  unfold createFrameBuffers
  refine ⟨_, by simp only [List.append_assoc]; rfl, ?_⟩
  intro e he
  simp only [List.mem_append, List.mem_map] at he
  rcases he with ⟨iv, _, rfl⟩ | he
  · rfl
  · obtain ⟨a, b, rfl⟩ := mem_zipWith _ _ _ _ he
    rfl

theorem buildStaticCBsFrom_rebuilds (w : Window) (f : Nat) :
    ∀ (cbs : List Nat) (i : Nat), ∀ e ∈ (buildStaticCBsFrom w f i cbs).2, e.isRebuild = true := by
  intro cbs
  induction cbs with
  | nil => intro i e he; simp [buildStaticCBsFrom] at he
  | cons cb cbs ih =>
    intro i e he
    unfold buildStaticCBsFrom at he
    split at he
    · simp at he
    · simp only [List.mem_cons] at he
      rcases he with rfl | he
      · rfl
      · exact ih (i + 1) e he

theorem buildStaticCBs_rebuilds (s : State) : Rebuilds s (buildStaticCBs s).2 := by
  unfold buildStaticCBs
  split
  · exact Rebuilds.refl s
  · exact ⟨_, rfl, buildStaticCBsFrom_rebuilds _ _ _ _⟩

theorem recreate_rebuilds (env : RecreateEnv) (s : State) :
    Rebuilds (s.emit [.recreate, .waitForFences s.win.commandBufferFences_ true umax])
      (recreate env s).2 := by
  unfold recreate
  simp only
  split
  · split
    · rename_i s1 h1
      have r1 : Rebuilds
          (s.emit [.recreate, .waitForFences s.win.commandBufferFences_ true umax]) s1 := by
        have := createSwapchain_rebuilds env.surface
          (s.emit [.recreate, .waitForFences s.win.commandBufferFences_ true umax])
        rwa [h1] at this
      split
      · rename_i s2 h2
        have r2 : Rebuilds s1 s2 := by
          have := createImages_rebuilds env.surface s1
          rwa [h2] at this
        exact r1.trans (r2.trans ((createDepthStencil_rebuilds s2).trans
          ((createFrameBuffers_rebuilds _).trans (buildStaticCBs_rebuilds _))))
      · exact r1.trans (createImages_rebuilds env.surface s1)
    · exact createSwapchain_rebuilds env.surface _
  · exact Rebuilds.refl _

theorem isQueueCall_of_isRebuild {e : Event} (h : e.isRebuild = true) :
    e.isQueueCall = false := by
  cases e <;> first | rfl | simp [Event.isRebuild] at h

theorem filter_isQueueCall_of_rebuild {es : List Event} (h : ∀ e ∈ es, e.isRebuild = true) :
    es.filter Event.isQueueCall = [] := by
  rw [List.filter_eq_nil_iff]
  intro e he
  simp [isQueueCall_of_isRebuild (h e he)]

theorem recreate_trace (env : RecreateEnv) (s : State) :
    ∃ es, (recreate env s).2.trace =
        s.trace ++ .recreate :: .waitForFences s.win.commandBufferFences_ true umax :: es ∧
      ∀ e ∈ es, e.isRebuild = true := by
  obtain ⟨es, h1, h2⟩ := recreate_rebuilds env s
  exact ⟨es, by simpa using h1, h2⟩

theorem resultCheck_cases (r : Result) (l : List Result) :
    (r ∈ l ∧ resultCheck r l = .ok) ∨ (r ∉ l ∧ resultCheck r l = .threw r) := by
  unfold resultCheck
  by_cases h : r ∈ l
  · exact Or.inl ⟨h, by simp [h]⟩
  · exact Or.inr ⟨h, by simp [h]⟩

theorem draw_not_acquired (env : DrawEnv) (graphicsQueue : SynchronizedQueue)
    (dynamic : Nat) (s : State) (hacq : env.acquired ≠ eSuccess) :
    draw env graphicsQueue dynamic s =
      recreate env.recreate
        (s.emit [.acquireNextImageKHR s.win.swapchain_ umax s.win.imageAcquireSemaphore_ 0]) := by
  unfold draw
  simp only [hacq, ne_eq, not_false_eq_true, if_true]

theorem draw_no_slot (env : DrawEnv) (graphicsQueue : SynchronizedQueue)
    (dynamic : Nat) (s : State) (hacq : env.acquired = eSuccess)
    (h : s.win.staticDrawBuffers_[env.imageIndex]? = none ∨
      s.win.dynamicDrawBuffers_[env.imageIndex]? = none ∨
      s.win.commandBufferFences_[env.imageIndex]? = none) :
    draw env graphicsQueue dynamic s =
      (.undefined,
        s.emit [.acquireNextImageKHR s.win.swapchain_ umax s.win.imageAcquireSemaphore_ 0]) := by
  unfold draw
  simp only [hacq, ne_eq, not_true_eq_false, if_false]
  split
  · rename_i h1 h2 h3
    rcases h with h | h | h
    · rw [h] at h1; cases h1
    · rw [h] at h2; cases h2
    · rw [h] at h3; cases h3
  · rfl

theorem draw_wait_throws (env : DrawEnv) (graphicsQueue : SynchronizedQueue)
    (dynamic : Nat) (s : State) (cb pscb cbFence : Nat)
    (hacq : env.acquired = eSuccess)
    (hcb : s.win.staticDrawBuffers_[env.imageIndex]? = some cb)
    (hpscb : s.win.dynamicDrawBuffers_[env.imageIndex]? = some pscb)
    (hf : s.win.commandBufferFences_[env.imageIndex]? = some cbFence)
    (hw : env.waitResult ∉ [eSuccess, eTimeout]) :
    draw env graphicsQueue dynamic s =
      (.threw env.waitResult,
        s.emit [.acquireNextImageKHR s.win.swapchain_ umax s.win.imageAcquireSemaphore_ 0,
          .waitForFences [cbFence] true umax]) := by
  unfold draw
  simp only [hacq, hcb, hpscb, hf, ne_eq, not_true_eq_false, if_false, resultCheck, hw,
    State.emit_emit]
  rfl

theorem draw_reset_throws (env : DrawEnv) (graphicsQueue : SynchronizedQueue)
    (dynamic : Nat) (s : State) (cb pscb cbFence : Nat)
    (hacq : env.acquired = eSuccess)
    (hcb : s.win.staticDrawBuffers_[env.imageIndex]? = some cb)
    (hpscb : s.win.dynamicDrawBuffers_[env.imageIndex]? = some pscb)
    (hf : s.win.commandBufferFences_[env.imageIndex]? = some cbFence)
    (hw : env.waitResult ∈ [eSuccess, eTimeout])
    (hr : env.resetResult ≠ eSuccess) :
    draw env graphicsQueue dynamic s =
      (.threw env.resetResult,
        s.emit [.acquireNextImageKHR s.win.swapchain_ umax s.win.imageAcquireSemaphore_ 0,
          .waitForFences [cbFence] true umax, .resetFences [cbFence]]) := by
  unfold draw
  simp only [hacq, hcb, hpscb, hf, ne_eq, not_true_eq_false, if_false, resultCheck, hw, if_true,
    State.emit_emit, List.mem_singleton, hr]
  rfl

theorem draw_no_framebuffer (env : DrawEnv) (graphicsQueue : SynchronizedQueue)
    (dynamic : Nat) (s : State) (cb pscb cbFence : Nat)
    (hacq : env.acquired = eSuccess)
    (hcb : s.win.staticDrawBuffers_[env.imageIndex]? = some cb)
    (hpscb : s.win.dynamicDrawBuffers_[env.imageIndex]? = some pscb)
    (hf : s.win.commandBufferFences_[env.imageIndex]? = some cbFence)
    (hw : env.waitResult ∈ [eSuccess, eTimeout])
    (hr : env.resetResult = eSuccess) (hfb : s.win.framebuffers_[env.imageIndex]? = none) :
    draw env graphicsQueue dynamic s =
      (.undefined,
        s.emit [.acquireNextImageKHR s.win.swapchain_ umax s.win.imageAcquireSemaphore_ 0,
          .waitForFences [cbFence] true umax, .resetFences [cbFence]]) := by
  unfold draw
  simp only [hacq, hcb, hpscb, hf, ne_eq, not_true_eq_false, if_false, resultCheck, hw, if_true,
    State.emit_emit, List.mem_singleton, hr, hfb]
  rfl

theorem draw_submit_throws (env : DrawEnv) (graphicsQueue : SynchronizedQueue)
    (dynamic : Nat) (s : State) (cb pscb cbFence : Nat)
    (hacq : env.acquired = eSuccess)
    (hcb : s.win.staticDrawBuffers_[env.imageIndex]? = some cb)
    (hpscb : s.win.dynamicDrawBuffers_[env.imageIndex]? = some pscb)
    (hf : s.win.commandBufferFences_[env.imageIndex]? = some cbFence)
    (fb : Nat) (hw : env.waitResult ∈ [eSuccess, eTimeout])
    (hr : env.resetResult = eSuccess) (hfb : s.win.framebuffers_[env.imageIndex]? = some fb)
    (hs : env.submitResult ≠ eSuccess) :
    draw env graphicsQueue dynamic s =
      (.threw env.submitResult,
        s.emit [.acquireNextImageKHR s.win.swapchain_ umax s.win.imageAcquireSemaphore_ 0,
          .waitForFences [cbFence] true umax, .resetFences [cbFence],
          .dynamic dynamic pscb env.imageIndex (s.win.rpbi fb),
          .lock graphicsQueue.mtx,
          .queueSubmit graphicsQueue.t [dynamicSubmit s.win pscb, staticSubmit s.win cb] cbFence,
          .unlock graphicsQueue.mtx]) := by
  unfold draw
  simp only [hacq, hcb, hpscb, hf, ne_eq, not_true_eq_false, if_false, resultCheck, hw, if_true,
    State.emit_emit, List.mem_singleton, hr, hfb, hs, SynchronizedQueue.submit]
  rfl

theorem draw_presented (env : DrawEnv) (graphicsQueue : SynchronizedQueue)
    (dynamic : Nat) (s : State) (cb pscb cbFence : Nat)
    (hacq : env.acquired = eSuccess)
    (hcb : s.win.staticDrawBuffers_[env.imageIndex]? = some cb)
    (hpscb : s.win.dynamicDrawBuffers_[env.imageIndex]? = some pscb)
    (hf : s.win.commandBufferFences_[env.imageIndex]? = some cbFence)
    (fb : Nat) (hw : env.waitResult ∈ [eSuccess, eTimeout])
    (hr : env.resetResult = eSuccess) (hfb : s.win.framebuffers_[env.imageIndex]? = some fb)
    (hs : env.submitResult = eSuccess) :
    draw env graphicsQueue dynamic s =
      if env.presentResult ∈ [eSuccess, eSuboptimalKHR] then
        (.ok, s.emit (frameEvents s.win env.imageIndex graphicsQueue dynamic cb pscb cbFence fb))
      else if env.presentResult = eErrorOutOfDateKHR then
        recreate env.recreate
          (s.emit (frameEvents s.win env.imageIndex graphicsQueue dynamic cb pscb cbFence fb))
      else
        (.threw env.presentResult,
          s.emit (frameEvents s.win env.imageIndex graphicsQueue dynamic cb pscb cbFence fb)) := by
  unfold draw
  simp only [hacq, hcb, hpscb, hf, ne_eq, not_true_eq_false, if_false, resultCheck, hw, if_true,
    State.emit_emit, List.mem_singleton, hr, hfb, hs, SynchronizedQueue.submit,
    SynchronizedQueue.presentKHR]
  by_cases hp : env.presentResult ∈ [eSuccess, eSuboptimalKHR]
  · simp only [hp, if_true]
    rfl
  · simp only [hp, if_false]
    by_cases ho : env.presentResult = eErrorOutOfDateKHR
    · simp only [ho, if_true]
      rfl
    · simp only [ho, if_false]
      rfl

/-! ### C3 -/

/-- C3: in a `draw` whose acquire succeeds with an image index whose slot has the static
command buffer `cb`, the dynamic command buffer `pscb` and the fence `cbFence`, the acquire
call passes the image-acquired semaphore, and the calls made on the queues are, in this
order, at most: one submission, through the graphics queue, of the batch that runs `pscb`
waiting on the image-acquired semaphore and signaling the dynamic semaphore, followed by
the batch that runs `cb` waiting on the dynamic semaphore and signaling the
command-complete semaphore, the submission carrying the slot's fence; and one present
request, through the window's present queue, for that image index on the window's
swapchain, waiting on exactly the command-complete semaphore. When the fence wait, the
fence reset and the submission do not fail and the slot has a framebuffer, both calls are
made. -/
theorem draw_three_stage_chain (env : DrawEnv) (graphicsQueue : SynchronizedQueue)
    (dynamic : Nat) (s : State) (cb pscb cbFence : Nat)
    (hacq : env.acquired = eSuccess)
    (hcb : s.win.staticDrawBuffers_[env.imageIndex]? = some cb)
    (hpscb : s.win.dynamicDrawBuffers_[env.imageIndex]? = some pscb)
    (hf : s.win.commandBufferFences_[env.imageIndex]? = some cbFence) :
    ∃ es, (draw env graphicsQueue dynamic s).2.trace =
        s.trace ++
          .acquireNextImageKHR s.win.swapchain_ umax s.win.imageAcquireSemaphore_ 0 :: es ∧
      (es.filter Event.isQueueCall = [] ∨
        es.filter Event.isQueueCall =
          [.queueSubmit graphicsQueue.t
            [⟨[s.win.imageAcquireSemaphore_], [eColorAttachmentOutput], [pscb],
                [s.win.dynamicSemaphore_]⟩,
              ⟨[s.win.dynamicSemaphore_], [eColorAttachmentOutput], [cb],
                [s.win.commandCompleteSemaphore_]⟩] cbFence] ∨
        es.filter Event.isQueueCall =
          [.queueSubmit graphicsQueue.t
            [⟨[s.win.imageAcquireSemaphore_], [eColorAttachmentOutput], [pscb],
                [s.win.dynamicSemaphore_]⟩,
              ⟨[s.win.dynamicSemaphore_], [eColorAttachmentOutput], [cb],
                [s.win.commandCompleteSemaphore_]⟩] cbFence,
           .queuePresentKHR s.win.presentQueue_.t
            ⟨[s.win.commandCompleteSemaphore_], [s.win.swapchain_], [env.imageIndex]⟩]) ∧
      (env.waitResult ∈ [eSuccess, eTimeout] → env.resetResult = eSuccess →
        env.submitResult = eSuccess → s.win.framebuffers_[env.imageIndex]? ≠ none →
        es.filter Event.isQueueCall =
          [.queueSubmit graphicsQueue.t
            [⟨[s.win.imageAcquireSemaphore_], [eColorAttachmentOutput], [pscb],
                [s.win.dynamicSemaphore_]⟩,
              ⟨[s.win.dynamicSemaphore_], [eColorAttachmentOutput], [cb],
                [s.win.commandCompleteSemaphore_]⟩] cbFence,
           .queuePresentKHR s.win.presentQueue_.t
            ⟨[s.win.commandCompleteSemaphore_], [s.win.swapchain_], [env.imageIndex]⟩]) := by
  by_cases hw : env.waitResult ∈ [eSuccess, eTimeout]
  swap
  · rw [draw_wait_throws env graphicsQueue dynamic s cb pscb cbFence hacq hcb hpscb hf hw]
    exact ⟨_, rfl, Or.inl rfl, fun h => absurd h hw⟩
  by_cases hr : env.resetResult = eSuccess
  swap
  · rw [draw_reset_throws env graphicsQueue dynamic s cb pscb cbFence hacq hcb hpscb hf hw hr]
    exact ⟨_, rfl, Or.inl rfl, fun _ h => absurd h hr⟩
  cases hfb : s.win.framebuffers_[env.imageIndex]? with
  | none =>
    rw [draw_no_framebuffer env graphicsQueue dynamic s cb pscb cbFence hacq hcb hpscb hf hw hr
      hfb]
    exact ⟨_, rfl, Or.inl rfl, fun _ _ _ h => absurd rfl h⟩
  | some fb =>
    by_cases hs : env.submitResult = eSuccess
    swap
    · rw [draw_submit_throws env graphicsQueue dynamic s cb pscb cbFence hacq hcb hpscb hf fb hw
        hr hfb hs]
      exact ⟨_, rfl, Or.inr (Or.inl rfl), fun _ _ h => absurd h hs⟩
    rw [draw_presented env graphicsQueue dynamic s cb pscb cbFence hacq hcb hpscb hf fb hw hr
      hfb hs]
    have hframe : ∀ tail : List Event, tail.filter Event.isQueueCall = [] →
        ((frameEvents s.win env.imageIndex graphicsQueue dynamic cb pscb cbFence fb).tail ++
          tail).filter Event.isQueueCall =
          [.queueSubmit graphicsQueue.t
            [⟨[s.win.imageAcquireSemaphore_], [eColorAttachmentOutput], [pscb],
                [s.win.dynamicSemaphore_]⟩,
              ⟨[s.win.dynamicSemaphore_], [eColorAttachmentOutput], [cb],
                [s.win.commandCompleteSemaphore_]⟩] cbFence,
           .queuePresentKHR s.win.presentQueue_.t
            ⟨[s.win.commandCompleteSemaphore_], [s.win.swapchain_], [env.imageIndex]⟩] := by
      intro tail ht
      rw [List.filter_append, ht]
      rfl
    split
    · exact ⟨_, rfl, Or.inr (Or.inr (by simpa using hframe [] rfl)),
        fun _ _ _ _ => by simpa using hframe [] rfl⟩
    · split
      · obtain ⟨tail, h1, h2⟩ := recreate_trace env.recreate
          (s.emit (frameEvents s.win env.imageIndex graphicsQueue dynamic cb pscb cbFence fb))
        have hq := hframe (.recreate :: .waitForFences s.win.commandBufferFences_ true umax :: tail)
          (by simp [List.filter_cons, Event.isQueueCall, filter_isQueueCall_of_rebuild h2])
        refine ⟨(frameEvents s.win env.imageIndex graphicsQueue dynamic cb pscb cbFence fb).tail
          ++ .recreate :: .waitForFences s.win.commandBufferFences_ true umax :: tail, ?_,
          Or.inr (Or.inr hq), fun _ _ _ _ => hq⟩
        rw [h1]
        simp [frameEvents]
      · exact ⟨_, rfl, Or.inr (Or.inr (by simpa using hframe [] rfl)),
          fun _ _ _ _ => by simpa using hframe [] rfl⟩

theorem not_isDynamic_of_isRebuild {e : Event} (h : e.isRebuild = true) :
    e.isDynamic = false := by
  cases e <;> first | rfl | simp [Event.isRebuild] at h

theorem ne_queueSubmit_of_isRebuild {e : Event} (h : e.isRebuild = true) (q : Nat)
    (submits : List SubmitInfo) (fence : Nat) : e ≠ .queueSubmit q submits fence := by
  rintro rfl
  simp [Event.isRebuild] at h

/-! ### C4 -/

/-- C4: in a `draw` whose acquire succeeds with an image index whose slot has the static
command buffer `cb`, the dynamic command buffer `pscb` and the fence `cbFence`, the first
thing after the acquire is the wait on exactly that fence with timeout `2^64 - 1`. When
the wait does not return (it throws) nothing else happens. When it returns, the reset of
that fence follows at once. Every call of the dynamic callback and every submission comes
after the wait and the reset; the dynamic callback is called with `pscb` and the image
index, and every submission carries the fence `cbFence` that was waited on. When the reset
succeeds and the slot has a framebuffer, the callback and the submission do happen. -/
theorem draw_waits_for_slot_fence (env : DrawEnv) (graphicsQueue : SynchronizedQueue)
    (dynamic : Nat) (s : State) (cb pscb cbFence : Nat)
    (hacq : env.acquired = eSuccess)
    (hcb : s.win.staticDrawBuffers_[env.imageIndex]? = some cb)
    (hpscb : s.win.dynamicDrawBuffers_[env.imageIndex]? = some pscb)
    (hf : s.win.commandBufferFences_[env.imageIndex]? = some cbFence) :
    ∃ es, (draw env graphicsQueue dynamic s).2.trace =
        s.trace ++
          .acquireNextImageKHR s.win.swapchain_ umax s.win.imageAcquireSemaphore_ 0 ::
          .waitForFences [cbFence] true (2 ^ 64 - 1) :: es ∧
      (env.waitResult ∉ [eSuccess, eTimeout] →
        es = [] ∧ (draw env graphicsQueue dynamic s).1 = .threw env.waitResult) ∧
      (env.waitResult ∈ [eSuccess, eTimeout] → ∃ es', es = .resetFences [cbFence] :: es') ∧
      (∀ e ∈ es, e.isDynamic = true →
        ∃ fb, s.win.framebuffers_[env.imageIndex]? = some fb ∧
          e = .dynamic dynamic pscb env.imageIndex (s.win.rpbi fb)) ∧
      (∀ (q : Nat) (submits : List SubmitInfo) (fence : Nat),
        .queueSubmit q submits fence ∈ es → fence = cbFence) ∧
      (env.waitResult ∈ [eSuccess, eTimeout] → env.resetResult = eSuccess →
        ∀ fb, s.win.framebuffers_[env.imageIndex]? = some fb →
          ∃ es', es = .resetFences [cbFence] ::
            .dynamic dynamic pscb env.imageIndex (s.win.rpbi fb) ::
            .lock graphicsQueue.mtx ::
            .queueSubmit graphicsQueue.t [dynamicSubmit s.win pscb, staticSubmit s.win cb]
              cbFence :: es') := by
  by_cases hw : env.waitResult ∈ [eSuccess, eTimeout]
  swap
  · rw [draw_wait_throws env graphicsQueue dynamic s cb pscb cbFence hacq hcb hpscb hf hw]
    exact ⟨[], rfl, fun _ => ⟨rfl, rfl⟩, fun h => absurd h hw, by simp, by simp,
      fun h => absurd h hw⟩
  by_cases hr : env.resetResult = eSuccess
  swap
  · rw [draw_reset_throws env graphicsQueue dynamic s cb pscb cbFence hacq hcb hpscb hf hw hr]
    exact ⟨[.resetFences [cbFence]], rfl, fun h => absurd hw h, fun _ => ⟨[], rfl⟩,
      by simp [Event.isDynamic], by simp, fun _ h => absurd h hr⟩
  cases hfb : s.win.framebuffers_[env.imageIndex]? with
  | none =>
    rw [draw_no_framebuffer env graphicsQueue dynamic s cb pscb cbFence hacq hcb hpscb hf hw hr
      hfb]
    exact ⟨[.resetFences [cbFence]], rfl, fun h => absurd hw h, fun _ => ⟨[], rfl⟩,
      by simp [Event.isDynamic], by simp, fun _ _ fb h => by simp at h⟩
  | some fb =>
    have key : ∀ (r : Outcome × State) (tail : List Event),
        r.2.trace = s.trace ++
          (frameEvents s.win env.imageIndex graphicsQueue dynamic cb pscb cbFence fb).take 7 ++
            tail →
        (∀ e ∈ tail, e.isDynamic = false) →
        (∀ e ∈ tail, ∀ (q : Nat) (submits : List SubmitInfo) (fence : Nat),
          e ≠ .queueSubmit q submits fence) →
        ∃ es, r.2.trace =
          s.trace ++
            .acquireNextImageKHR s.win.swapchain_ umax s.win.imageAcquireSemaphore_ 0 ::
            .waitForFences [cbFence] true (2 ^ 64 - 1) :: es ∧
          (env.waitResult ∉ [eSuccess, eTimeout] → es = [] ∧ r.1 = .threw env.waitResult) ∧
          (env.waitResult ∈ [eSuccess, eTimeout] → ∃ es', es = .resetFences [cbFence] :: es') ∧
          (∀ e ∈ es, e.isDynamic = true →
            ∃ fb', some fb = some fb' ∧
              e = .dynamic dynamic pscb env.imageIndex (s.win.rpbi fb')) ∧
          (∀ (q : Nat) (submits : List SubmitInfo) (fence : Nat),
            .queueSubmit q submits fence ∈ es → fence = cbFence) ∧
          (env.waitResult ∈ [eSuccess, eTimeout] → env.resetResult = eSuccess →
            ∀ fb', some fb = some fb' →
              ∃ es', es = .resetFences [cbFence] ::
                .dynamic dynamic pscb env.imageIndex (s.win.rpbi fb') ::
                .lock graphicsQueue.mtx ::
                .queueSubmit graphicsQueue.t [dynamicSubmit s.win pscb, staticSubmit s.win cb]
                  cbFence :: es') := by
      intro r tail ht hd hq
      refine ⟨.resetFences [cbFence] :: .dynamic dynamic pscb env.imageIndex (s.win.rpbi fb) ::
        .lock graphicsQueue.mtx ::
        .queueSubmit graphicsQueue.t [dynamicSubmit s.win pscb, staticSubmit s.win cb] cbFence ::
        .unlock graphicsQueue.mtx :: tail, ?_, fun h => absurd hw h, fun _ => ⟨_, rfl⟩, ?_, ?_,
        ?_⟩
      · rw [ht]; simp [frameEvents, umax]
      · intro e he hde
        simp only [List.mem_cons] at he
        rcases he with rfl | rfl | rfl | rfl | rfl | he
        · simp [Event.isDynamic] at hde
        · exact ⟨fb, rfl, rfl⟩
        · simp [Event.isDynamic] at hde
        · simp [Event.isDynamic] at hde
        · simp [Event.isDynamic] at hde
        · rw [hd e he] at hde; cases hde
      · intro q submits fence he
        simp only [List.mem_cons] at he
        rcases he with he | he | he | he | he | he
        · cases he
        · cases he
        · cases he
        · cases he; rfl
        · cases he
        · exact absurd rfl (hq _ he q submits fence)
      · intro _ _ fb' hfb'
        cases hfb'
        exact ⟨_, rfl⟩
    by_cases hs : env.submitResult = eSuccess
    swap
    · rw [draw_submit_throws env graphicsQueue dynamic s cb pscb cbFence hacq hcb hpscb hf fb hw
        hr hfb hs]
      exact key _ [] (by simp [frameEvents]) (by simp) (by simp)
    rw [draw_presented env graphicsQueue dynamic s cb pscb cbFence hacq hcb hpscb hf fb hw hr
      hfb hs]
    have hrest : ∀ tail : List Event, (∀ e ∈ tail, e.isRebuild = true) →
        ∀ head : List Event, (∀ e ∈ head, e = .lock s.win.presentQueue_.mtx ∨
          e = .queuePresentKHR s.win.presentQueue_.t (presentInfo s.win env.imageIndex) ∨
          e = .unlock s.win.presentQueue_.mtx ∨ e = .recreate ∨
          e = .waitForFences s.win.commandBufferFences_ true umax) →
        (∀ e ∈ head ++ tail, e.isDynamic = false) ∧
        (∀ e ∈ head ++ tail, ∀ (q : Nat) (submits : List SubmitInfo) (fence : Nat),
          e ≠ .queueSubmit q submits fence) := by
      intro tail ht head hh
      constructor
      · intro e he
        rcases List.mem_append.1 he with h | h
        · rcases hh e h with rfl | rfl | rfl | rfl | rfl <;> rfl
        · exact not_isDynamic_of_isRebuild (ht e h)
      · intro e he q submits fence
        rcases List.mem_append.1 he with h | h
        · rcases hh e h with rfl | rfl | rfl | rfl | rfl <;> simp
        · exact ne_queueSubmit_of_isRebuild (ht e h) q submits fence
    split
    · have := hrest [] (by simp) [.lock s.win.presentQueue_.mtx,
        .queuePresentKHR s.win.presentQueue_.t (presentInfo s.win env.imageIndex),
        .unlock s.win.presentQueue_.mtx] (by simp)
      exact key _ _ (by simp [frameEvents]) this.1 this.2
    · split
      · obtain ⟨tail, h1, h2⟩ := recreate_trace env.recreate
          (s.emit (frameEvents s.win env.imageIndex graphicsQueue dynamic cb pscb cbFence fb))
        have := hrest tail h2 [.lock s.win.presentQueue_.mtx,
          .queuePresentKHR s.win.presentQueue_.t (presentInfo s.win env.imageIndex),
          .unlock s.win.presentQueue_.mtx, .recreate,
          .waitForFences s.win.commandBufferFences_ true umax] (by simp)
        exact key _ _ (by rw [h1]; simp [frameEvents]) this.1 this.2
      · have := hrest [] (by simp) [.lock s.win.presentQueue_.mtx,
          .queuePresentKHR s.win.presentQueue_.t (presentInfo s.win env.imageIndex),
          .unlock s.win.presentQueue_.mtx] (by simp)
        exact key _ _ (by simp [frameEvents]) this.1 this.2

theorem draw_three_stage_chain_witness :
    ∃ es, (draw (scenarioDraw eSuccess eSuccess eSuccess []) scenarioQueue 77
        scenarioWindow).2.trace =
      [] ++ .acquireNextImageKHR 1 umax 10 0 :: es ∧
      es.filter Event.isQueueCall =
        [.queueSubmit 1010
          [⟨[10], [eColorAttachmentOutput], [18], [12]⟩,
           ⟨[12], [eColorAttachmentOutput], [15], [11]⟩] 21,
         .queuePresentKHR 1010 ⟨[11], [1], [1]⟩] := by
  obtain ⟨es, h1, _, h3⟩ := draw_three_stage_chain (scenarioDraw eSuccess eSuccess eSuccess [])
    scenarioQueue 77 scenarioWindow 15 18 21 rfl rfl rfl rfl
  exact ⟨es, h1, h3 (by decide) rfl rfl (by decide)⟩

theorem draw_waits_for_slot_fence_witness :
    ∃ es, (draw (scenarioDraw eSuccess eSuccess eSuccess []) scenarioQueue 77
        scenarioWindow).2.trace =
      [] ++ .acquireNextImageKHR 1 umax 10 0 :: .waitForFences [21] true (2 ^ 64 - 1) ::
        .resetFences [21] :: es := by
  obtain ⟨es, h1, _, h3, _⟩ := draw_waits_for_slot_fence
    (scenarioDraw eSuccess eSuccess eSuccess []) scenarioQueue 77 scenarioWindow 15 18 21 rfl rfl
    rfl rfl
  obtain ⟨es', rfl⟩ := h3 (by decide)
  exact ⟨es', h1⟩

/-! ### Lemmas on `recreate` -/

theorem buildStaticCBsFrom_ok (w : Window) (f : Nat) :
    ∀ (cbs : List Nat) (i : Nat), i + cbs.length ≤ w.framebuffers_.length →
      (buildStaticCBsFrom w f i cbs).1 = .ok := by
  intro cbs
  induction cbs with
  | nil => intro i _; rfl
  | cons cb cbs ih =>
    intro i h
    simp only [List.length_cons] at h
    have hi : i < w.framebuffers_.length := by omega
    unfold buildStaticCBsFrom
    rw [List.getElem?_eq_getElem hi]
    exact ih (i + 1) (by omega)

theorem buildStaticCBsFrom_not_threw (w : Window) (f : Nat) :
    ∀ (cbs : List Nat) (i : Nat) (r : Result), (buildStaticCBsFrom w f i cbs).1 ≠ .threw r := by
  intro cbs
  induction cbs with
  | nil => intro i r; simp [buildStaticCBsFrom]
  | cons cb cbs ih =>
    intro i r
    unfold buildStaticCBsFrom
    split
    · simp
    · exact ih (i + 1) r

theorem buildStaticCBs_not_threw (s : State) (r : Result) : (buildStaticCBs s).1 ≠ .threw r := by
  unfold buildStaticCBs
  split
  · simp
  · exact buildStaticCBsFrom_not_threw _ _ _ _ r

theorem createSwapchain_not_threw (env : SurfaceEnv) (s : State) (r : Result) :
    (createSwapchain env s).1 ≠ .threw r := by
  unfold createSwapchain
  split
  · simp
  · split <;> simp

theorem createImages_not_threw (env : SurfaceEnv) (s : State) (r : Result) :
    (createImages env s).1 ≠ .threw r := by
  unfold createImages
  split <;> simp

theorem recreate_threw (env : RecreateEnv) (s : State) (r : Result)
    (h : (recreate env s).1 = .threw r) :
    r = env.waitResult ∧ env.waitResult ∉ [eSuccess, eTimeout] := by
  unfold recreate at h
  rcases resultCheck_cases env.waitResult [eSuccess, eTimeout] with ⟨hm, hc⟩ | ⟨hm, hc⟩
  · simp only [hc] at h
    split at h
    · split at h
      · exact absurd h (buildStaticCBs_not_threw _ r)
      · rename_i s1 _ x hx
        have := createImages_not_threw env.surface s1 r
        exact absurd h this
    · exact absurd h (createSwapchain_not_threw env.surface _ r)
  · simp only [hc] at h
    cases h
    exact ⟨rfl, hm⟩

theorem createSwapchain_fifo (env : SurfaceEnv) (s : State)
    (h : eFifo ∈ env.presentModes) :
    createSwapchain env s =
      (.ok,
        { s with
          win := { s.win with
            width_ := env.surfaceCaps.currentExtent.1
            height_ := env.surfaceCaps.currentExtent.2
            swapchain_ := s.fresh }
          fresh := s.fresh + 1
          trace := s.trace ++ [.createSwapchainKHR (swapinfo s.win env.surfaceCaps) s.fresh] ++
            (if s.win.swapchain_ = 0 then [] else [.destroySwapchainKHR s.win.swapchain_]) }) := by
  unfold createSwapchain
  cases hp : env.presentModes with
  | nil => rw [hp] at h; simp at h
  | cons a l =>
    rw [hp] at h
    simp only [h, if_true]

theorem createSwapchain_no_fifo (env : SurfaceEnv) (s : State) (h : eFifo ∉ env.presentModes)
    (hne : env.presentModes ≠ []) :
    createSwapchain env s = (.ok, s.emit [.cerr "No fifo mode available\n"]) := by
  unfold createSwapchain
  cases hp : env.presentModes with
  | nil => exact absurd hp hne
  | cons a l =>
    rw [hp] at h
    simp only [h, if_false]

theorem createImages_eq (env : SurfaceEnv) (s : State) (h : s.win.swapchain_ ≠ 0) :
    createImages env s =
      (.ok,
        { s with
          win := { s.win with
            images_ := env.swapchainImages
            imageViews_ := List.range' s.fresh env.swapchainImages.length }
          fresh := s.fresh + env.swapchainImages.length
          trace := s.trace ++ s.win.imageViews_.map Event.destroyImageView ++
            List.zipWith
              (fun img iv => Event.createImageView img s.win.swapchainImageFormat_ iv)
              env.swapchainImages (List.range' s.fresh env.swapchainImages.length) }) := by
  unfold createImages
  simp only [h, if_false]

theorem buildStaticCBs_win (s : State) : (buildStaticCBs s).2.win = s.win := by
  unfold buildStaticCBs
  split <;> rfl

theorem buildStaticCBs_queues (s : State) : (buildStaticCBs s).2.queues = s.queues := by
  unfold buildStaticCBs
  split <;> rfl

theorem recreate_eq (env : RecreateEnv) (s : State)
    (hw : env.waitResult ∈ [eSuccess, eTimeout])
    (hs : (createSwapchain env.surface
      (s.emit [.recreate, .waitForFences s.win.commandBufferFences_ true umax])).1 = .ok)
    (hn : (createSwapchain env.surface
      (s.emit [.recreate, .waitForFences s.win.commandBufferFences_ true umax])).2.win.swapchain_
        ≠ 0) :
    recreate env s =
      buildStaticCBs (rebuilt env.surface
        (s.emit [.recreate, .waitForFences s.win.commandBufferFences_ true umax])) := by
  unfold rebuilt
  have hc : resultCheck env.waitResult [eSuccess, eTimeout] = .ok := by
    simp only [resultCheck, hw, if_true]
  unfold recreate
  simp only [hc]
  generalize hcs : createSwapchain env.surface
    (s.emit [.recreate, .waitForFences s.win.commandBufferFences_ true umax]) = cs at hs hn
  obtain ⟨o, s1⟩ := cs
  simp only at hs hn
  subst hs
  simp only [createImages_eq env.surface s1 hn]

theorem rebuilt_win_fifo (env : SurfaceEnv) (s : State) (hfifo : eFifo ∈ env.presentModes)
    (hfresh : s.fresh ≠ 0) :
    (rebuilt env s).win =
      { s.win with
        width_ := env.surfaceCaps.currentExtent.1
        height_ := env.surfaceCaps.currentExtent.2
        swapchain_ := s.fresh
        images_ := env.swapchainImages
        imageViews_ := List.range' (s.fresh + 1) env.swapchainImages.length
        depthStencilImage_ := s.fresh + 1 + env.swapchainImages.length
        framebuffers_ :=
          List.range' (s.fresh + 1 + env.swapchainImages.length + 1)
            env.swapchainImages.length } := by
  unfold rebuilt
  rw [createSwapchain_fifo env s hfifo, createImages_eq _ _ hfresh]
  simp [createFrameBuffers, createDepthStencil]

theorem rebuilt_fresh_fifo (env : SurfaceEnv) (s : State) (hfifo : eFifo ∈ env.presentModes)
    (hfresh : s.fresh ≠ 0) :
    (rebuilt env s).fresh =
      s.fresh + 1 + env.swapchainImages.length + 1 + env.swapchainImages.length := by
  unfold rebuilt
  rw [createSwapchain_fifo env s hfifo, createImages_eq _ _ hfresh]
  simp [createFrameBuffers, createDepthStencil]

theorem recreate_fifo (env : RecreateEnv) (s : State)
    (hw : env.waitResult ∈ [eSuccess, eTimeout]) (hfifo : eFifo ∈ env.surface.presentModes)
    (hfresh : s.fresh ≠ 0) :
    recreate env s =
      buildStaticCBs (rebuilt env.surface
        (s.emit [.recreate, .waitForFences s.win.commandBufferFences_ true umax])) := by
  have h := createSwapchain_fifo env.surface
    (s.emit [.recreate, .waitForFences s.win.commandBufferFences_ true umax]) hfifo
  exact recreate_eq env s hw (by rw [h]) (by rw [h]; exact hfresh)

theorem recreate_ok (env : RecreateEnv) (s : State)
    (hw : env.waitResult ∈ [eSuccess, eTimeout]) (hfifo : eFifo ∈ env.surface.presentModes)
    (hfresh : s.fresh ≠ 0)
    (hb : s.win.func = none ∨
      s.win.staticDrawBuffers_.length ≤ env.surface.swapchainImages.length) :
    (recreate env s).1 = .ok := by
  rw [recreate_fifo env s hw hfifo hfresh]
  unfold buildStaticCBs
  have hwin := rebuilt_win_fifo env.surface
    (s.emit [.recreate, .waitForFences s.win.commandBufferFences_ true umax]) hfifo hfresh
  rw [hwin]
  simp only [State.emit_win]
  cases hfunc : s.win.func with
  | none => rfl
  | some f =>
    simp only
    apply buildStaticCBsFrom_ok
    simp only [List.length_range', Nat.zero_add]
    rcases hb with hb | hb
    · rw [hfunc] at hb; cases hb
    · exact hb

theorem not_isFenceOp_of_isRebuild {e : Event} (h : e.isRebuild = true) :
    e.isFenceOp = false := by
  cases e <;> first | rfl | simp [Event.isRebuild] at h

theorem ne_recreate_of_isRebuild {e : Event} (h : e.isRebuild = true) : e ≠ .recreate := by
  rintro rfl
  simp [Event.isRebuild] at h

theorem count_recreate_of_rebuild {es : List Event} (h : ∀ e ∈ es, e.isRebuild = true) :
    es.count .recreate = 0 := by
  rw [List.count_eq_zero]
  intro hm
  exact ne_recreate_of_isRebuild (h _ hm) rfl

/-! ### C6 -/

/-- C6, amended: in a `draw` whose acquire reports out-of-date, what `draw` does after the
acquire is exactly one call of `recreate`: the trace is the acquire, the entry into
`recreate`, the wait of `recreate` on all slot fences, and then only rebuilding events:
no further entry into `recreate`, no wait on or reset of a fence, no call of the dynamic
callback, no submission and no present call. `draw` returns as that `recreate` returns:
the only exception that can come out is the one raised by the fence wait inside
`recreate`, and when that wait does not fail, the surface supports FIFO and the static
command buffers (if a static callback is registered) are no more than the new images,
`draw` returns normally. -/
theorem draw_stale_acquire_recreates (env : DrawEnv) (graphicsQueue : SynchronizedQueue)
    (dynamic : Nat) (s : State) (hacq : env.acquired = eErrorOutOfDateKHR) :
    (∃ es, (draw env graphicsQueue dynamic s).2.trace =
        s.trace ++
          .acquireNextImageKHR s.win.swapchain_ umax s.win.imageAcquireSemaphore_ 0 ::
          .recreate :: .waitForFences s.win.commandBufferFences_ true umax :: es ∧
      ∀ e ∈ es, e ≠ .recreate ∧ e.isFenceOp = false ∧ e.isDynamic = false ∧
        e.isQueueCall = false) ∧
    draw env graphicsQueue dynamic s =
      recreate env.recreate
        (s.emit [.acquireNextImageKHR s.win.swapchain_ umax s.win.imageAcquireSemaphore_ 0]) ∧
    (∀ r, (draw env graphicsQueue dynamic s).1 = .threw r →
      r = env.recreate.waitResult ∧ env.recreate.waitResult ∉ [eSuccess, eTimeout]) ∧
    (env.recreate.waitResult ∈ [eSuccess, eTimeout] →
      eFifo ∈ env.recreate.surface.presentModes → s.fresh ≠ 0 →
      (s.win.func = none ∨
        s.win.staticDrawBuffers_.length ≤ env.recreate.surface.swapchainImages.length) →
      (draw env graphicsQueue dynamic s).1 = .ok) := by
  have hne : env.acquired ≠ eSuccess := by rw [hacq]; decide
  have heq := draw_not_acquired env graphicsQueue dynamic s hne
  refine ⟨?_, heq, ?_, ?_⟩
  · rw [heq]
    obtain ⟨es, h1, h2⟩ := recreate_trace env.recreate
      (s.emit [.acquireNextImageKHR s.win.swapchain_ umax s.win.imageAcquireSemaphore_ 0])
    refine ⟨es, by rw [h1]; simp, ?_⟩
    intro e he
    exact ⟨ne_recreate_of_isRebuild (h2 e he), not_isFenceOp_of_isRebuild (h2 e he),
      not_isDynamic_of_isRebuild (h2 e he), isQueueCall_of_isRebuild (h2 e he)⟩
  · intro r hr
    rw [heq] at hr
    exact recreate_threw _ _ r hr
  · intro hw hfifo hfresh hb
    rw [heq]
    exact recreate_ok _ _ hw hfifo hfresh hb

theorem draw_stale_acquire_counterexample :
    (scenarioDraw eErrorOutOfDateKHR eSuccess eErrorDeviceLost [101, 102, 103]).acquired =
      eErrorOutOfDateKHR ∧
    (draw (scenarioDraw eErrorOutOfDateKHR eSuccess eErrorDeviceLost [101, 102, 103])
      scenarioQueue 77 scenarioWindow).1 = .threw eErrorDeviceLost := by
  decide

theorem draw_stale_acquire_recreates_witness :
    (draw (scenarioDraw eErrorOutOfDateKHR eSuccess eSuccess [201, 202, 203]) scenarioQueue 77
      scenarioWindow).1 = .ok :=
  (draw_stale_acquire_recreates (scenarioDraw eErrorOutOfDateKHR eSuccess eSuccess [201, 202, 203])
    scenarioQueue 77 scenarioWindow rfl).2.2.2 (by decide) (by decide) (by decide)
    (Or.inl rfl)

/-! ### C7 -/

/-- C7, amended: take a `draw` on a slot that has its command buffers, fence and
framebuffer. When acquire, fence wait, fence reset and submission succeed and the present
call reports out-of-date, `draw` runs the whole frame and then exactly one `recreate`, and
returns as that `recreate` returns. When the present call reports suboptimal, `draw` runs
the whole frame, returns normally and does not call `recreate`. In every case `draw`
enters `recreate` at most once, and it enters it exactly when acquire reported a result
other than success, or the present call was reached and reported out-of-date. -/
theorem draw_present_out_of_date_recreates (env : DrawEnv) (graphicsQueue : SynchronizedQueue)
    (dynamic : Nat) (s : State) (cb pscb cbFence fb : Nat)
    (hcb : s.win.staticDrawBuffers_[env.imageIndex]? = some cb)
    (hpscb : s.win.dynamicDrawBuffers_[env.imageIndex]? = some pscb)
    (hf : s.win.commandBufferFences_[env.imageIndex]? = some cbFence)
    (hfb : s.win.framebuffers_[env.imageIndex]? = some fb) :
    (env.acquired = eSuccess → env.waitResult ∈ [eSuccess, eTimeout] →
      env.resetResult = eSuccess → env.submitResult = eSuccess →
      (env.presentResult = eErrorOutOfDateKHR →
        draw env graphicsQueue dynamic s =
          recreate env.recreate
            (s.emit (frameEvents s.win env.imageIndex graphicsQueue dynamic cb pscb cbFence
              fb))) ∧
      (env.presentResult = eSuboptimalKHR →
        draw env graphicsQueue dynamic s =
          (.ok,
            s.emit (frameEvents s.win env.imageIndex graphicsQueue dynamic cb pscb cbFence
              fb)))) ∧
    ∃ es, (draw env graphicsQueue dynamic s).2.trace = s.trace ++ es ∧
      es.count .recreate ≤ 1 ∧
      (.recreate ∈ es ↔
        env.acquired ≠ eSuccess ∨
          (env.waitResult ∈ [eSuccess, eTimeout] ∧ env.resetResult = eSuccess ∧
            env.submitResult = eSuccess ∧ env.presentResult = eErrorOutOfDateKHR)) := by
  have hrec : ∀ (pre : List Event), pre.count .recreate = 0 →
      ∃ es, (recreate env.recreate (s.emit pre)).2.trace = s.trace ++ es ∧
        es.count .recreate ≤ 1 ∧ .recreate ∈ es := by
    intro pre hpre
    obtain ⟨tail, h1, h2⟩ := recreate_trace env.recreate (s.emit pre)
    refine ⟨pre ++ .recreate :: .waitForFences s.win.commandBufferFences_ true umax :: tail,
      by rw [h1]; simp, ?_, by simp⟩
    rw [List.count_append, hpre, List.count_cons_self, List.count_cons_of_ne (by simp),
      count_recreate_of_rebuild h2]
  have hno : ∀ (o : Outcome) (pre : List Event), pre.count .recreate = 0 →
      ∃ es, ((o, s.emit pre) : Outcome × State).2.trace = s.trace ++ es ∧
        es.count .recreate ≤ 1 ∧ .recreate ∉ es := by
    intro o pre hpre
    exact ⟨pre, rfl, by rw [hpre]; exact Nat.zero_le _, List.count_eq_zero.1 hpre⟩
  by_cases hacq : env.acquired = eSuccess
  swap
  · refine ⟨fun h => absurd h hacq, ?_⟩
    rw [draw_not_acquired env graphicsQueue dynamic s hacq]
    obtain ⟨es, h1, h2, h3⟩ := hrec [.acquireNextImageKHR s.win.swapchain_ umax s.win.imageAcquireSemaphore_ 0]
      (List.count_eq_zero.2 (by simp))
    exact ⟨es, h1, h2, fun _ => Or.inl hacq, fun _ => h3⟩
  by_cases hw : env.waitResult ∈ [eSuccess, eTimeout]
  swap
  · refine ⟨fun _ h => absurd h hw, ?_⟩
    rw [draw_wait_throws env graphicsQueue dynamic s cb pscb cbFence hacq hcb hpscb hf hw]
    obtain ⟨es, h1, h2, h3⟩ := hno (.threw env.waitResult)
      [.acquireNextImageKHR s.win.swapchain_ umax s.win.imageAcquireSemaphore_ 0,
      .waitForFences [cbFence] true umax]
      (List.count_eq_zero.2 (by simp))
    exact ⟨es, h1, h2, fun h => absurd h h3, fun h => by
      rcases h with h | h
      · exact absurd hacq h
      · exact absurd h.1 hw⟩
  by_cases hr : env.resetResult = eSuccess
  swap
  · refine ⟨fun _ _ h => absurd h hr, ?_⟩
    rw [draw_reset_throws env graphicsQueue dynamic s cb pscb cbFence hacq hcb hpscb hf hw hr]
    obtain ⟨es, h1, h2, h3⟩ := hno (.threw env.resetResult)
      [.acquireNextImageKHR s.win.swapchain_ umax s.win.imageAcquireSemaphore_ 0,
      .waitForFences [cbFence] true umax, .resetFences [cbFence]]
      (List.count_eq_zero.2 (by simp))
    exact ⟨es, h1, h2, fun h => absurd h h3, fun h => by
      rcases h with h | h
      · exact absurd hacq h
      · exact absurd h.2.1 hr⟩
  by_cases hs : env.submitResult = eSuccess
  swap
  · refine ⟨fun _ _ _ h => absurd h hs, ?_⟩
    rw [draw_submit_throws env graphicsQueue dynamic s cb pscb cbFence hacq hcb hpscb hf fb hw
      hr hfb hs]
    obtain ⟨es, h1, h2, h3⟩ := hno (.threw env.submitResult)
      [.acquireNextImageKHR s.win.swapchain_ umax s.win.imageAcquireSemaphore_ 0,
      .waitForFences [cbFence] true umax, .resetFences [cbFence],
      .dynamic dynamic pscb env.imageIndex (s.win.rpbi fb), .lock graphicsQueue.mtx,
      .queueSubmit graphicsQueue.t [dynamicSubmit s.win pscb, staticSubmit s.win cb] cbFence,
      .unlock graphicsQueue.mtx]
      (List.count_eq_zero.2 (by simp))
    exact ⟨es, h1, h2, fun h => absurd h h3, fun h => by
      rcases h with h | h
      · exact absurd hacq h
      · exact absurd h.2.2.1 hs⟩
  have hp := draw_presented env graphicsQueue dynamic s cb pscb cbFence hacq hcb hpscb hf fb hw
    hr hfb hs
  have hfr : (frameEvents s.win env.imageIndex graphicsQueue dynamic cb pscb cbFence
      fb).count .recreate = 0 := List.count_eq_zero.2 (by simp [frameEvents])
  refine ⟨fun _ _ _ _ => ⟨fun ho => ?_, fun hsub => ?_⟩, ?_⟩
  · rw [hp, ho]
    simp only [if_true]
    rw [if_neg (by decide)]
  · rw [hp, hsub]
    rw [if_pos (by decide)]
  · rw [hp]
    split
    · rename_i hin
      obtain ⟨es, h1, h2, h3⟩ := hno .ok _ hfr
      exact ⟨es, h1, h2, fun h => absurd h h3, fun h => by
        rcases h with h | h
        · exact absurd hacq h
        · rw [h.2.2.2] at hin
          exact absurd hin (by decide)⟩
    · split
      · rename_i ho
        obtain ⟨es, h1, h2, h3⟩ := hrec _ hfr
        exact ⟨es, h1, h2, fun _ => Or.inr ⟨hw, hr, hs, ho⟩, fun _ => h3⟩
      · rename_i ho
        obtain ⟨es, h1, h2, h3⟩ := hno (.threw env.presentResult) _ hfr
        exact ⟨es, h1, h2, fun h => absurd h h3, fun h => by
          rcases h with h | h
          · exact absurd hacq h
          · exact absurd h.2.2.2 ho⟩

theorem draw_present_suboptimal_counterexample :
    (draw (scenarioDraw eSuccess eSuboptimalKHR eSuccess [201, 202, 203]) scenarioQueue 77
      scenarioWindow).1 = .ok ∧
    Event.recreate ∉ (draw (scenarioDraw eSuccess eSuboptimalKHR eSuccess [201, 202, 203])
      scenarioQueue 77 scenarioWindow).2.trace ∧
    Event.recreate ∈ (draw (scenarioDraw eErrorSurfaceLostKHR eSuccess eSuccess [201, 202, 203])
      scenarioQueue 77 scenarioWindow).2.trace := by
  decide

theorem draw_present_out_of_date_recreates_witness :
    draw (scenarioDraw eSuccess eSuboptimalKHR eSuccess [201, 202, 203]) scenarioQueue 77
        scenarioWindow =
      (.ok, scenarioWindow.emit (frameEvents scenarioWindow.win 1 scenarioQueue 77 15 18 21 8)) :=
  ((draw_present_out_of_date_recreates
    (scenarioDraw eSuccess eSuboptimalKHR eSuccess [201, 202, 203]) scenarioQueue 77
    scenarioWindow 15 18 21 8 rfl rfl rfl rfl).1 rfl (by decide) rfl rfl).2 rfl

/-! ### C8 -/

/-- C8, amended: take a `draw` on a slot that has its command buffers, fence and
framebuffer. When acquire returns any result other than success (device lost, surface
lost, timeout and not-ready included), `draw` drops the frame and runs `recreate`; the
acquire result is not surfaced, the only exception that can come out is the one raised by
the fence wait inside `recreate`. When acquire succeeds, a fence wait that fails (a result
other than success and timeout), a fence reset that fails, a submission that fails, and a
present call that fails with a result other than out-of-date are each thrown to the
caller, and `recreate` is not entered. -/
theorem draw_failure_policy (env : DrawEnv) (graphicsQueue : SynchronizedQueue)
    (dynamic : Nat) (s : State) (cb pscb cbFence fb : Nat)
    (hcb : s.win.staticDrawBuffers_[env.imageIndex]? = some cb)
    (hpscb : s.win.dynamicDrawBuffers_[env.imageIndex]? = some pscb)
    (hf : s.win.commandBufferFences_[env.imageIndex]? = some cbFence)
    (hfb : s.win.framebuffers_[env.imageIndex]? = some fb) :
    (env.acquired ≠ eSuccess →
      draw env graphicsQueue dynamic s =
        recreate env.recreate
          (s.emit [.acquireNextImageKHR s.win.swapchain_ umax s.win.imageAcquireSemaphore_ 0]) ∧
      ∀ r, (draw env graphicsQueue dynamic s).1 = .threw r →
        r = env.recreate.waitResult ∧ env.recreate.waitResult ∉ [eSuccess, eTimeout]) ∧
    (env.acquired = eSuccess →
      ∃ es, (draw env graphicsQueue dynamic s).2.trace = s.trace ++ es ∧
        (env.waitResult ∉ [eSuccess, eTimeout] →
          (draw env graphicsQueue dynamic s).1 = .threw env.waitResult ∧ .recreate ∉ es) ∧
        (env.waitResult ∈ [eSuccess, eTimeout] → env.resetResult ≠ eSuccess →
          (draw env graphicsQueue dynamic s).1 = .threw env.resetResult ∧ .recreate ∉ es) ∧
        (env.waitResult ∈ [eSuccess, eTimeout] → env.resetResult = eSuccess →
          env.submitResult ≠ eSuccess →
          (draw env graphicsQueue dynamic s).1 = .threw env.submitResult ∧ .recreate ∉ es) ∧
        (env.waitResult ∈ [eSuccess, eTimeout] → env.resetResult = eSuccess →
          env.submitResult = eSuccess → env.presentResult ∉ [eSuccess, eSuboptimalKHR] →
          env.presentResult ≠ eErrorOutOfDateKHR →
          (draw env graphicsQueue dynamic s).1 = .threw env.presentResult ∧ .recreate ∉ es)) := by
  constructor
  · intro hacq
    have heq := draw_not_acquired env graphicsQueue dynamic s hacq
    refine ⟨heq, ?_⟩
    intro r hr
    rw [heq] at hr
    exact recreate_threw _ _ r hr
  · intro hacq
    by_cases hw : env.waitResult ∈ [eSuccess, eTimeout]
    swap
    · rw [draw_wait_throws env graphicsQueue dynamic s cb pscb cbFence hacq hcb hpscb hf hw]
      exact ⟨_, rfl, fun _ => ⟨rfl, by simp⟩, fun h => absurd h hw, fun h => absurd h hw,
        fun h => absurd h hw⟩
    by_cases hr : env.resetResult = eSuccess
    swap
    · rw [draw_reset_throws env graphicsQueue dynamic s cb pscb cbFence hacq hcb hpscb hf hw hr]
      exact ⟨_, rfl, fun h => absurd hw h, fun _ _ => ⟨rfl, by simp⟩, fun _ h => absurd h hr,
        fun _ h => absurd h hr⟩
    by_cases hs : env.submitResult = eSuccess
    swap
    · rw [draw_submit_throws env graphicsQueue dynamic s cb pscb cbFence hacq hcb hpscb hf fb hw
        hr hfb hs]
      exact ⟨_, rfl, fun h => absurd hw h, fun _ h => absurd hr h, fun _ _ _ => ⟨rfl, by simp⟩,
        fun _ _ h => absurd h hs⟩
    rw [draw_presented env graphicsQueue dynamic s cb pscb cbFence hacq hcb hpscb hf fb hw hr
      hfb hs]
    by_cases hp : env.presentResult ∈ [eSuccess, eSuboptimalKHR]
    · rw [if_pos hp]
      exact ⟨_, rfl, fun h => absurd hw h, fun _ h => absurd hr h, fun _ _ h => absurd hs h,
        fun _ _ _ h => absurd hp h⟩
    · rw [if_neg hp]
      by_cases ho : env.presentResult = eErrorOutOfDateKHR
      · rw [if_pos ho]
        obtain ⟨tail, h1, _⟩ := recreate_trace env.recreate
          (s.emit (frameEvents s.win env.imageIndex graphicsQueue dynamic cb pscb cbFence fb))
        exact ⟨frameEvents s.win env.imageIndex graphicsQueue dynamic cb pscb cbFence fb ++
            .recreate :: .waitForFences s.win.commandBufferFences_ true umax :: tail,
          by rw [h1]; simp, fun h => absurd hw h, fun _ h => absurd hr h,
          fun _ _ h => absurd hs h, fun _ _ _ _ h => absurd ho h⟩
      · rw [if_neg ho]
        exact ⟨_, rfl, fun h => absurd hw h, fun _ h => absurd hr h, fun _ _ h => absurd hs h,
          fun _ _ _ _ _ => ⟨rfl, by simp [frameEvents]⟩⟩

theorem draw_acquire_device_lost_counterexample :
    (draw (scenarioDraw eErrorDeviceLost eSuccess eSuccess [201, 202, 203]) scenarioQueue 77
      scenarioWindow).1 = .ok ∧
    Event.recreate ∈ (draw (scenarioDraw eErrorDeviceLost eSuccess eSuccess [201, 202, 203])
      scenarioQueue 77 scenarioWindow).2.trace := by
  decide

theorem draw_failure_policy_witness :
    draw (scenarioDraw eErrorDeviceLost eSuccess eSuccess [201, 202, 203]) scenarioQueue 77
        scenarioWindow =
      recreate (scenarioDraw eErrorDeviceLost eSuccess eSuccess [201, 202, 203]).recreate
        (scenarioWindow.emit [.acquireNextImageKHR 1 umax 10 0]) :=
  ((draw_failure_policy (scenarioDraw eErrorDeviceLost eSuccess eSuccess [201, 202, 203])
    scenarioQueue 77 scenarioWindow 15 18 21 8 rfl rfl rfl rfl).1 (by decide)).1

/-! ### Lemmas on what `recreate` keeps and rebuilds -/

theorem SameSlots.self (w : Window) : SameSlots w w :=
  ⟨rfl, rfl, rfl, rfl, rfl, rfl, rfl, rfl, rfl, rfl⟩

theorem SameSlots.comp {a b c : Window} (h1 : SameSlots a b) (h2 : SameSlots b c) :
    SameSlots a c :=
  ⟨h2.renderPass_.trans h1.renderPass_, h2.commandPool_.trans h1.commandPool_,
    h2.commandBufferFences_.trans h1.commandBufferFences_,
    h2.staticDrawBuffers_.trans h1.staticDrawBuffers_,
    h2.dynamicDrawBuffers_.trans h1.dynamicDrawBuffers_, h2.func.trans h1.func,
    h2.imageAcquireSemaphore_.trans h1.imageAcquireSemaphore_,
    h2.commandCompleteSemaphore_.trans h1.commandCompleteSemaphore_,
    h2.dynamicSemaphore_.trans h1.dynamicSemaphore_, h2.presentQueue_.trans h1.presentQueue_⟩

theorem createSwapchain_sameSlots (env : SurfaceEnv) (s : State) :
    SameSlots s.win (createSwapchain env s).2.win := by
  unfold createSwapchain
  split
  · exact SameSlots.self _
  · split
    · exact ⟨rfl, rfl, rfl, rfl, rfl, rfl, rfl, rfl, rfl, rfl⟩
    · exact SameSlots.self _

theorem createImages_sameSlots (env : SurfaceEnv) (s : State) :
    SameSlots s.win (createImages env s).2.win := by
  unfold createImages
  split
  · exact SameSlots.self _
  · exact ⟨rfl, rfl, rfl, rfl, rfl, rfl, rfl, rfl, rfl, rfl⟩

theorem createDepthStencil_sameSlots (s : State) : SameSlots s.win (createDepthStencil s).win :=
  ⟨rfl, rfl, rfl, rfl, rfl, rfl, rfl, rfl, rfl, rfl⟩

theorem createFrameBuffers_sameSlots (s : State) : SameSlots s.win (createFrameBuffers s).win :=
  ⟨rfl, rfl, rfl, rfl, rfl, rfl, rfl, rfl, rfl, rfl⟩

theorem createSwapchain_sameSlots_of (env : SurfaceEnv) (s : State) (w : Window)
    (h : s.win = w) : SameSlots w (createSwapchain env s).2.win :=
  h ▸ createSwapchain_sameSlots env s

theorem recreate_sameSlots (env : RecreateEnv) (s : State) :
    SameSlots s.win (recreate env s).2.win := by
  unfold recreate
  simp only
  split
  · split
    · rename_i s1 h1
      have r1 : SameSlots s.win s1.win := by
        have := createSwapchain_sameSlots_of env.surface
          (s.emit [.recreate, .waitForFences s.win.commandBufferFences_ true umax]) s.win rfl
        rwa [h1] at this
      split
      · rename_i s2 h2
        have r2 : SameSlots s1.win s2.win := by
          have := createImages_sameSlots env.surface s1
          rwa [h2] at this
        rw [buildStaticCBs_win]
        exact r1.comp (r2.comp ((createDepthStencil_sameSlots s2).comp
          (createFrameBuffers_sameSlots _)))
      · exact r1.comp (createImages_sameSlots env.surface s1)
    · exact createSwapchain_sameSlots_of env.surface _ _ rfl
  · exact SameSlots.self _

theorem recreate_sameSlots_of (env : RecreateEnv) (s : State) (w : Window) (h : s.win = w) :
    SameSlots w (recreate env s).2.win :=
  h ▸ recreate_sameSlots env s

theorem draw_sameSlots (env : DrawEnv) (graphicsQueue : SynchronizedQueue) (dynamic : Nat)
    (s : State) : SameSlots s.win (draw env graphicsQueue dynamic s).2.win := by
  unfold draw
  simp only
  split
  · exact recreate_sameSlots_of env.recreate _ _ rfl
  · split
    · split
      · split
        · split
          · split
            · split
              · split
                · exact recreate_sameSlots_of env.recreate _ _ rfl
                · exact SameSlots.self _
              · exact SameSlots.self _
            · exact SameSlots.self _
          · exact SameSlots.self _
        · exact SameSlots.self _
      · exact SameSlots.self _
    · exact SameSlots.self _

theorem rebuilt_win_no_fifo (env : SurfaceEnv) (s : State) (hfifo : eFifo ∉ env.presentModes)
    (hne : env.presentModes ≠ []) (hsc : s.win.swapchain_ ≠ 0) :
    (rebuilt env s).win =
      { s.win with
        images_ := env.swapchainImages
        imageViews_ := List.range' s.fresh env.swapchainImages.length
        depthStencilImage_ := s.fresh + env.swapchainImages.length
        framebuffers_ :=
          List.range' (s.fresh + env.swapchainImages.length + 1)
            env.swapchainImages.length } := by
  unfold rebuilt
  rw [createSwapchain_no_fifo env s hfifo hne,
    createImages_eq env (s.emit [.cerr "No fifo mode available\n"]) hsc]
  simp [createFrameBuffers, createDepthStencil]

theorem rebuilt_trace_no_fifo (env : SurfaceEnv) (s : State)
    (hfifo : eFifo ∉ env.presentModes) (hne : env.presentModes ≠ [])
    (hsc : s.win.swapchain_ ≠ 0) :
    (rebuilt env s).trace =
      s.trace ++ [.cerr "No fifo mode available\n"] ++
        s.win.imageViews_.map Event.destroyImageView ++
        List.zipWith (fun img iv => Event.createImageView img s.win.swapchainImageFormat_ iv)
          env.swapchainImages (List.range' s.fresh env.swapchainImages.length) ++
        [.createDepthStencilImage s.win.width_ s.win.height_
          (s.fresh + env.swapchainImages.length)] ++
        (if s.win.depthStencilImage_ = 0 then []
         else [.destroyDepthStencilImage s.win.depthStencilImage_]) ++
        s.win.framebuffers_.map Event.destroyFramebuffer ++
        List.zipWith
          (fun iv fb =>
            Event.createFramebuffer s.win.renderPass_
              [iv, s.fresh + env.swapchainImages.length] s.win.width_ s.win.height_ fb)
          (List.range' s.fresh env.swapchainImages.length)
          (List.range' (s.fresh + env.swapchainImages.length + 1)
            env.swapchainImages.length) := by
  unfold rebuilt
  rw [createSwapchain_no_fifo env s hfifo hne,
    createImages_eq env (s.emit [.cerr "No fifo mode available\n"]) hsc]
  simp [createFrameBuffers, createDepthStencil]

theorem recreate_no_fifo (env : RecreateEnv) (s : State)
    (hw : env.waitResult ∈ [eSuccess, eTimeout]) (hfifo : eFifo ∉ env.surface.presentModes)
    (hne : env.surface.presentModes ≠ []) (hsc : s.win.swapchain_ ≠ 0) :
    recreate env s =
      buildStaticCBs (rebuilt env.surface
        (s.emit [.recreate, .waitForFences s.win.commandBufferFences_ true umax])) := by
  have h := createSwapchain_no_fifo env.surface
    (s.emit [.recreate, .waitForFences s.win.commandBufferFences_ true umax]) hfifo hne
  exact recreate_eq env s hw (by rw [h]) (by rw [h]; exact hsc)

theorem init_eq (env : InitEnv) (instance_ device physicalDevice graphicsQueueFamilyIndex
    surface : Nat) (s : State) (qi : Nat) (fc : Format × ColorSpaceKHR)
    (hq : env.qprops.findIdx? (fun qprop => qprop.1 && qprop.2) = some qi)
    (hfc : selectFormat env.fmts = some fc) (hfifo : eFifo ∈ env.surface.presentModes)
    (hfresh : s.fresh ≠ 0) :
    init env instance_ device physicalDevice graphicsQueueFamilyIndex surface s =
      (.ok, initSync graphicsQueueFamilyIndex
        (createFrameBuffers (createRenderPass (createDepthStencil
          (createImages env.surface (createSwapchain env.surface
            { s with
              win :=
                { s.win with
                  surface_ := surface
                  graphicsQueueFamilyIndex_ := graphicsQueueFamilyIndex
                  physicalDevice_ := physicalDevice
                  instance_ := instance_
                  device_ := device
                  presentQueueFamily_ := qi
                  presentQueue_ := (getQueue env.deviceGetQueue s.queues device qi 0).1
                  swapchainImageFormat_ := fc.1
                  swapchainColorSpace_ := fc.2 }
              queues := (getQueue env.deviceGetQueue s.queues device qi 0).2 }).2).2)))) := by
  unfold init
  simp only [hq, hfc]
  rw [createSwapchain_fifo env.surface _ hfifo]
  simp only
  rw [createImages_eq env.surface _ (by simpa using hfresh)]

theorem init_fifo (env : InitEnv) (instance_ device physicalDevice graphicsQueueFamilyIndex
    surface : Nat) (s : State) (hwin : s.win = {}) 
    (hok : (init env instance_ device physicalDevice graphicsQueueFamilyIndex surface s).1 = .ok)
    (hready :
      (init env instance_ device physicalDevice graphicsQueueFamilyIndex surface s).2.win.ok_ =
        true) :
    eFifo ∈ env.surface.presentModes ∧
    ∃ qi fc, env.qprops.findIdx? (fun qprop => qprop.1 && qprop.2) = some qi ∧
      selectFormat env.fmts = some fc := by
  unfold init at hok hready
  simp only at hok hready
  cases hq : env.qprops.findIdx? (fun qprop => qprop.1 && qprop.2) with
  | none =>
    simp only [hq, hwin] at hready
    cases hready
  | some qi =>
    simp only [hq] at hok
    cases hfc : selectFormat env.fmts with
    | none => simp only [hfc] at hok; cases hok
    | some fc =>
      simp only [hfc] at hok
      refine ⟨?_, qi, fc, rfl, rfl⟩
      by_contra hfifo
      by_cases hne : env.surface.presentModes = []
      · simp only [createSwapchain, hne] at hok
        cases hok
      · rw [createSwapchain_no_fifo env.surface _ hfifo hne] at hok
        simp only [createImages, State.emit_win, hwin] at hok
        simp at hok

theorem init_ready (env : InitEnv) (instance_ device physicalDevice graphicsQueueFamilyIndex
    surface : Nat) (s : State) (hwin : s.win = {}) (hfresh : s.fresh ≠ 0)
    (hok : (init env instance_ device physicalDevice graphicsQueueFamilyIndex surface s).1 = .ok)
    (hready :
      (init env instance_ device physicalDevice graphicsQueueFamilyIndex surface s).2.win.ok_ =
        true) :
    eFifo ∈ env.surface.presentModes ∧
    (init env instance_ device physicalDevice graphicsQueueFamilyIndex surface s).2.win.images_ =
      env.surface.swapchainImages ∧
    (init env instance_ device physicalDevice graphicsQueueFamilyIndex
      surface s).2.win.imageViews_.length = env.surface.swapchainImages.length ∧
    (init env instance_ device physicalDevice graphicsQueueFamilyIndex
      surface s).2.win.framebuffers_.length = env.surface.swapchainImages.length ∧
    (init env instance_ device physicalDevice graphicsQueueFamilyIndex
      surface s).2.win.commandBufferFences_.length = env.surface.swapchainImages.length ∧
    (init env instance_ device physicalDevice graphicsQueueFamilyIndex
      surface s).2.win.staticDrawBuffers_.length = env.surface.swapchainImages.length ∧
    (init env instance_ device physicalDevice graphicsQueueFamilyIndex
      surface s).2.win.dynamicDrawBuffers_.length = env.surface.swapchainImages.length ∧
    (init env instance_ device physicalDevice graphicsQueueFamilyIndex surface s).2.win.func =
      none ∧
    ∀ f ∈ (init env instance_ device physicalDevice graphicsQueueFamilyIndex
        surface s).2.win.commandBufferFences_,
      Event.createFence true f ∈
        (init env instance_ device physicalDevice graphicsQueueFamilyIndex surface s).2.trace := by
  obtain ⟨hfifo, qi, fc, hq, hfc⟩ := init_fifo env instance_ device physicalDevice
    graphicsQueueFamilyIndex surface s hwin hok hready
  rw [init_eq env instance_ device physicalDevice graphicsQueueFamilyIndex surface s qi fc hq hfc
    hfifo hfresh]
  rw [createSwapchain_fifo env.surface _ hfifo]
  simp only
  rw [createImages_eq env.surface _ (by simpa using hfresh)]
  simp only [initSync, createFrameBuffers, createRenderPass, createDepthStencil, hwin,
    List.length_range', List.nil_append]
  refine ⟨hfifo, trivial, trivial, trivial, trivial, trivial, trivial, trivial, ?_⟩
  intro f hf
  simp only [List.mem_append, List.mem_map]
  exact Or.inl (Or.inr ⟨f, hf, rfl⟩)

theorem eq_of_ite_some {c : Prop} [Decidable c] {g g' : Gpu}
    (h : (if c then some g else none) = some g') : g' = g := by
  by_cases hc : c
  · rw [if_pos hc] at h; exact (Option.some.inj h).symm
  · rw [if_neg hc] at h; cases h

theorem Gpu.apply_quiet {g g' : Gpu} {e : Event} (hq : e.isQuiet = true)
    (h : g.apply e = some g') : g' = g := by
  cases e <;> first
    | exact (Option.some.inj h).symm
    | exact eq_of_ite_some h
    | cases hq

theorem Quiet.tail {e : Event} {es : List Event} (h : Quiet (e :: es)) : Quiet es :=
  fun x hx => h x (List.mem_cons_of_mem _ hx)

theorem Quiet.head {e : Event} {es : List Event} (h : Quiet (e :: es)) : e.isQuiet = true :=
  h e (List.mem_cons_self _ _)

theorem Sys.Inv.perform {F : List Nat} {sys : Sys} (h : Sys.Inv F sys) :
    Sys.Inv F (sys.step .perform) := by
  obtain ⟨st, g, todo⟩ := sys
  simp only [Sys.step]
  cases todo with
  | nil => exact h
  | cons e rest =>
    simp only
    cases ha : g.apply e with
    | none => exact h
    | some g' =>
      simp only
      obtain ⟨hF, hnd, hin, hp⟩ := h
      simp only at hF hnd hin hp
      have quietStep : ∀ {P : Gpu → Prop}, e.isQuiet = true → P g → P g' := by
        intro P hq hP
        rw [Gpu.apply_quiet hq ha]
        exact hP
      rcases hp with hq | ⟨f, hfF, ⟨a, t, r, htodo, hqa, haw⟩ | ⟨hnf, b, r, htodo, hqb, har⟩ |
        ⟨hnf, hun, c, q, subs, d, htodo, hqc, hqd⟩⟩
      · have hg : g' = g := Gpu.apply_quiet hq.head ha
        subst hg
        exact ⟨hF, hnd, hin, Or.inl hq.tail⟩
      · rcases List.cons_eq_append_iff.1 htodo with ⟨rfl, hr⟩ | ⟨a', rfl, hr⟩
        · simp only [List.cons.injEq] at hr
          obtain ⟨rfl, rfl⟩ := hr
          simp only [Gpu.apply, if_true, List.all_cons, List.all_nil, Bool.and_true] at ha
          split at ha
          · rename_i hsig
            have hg : g' = g := (Option.some.inj ha).symm
            subst hg
            have hnu : f ∉ g'.unsignaled := by simpa using hsig
            exact ⟨hF, hnd, hin, Or.inr ⟨f, hfF, Or.inr (Or.inl
              ⟨fun hm => hnu (hin f hm).2, haw⟩)⟩⟩
          · cases ha
        · have hg : g' = g := Gpu.apply_quiet hqa.head ha
          subst hg
          exact ⟨hF, hnd, hin, Or.inr ⟨f, hfF, Or.inl ⟨a', t, r, hr, hqa.tail, haw⟩⟩⟩
      · rcases List.cons_eq_append_iff.1 htodo with ⟨rfl, hr⟩ | ⟨b', rfl, hr⟩
        · simp only [List.cons.injEq] at hr
          obtain ⟨rfl, rfl⟩ := hr
          simp only [Gpu.apply, Option.some.injEq] at ha
          subst ha
          refine ⟨hF, hnd, ?_, Or.inr ⟨f, hfF, Or.inr (Or.inr ⟨hnf, by simp, har⟩)⟩⟩
          intro x hx
          exact ⟨(hin x hx).1, List.mem_append_right _ (hin x hx).2⟩
        · have hg : g' = g := Gpu.apply_quiet hqb.head ha
          subst hg
          exact ⟨hF, hnd, hin, Or.inr ⟨f, hfF, Or.inr (Or.inl ⟨hnf, b', r, hr, hqb.tail, har⟩)⟩⟩
      · rcases List.cons_eq_append_iff.1 htodo with ⟨rfl, hr⟩ | ⟨c', rfl, hr⟩
        · simp only [List.cons.injEq] at hr
          obtain ⟨rfl, rfl⟩ := hr
          simp only [Gpu.apply, Option.some.injEq] at ha
          subst ha
          refine ⟨hF, List.nodup_cons.2 ⟨hnf, hnd⟩, ?_, Or.inl hqd⟩
          intro x hx
          rcases List.mem_cons.1 hx with rfl | hx
          · exact ⟨hfF, hun⟩
          · exact hin x hx
        · have hg : g' = g := Gpu.apply_quiet hqc.head ha
          subst hg
          exact ⟨hF, hnd, hin, Or.inr ⟨f, hfF, Or.inr (Or.inr
            ⟨hnf, hun, c', q, subs, d, hr, hqc.tail, hqd⟩)⟩⟩

theorem not_mem_eraseIdx_of_nodup :
    ∀ (l : List Nat) (k : Nat) (a : Nat), l.Nodup → l[k]? = some a → a ∉ l.eraseIdx k := by
  intro l
  induction l with
  | nil => intro k a _ h; simp at h
  | cons x l ih =>
    intro k a hnd h
    rw [List.nodup_cons] at hnd
    cases k with
    | zero =>
      simp only [List.getElem?_cons_zero, Option.some.injEq] at h
      subst h
      simpa using hnd.1
    | succ k =>
      simp only [List.getElem?_cons_succ] at h
      simp only [List.eraseIdx_cons_succ, List.mem_cons, not_or]
      have hmem : a ∈ l := List.getElem?_mem h
      exact ⟨fun e => hnd.1 (e ▸ hmem), ih k a hnd.2 h⟩

theorem Sys.Inv.complete {F : List Nat} {sys : Sys} (h : Sys.Inv F sys) (k : Nat) :
    Sys.Inv F (sys.step (.complete k)) := by
  obtain ⟨st, g, todo⟩ := sys
  obtain ⟨hF, hnd, hin, hp⟩ := h
  simp only at hF hnd hin hp
  simp only [Sys.step, Gpu.complete]
  cases hk : g.inFlight[k]? with
  | none => exact ⟨hF, hnd, hin, hp⟩
  | some f' =>
    simp only
    have hsub : ∀ x, x ∈ g.inFlight.eraseIdx k → x ∈ g.inFlight :=
      fun x hx => (List.eraseIdx_sublist g.inFlight k).subset hx
    have hf' : f' ∈ g.inFlight := List.getElem?_mem hk
    refine ⟨hF, hnd.sublist (List.eraseIdx_sublist _ _), ?_, ?_⟩
    · intro x hx
      refine ⟨(hin x (hsub x hx)).1, ?_⟩
      simp only [List.mem_filter, ne_eq, decide_not, Bool.not_eq_true', decide_eq_false_iff_not]
      refine ⟨(hin x (hsub x hx)).2, ?_⟩
      rintro rfl
      exact not_mem_eraseIdx_of_nodup _ _ _ hnd hk hx
    · rcases hp with hq | ⟨f, hfF, h1 | ⟨hnf, haw⟩ | ⟨hnf, hun, har⟩⟩
      · exact Or.inl hq
      · exact Or.inr ⟨f, hfF, Or.inl h1⟩
      · exact Or.inr ⟨f, hfF, Or.inr (Or.inl ⟨fun hx => hnf (hsub f hx), haw⟩)⟩
      · refine Or.inr ⟨f, hfF, Or.inr (Or.inr ⟨fun hx => hnf (hsub f hx), ?_, har⟩)⟩
        simp only [List.mem_filter, ne_eq, decide_not, Bool.not_eq_true',
          decide_eq_false_iff_not]
        exact ⟨hun, fun e => hnf (e ▸ hf')⟩

theorem isQuiet_of_isRebuild {e : Event} (h : e.isRebuild = true) : e.isQuiet = true := by
  cases e <;> first | rfl | simp [Event.isRebuild] at h

theorem draw_success_pending (env : DrawEnv) (graphicsQueue : SynchronizedQueue)
    (dynamic : Nat) (s : State) (htrace : s.trace = []) (hacq : env.acquired = eSuccess)
    (hwait : env.waitResult = eSuccess)
    (hok : (draw env graphicsQueue dynamic s).1 = .ok) :
    ∃ f, f ∈ s.win.commandBufferFences_ ∧
      ∃ a t rest, (draw env graphicsQueue dynamic s).2.trace =
          a ++ .waitForFences [f] true t :: rest ∧
        Quiet a ∧ AfterWait f rest := by
  cases hcb : s.win.staticDrawBuffers_[env.imageIndex]? with
  | none =>
    rw [draw_no_slot env graphicsQueue dynamic s hacq (Or.inl hcb)] at hok
    cases hok
  | some cb =>
  cases hpscb : s.win.dynamicDrawBuffers_[env.imageIndex]? with
  | none =>
    rw [draw_no_slot env graphicsQueue dynamic s hacq (Or.inr (Or.inl hpscb))] at hok
    cases hok
  | some pscb =>
  cases hf : s.win.commandBufferFences_[env.imageIndex]? with
  | none =>
    rw [draw_no_slot env graphicsQueue dynamic s hacq (Or.inr (Or.inr hf))] at hok
    cases hok
  | some f =>
  have hw : env.waitResult ∈ [eSuccess, eTimeout] := by rw [hwait]; simp
  by_cases hr : env.resetResult = eSuccess
  swap
  · rw [draw_reset_throws env graphicsQueue dynamic s cb pscb f hacq hcb hpscb hf hw hr] at hok
    cases hok
  cases hfb : s.win.framebuffers_[env.imageIndex]? with
  | none =>
    rw [draw_no_framebuffer env graphicsQueue dynamic s cb pscb f hacq hcb hpscb hf hw hr hfb]
      at hok
    cases hok
  | some fb =>
  by_cases hs : env.submitResult = eSuccess
  swap
  · rw [draw_submit_throws env graphicsQueue dynamic s cb pscb f hacq hcb hpscb hf fb hw hr hfb
      hs] at hok
    cases hok
  have hp := draw_presented env graphicsQueue dynamic s cb pscb f hacq hcb hpscb hf fb hw hr hfb
    hs
  have key : ∀ tail : List Event, Quiet tail →
      ∃ a t rest,
        s.trace ++ frameEvents s.win env.imageIndex graphicsQueue dynamic cb pscb f fb ++ tail =
          a ++ .waitForFences [f] true t :: rest ∧
        Quiet a ∧ AfterWait f rest := by
    intro tail ht
    refine ⟨[.acquireNextImageKHR s.win.swapchain_ umax s.win.imageAcquireSemaphore_ 0], umax,
      _, by rw [htrace]; rfl, by simp [Quiet, Event.isQuiet],
      [], _, rfl, by simp [Quiet],
      [.dynamic dynamic pscb env.imageIndex (s.win.rpbi fb), .lock graphicsQueue.mtx], _, _,
      .unlock graphicsQueue.mtx :: .lock s.win.presentQueue_.mtx ::
        .queuePresentKHR s.win.presentQueue_.t (presentInfo s.win env.imageIndex) ::
        .unlock s.win.presentQueue_.mtx :: tail,
      rfl, by simp [Quiet, Event.isQuiet], ?_⟩
    intro e he
    simp only [List.mem_cons] at he
    rcases he with rfl | rfl | rfl | rfl | he
    · rfl
    · rfl
    · rfl
    · rfl
    · exact ht e he
  refine ⟨f, List.getElem?_mem hf, ?_⟩
  rw [hp] at hok ⊢
  split
  · simpa using key [] (by simp [Quiet])
  · rename_i hnp
    rw [if_neg hnp] at hok
    split
    · obtain ⟨es, h1, h2⟩ := recreate_trace env.recreate
        (s.emit (frameEvents s.win env.imageIndex graphicsQueue dynamic cb pscb f fb))
      rw [h1]
      have := key (.recreate :: .waitForFences s.win.commandBufferFences_ true umax :: es) (by
        intro e he
        simp only [List.mem_cons] at he
        rcases he with rfl | rfl | he
        · rfl
        · rfl
        · exact isQuiet_of_isRebuild (h2 e he))
      simpa using this
    · rename_i ho
      rw [if_neg ho] at hok
      cases hok

theorem Sys.Inv.call {F : List Nat} {sys : Sys} (h : Sys.Inv F sys) (env : DrawEnv)
    (graphicsQueue : SynchronizedQueue) (dynamic : Nat) :
    Sys.Inv F (sys.step (.call env graphicsQueue dynamic)) := by
  obtain ⟨st, g, todo⟩ := sys
  obtain ⟨hF, hnd, hin, hp⟩ := h
  simp only at hF hnd hin hp
  simp only [Sys.step]
  split
  · rename_i hc
    obtain ⟨_, hacq, hwait, _, hok⟩ := hc
    have hs := draw_sameSlots env graphicsQueue dynamic { st with trace := [] }
    obtain ⟨f, hfF, a, t, rest, htr, hqa, haw⟩ := draw_success_pending env graphicsQueue dynamic
      { st with trace := [] } rfl hacq hwait hok
    refine ⟨by rw [← hF]; exact hs.commandBufferFences_, hnd, hin,
      Or.inr ⟨f, by rw [← hF]; exact hfF, Or.inl ⟨a, t, rest, htr, hqa, haw⟩⟩⟩
  · exact ⟨hF, hnd, hin, hp⟩

theorem Sys.Inv.afterStep {F : List Nat} {sys : Sys} (h : Sys.Inv F sys) (l : Label) :
    Sys.Inv F (sys.step l) := by
  cases l with
  | call env graphicsQueue dynamic => exact h.call env graphicsQueue dynamic
  | perform => exact h.perform
  | complete k => exact h.complete k

theorem Sys.Inv.afterRun {F : List Nat} (labels : List Label) :
    ∀ {sys : Sys}, Sys.Inv F sys → Sys.Inv F (sys.run labels) := by
  induction labels with
  | nil => intro sys h; exact h
  | cons l ls ih => intro sys h; exact ih (h.afterStep l)

theorem Sys.Inv.start (st : State) :
    Sys.Inv st.win.commandBufferFences_ ⟨st, ⟨[], []⟩, []⟩ :=
  ⟨rfl, List.nodup_nil, by simp, Or.inl (by simp [Quiet])⟩

/-! ### C5 -/

/-- C5: take a window that `init` has made ready on a surface whose swapchain reports `n`
images; it has `n` slot fences, each created signaled. Then let, in any order and any
number, the owning thread call `draw` (successful draws: acquire succeeds, the waits
return and `draw` returns normally, with or without a `recreate` after an out-of-date
present), the thread perform the next event of the running `draw` (a wait blocks until
the device has signaled the fences), and the device complete a submission in flight
(which signals its fence). In every state so reached, the window still has the same `n`
fences, at most `n` of them are unsignaled, at most `n` submissions are in flight, no
fence has two submissions in flight, and every submission in flight has an unsignaled
slot fence. -/
theorem in_flight_frames_bounded (env : InitEnv) (instance_ device physicalDevice
    graphicsQueueFamilyIndex surface : Nat) (labels : List Label)
    (hok : (init env instance_ device physicalDevice graphicsQueueFamilyIndex surface
      State.start).1 = .ok)
    (hready : (init env instance_ device physicalDevice graphicsQueueFamilyIndex surface
      State.start).2.win.ok_ = true) :
    (init env instance_ device physicalDevice graphicsQueueFamilyIndex surface
      State.start).2.win.images_.length = env.surface.swapchainImages.length ∧
    (init env instance_ device physicalDevice graphicsQueueFamilyIndex surface
      State.start).2.win.commandBufferFences_.length = env.surface.swapchainImages.length ∧
    (∀ f ∈ (init env instance_ device physicalDevice graphicsQueueFamilyIndex surface
        State.start).2.win.commandBufferFences_,
      Event.createFence true f ∈
        (init env instance_ device physicalDevice graphicsQueueFamilyIndex surface
          State.start).2.trace) ∧
    (Sys.run ⟨(init env instance_ device physicalDevice graphicsQueueFamilyIndex surface
        State.start).2, ⟨[], []⟩, []⟩ labels).st.win.commandBufferFences_ =
      (init env instance_ device physicalDevice graphicsQueueFamilyIndex surface
        State.start).2.win.commandBufferFences_ ∧
    ((Sys.run ⟨(init env instance_ device physicalDevice graphicsQueueFamilyIndex surface
        State.start).2, ⟨[], []⟩, []⟩ labels).st.win.commandBufferFences_.filter
      (fun f => decide (f ∈ (Sys.run ⟨(init env instance_ device physicalDevice
        graphicsQueueFamilyIndex surface State.start).2, ⟨[], []⟩, []⟩
          labels).gpu.unsignaled))).length ≤ env.surface.swapchainImages.length ∧
    (Sys.run ⟨(init env instance_ device physicalDevice graphicsQueueFamilyIndex surface
        State.start).2, ⟨[], []⟩, []⟩ labels).gpu.inFlight.length ≤
      env.surface.swapchainImages.length ∧
    (∀ f, (Sys.run ⟨(init env instance_ device physicalDevice graphicsQueueFamilyIndex surface
        State.start).2, ⟨[], []⟩, []⟩ labels).gpu.inFlight.count f ≤ 1) ∧
    ∀ f ∈ (Sys.run ⟨(init env instance_ device physicalDevice graphicsQueueFamilyIndex surface
        State.start).2, ⟨[], []⟩, []⟩ labels).gpu.inFlight,
      f ∈ (init env instance_ device physicalDevice graphicsQueueFamilyIndex surface
        State.start).2.win.commandBufferFences_ ∧
      f ∈ (Sys.run ⟨(init env instance_ device physicalDevice graphicsQueueFamilyIndex surface
        State.start).2, ⟨[], []⟩, []⟩ labels).gpu.unsignaled := by
  obtain ⟨_, himg, _, _, hfen, _, _, _, hsig⟩ := init_ready env instance_ device physicalDevice
    graphicsQueueFamilyIndex surface State.start rfl (by decide) hok hready
  have inv := Sys.Inv.afterRun labels (Sys.Inv.start (init env instance_ device physicalDevice
    graphicsQueueFamilyIndex surface State.start).2)
  refine ⟨by rw [himg], hfen, hsig, inv.fences, ?_, ?_, ?_, inv.inFlight⟩
  · rw [← hfen, inv.fences]
    exact List.length_filter_le _ _
  · rw [← hfen]
    exact (List.subperm_of_subset inv.nodup (fun f hf => (inv.inFlight f hf).1)).length_le
  · intro f
    exact List.nodup_iff_count_le_one.1 inv.nodup f

theorem in_flight_frames_bounded_witness :
    (Sys.run ⟨(init scenarioInit 1 2 3 1 4 State.start).2, ⟨[], []⟩, []⟩
      (scenarioFrame 0 ++ scenarioFrame 1 ++ scenarioFrame 2 ++ scenarioFrame 0 ++
        [.complete 2] ++ scenarioFrame 0)).gpu.inFlight.length ≤
      scenarioInit.surface.swapchainImages.length := by
  have hok : (init scenarioInit 1 2 3 1 4 State.start).1 = .ok := by decide
  have hready : (init scenarioInit 1 2 3 1 4 State.start).2.win.ok_ = true := by decide
  have h := in_flight_frames_bounded scenarioInit 1 2 3 1 4
    (scenarioFrame 0 ++ scenarioFrame 1 ++ scenarioFrame 2 ++ scenarioFrame 0 ++
      [.complete 2] ++ scenarioFrame 0) hok hready
  exact h.2.2.2.2.2.1

/-! ### Lemmas on the invariant of the swapchain state -/

theorem init_invariant (env : InitEnv) (instance_ device physicalDevice
    graphicsQueueFamilyIndex surface : Nat) (s : State) (hwin : s.win = {})
    (hfresh : s.fresh ≠ 0)
    (hok : (init env instance_ device physicalDevice graphicsQueueFamilyIndex surface s).1 = .ok)
    (hready :
      (init env instance_ device physicalDevice graphicsQueueFamilyIndex surface s).2.win.ok_ =
        true) :
    (init env instance_ device physicalDevice graphicsQueueFamilyIndex surface
      s).2.win.Invariant := by
  obtain ⟨_, himg, hv, hfb, hfen, _⟩ := init_ready env instance_ device physicalDevice
    graphicsQueueFamilyIndex surface s hwin hfresh hok hready
  exact ⟨by rw [himg, hv], by rw [hv, hfb], by rw [hfb, hfen]⟩

theorem recreate_invariant_iff (env : RecreateEnv) (s : State)
    (hw : env.waitResult ∈ [eSuccess, eTimeout]) (hfifo : eFifo ∈ env.surface.presentModes)
    (hfresh : s.fresh ≠ 0) :
    (recreate env s).2.win.Invariant ↔
      env.surface.swapchainImages.length = s.win.commandBufferFences_.length := by
  rw [recreate_fifo env s hw hfifo hfresh, buildStaticCBs_win,
    rebuilt_win_fifo env.surface
      (s.emit [.recreate, .waitForFences s.win.commandBufferFences_ true umax]) hfifo hfresh]
  simp [Window.Invariant]

/-! ### C10 -/

/-- C10, at the failing input: the window of the scenario satisfies the invariant after
`init` with three images. A `recreate` whose new swapchain reports four images returns
normally and leaves four images, four image views and four framebuffers, but still three
fences and three static command buffers, so the invariant no longer holds; the next `draw`
that acquires image index 3 indexes the command buffers and fences outside their size. -/
theorem recreate_changed_image_count :
    scenarioWindow.win.Invariant ∧
    (recreate ⟨eSuccess, scenarioSurface [201, 202, 203, 204]⟩ scenarioWindow).1 = .ok ∧
    (recreate ⟨eSuccess, scenarioSurface [201, 202, 203, 204]⟩
      scenarioWindow).2.win.images_.length = 4 ∧
    (recreate ⟨eSuccess, scenarioSurface [201, 202, 203, 204]⟩
      scenarioWindow).2.win.imageViews_.length = 4 ∧
    (recreate ⟨eSuccess, scenarioSurface [201, 202, 203, 204]⟩
      scenarioWindow).2.win.framebuffers_.length = 4 ∧
    (recreate ⟨eSuccess, scenarioSurface [201, 202, 203, 204]⟩
      scenarioWindow).2.win.commandBufferFences_.length = 3 ∧
    (recreate ⟨eSuccess, scenarioSurface [201, 202, 203, 204]⟩
      scenarioWindow).2.win.staticDrawBuffers_.length = 3 ∧
    ¬ (recreate ⟨eSuccess, scenarioSurface [201, 202, 203, 204]⟩
      scenarioWindow).2.win.Invariant ∧
    (draw ⟨eSuccess, 3, eSuccess, eSuccess, eSuccess, eSuccess, ⟨eSuccess, scenarioSurface []⟩⟩
      scenarioQueue 77
      (recreate ⟨eSuccess, scenarioSurface [201, 202, 203, 204]⟩ scenarioWindow).2).1 =
        .undefined := by
  decide

/-! ### C11 -/

/-- C11, at the failing input: on the window of the scenario (three images), a `recreate`
whose new swapchain reports four images returns normally with four images but leaves the
three static and the three dynamic command buffers that `init` allocated; slot 3 has no
static buffer, no dynamic buffer and no fence, and a `draw` that acquires image index 3
indexes them outside their size. With a callback registered and a new swapchain of two
images, `recreate` itself indexes framebuffer 2 of 2 while re-recording the three static
command buffers. -/
theorem recreate_keeps_command_buffers :
    (recreate ⟨eSuccess, scenarioSurface [201, 202, 203, 204]⟩ scenarioWindow).1 = .ok ∧
    (recreate ⟨eSuccess, scenarioSurface [201, 202, 203, 204]⟩
      scenarioWindow).2.win.images_ = [201, 202, 203, 204] ∧
    (recreate ⟨eSuccess, scenarioSurface [201, 202, 203, 204]⟩
      scenarioWindow).2.win.staticDrawBuffers_ = [14, 15, 16] ∧
    (recreate ⟨eSuccess, scenarioSurface [201, 202, 203, 204]⟩
      scenarioWindow).2.win.dynamicDrawBuffers_ = [17, 18, 19] ∧
    (recreate ⟨eSuccess, scenarioSurface [201, 202, 203, 204]⟩
      scenarioWindow).2.win.staticDrawBuffers_[3]? = none ∧
    (recreate ⟨eSuccess, scenarioSurface [201, 202, 203, 204]⟩
      scenarioWindow).2.win.dynamicDrawBuffers_[3]? = none ∧
    (recreate ⟨eSuccess, scenarioSurface [201, 202, 203, 204]⟩
      scenarioWindow).2.win.commandBufferFences_[3]? = none ∧
    (draw ⟨eSuccess, 3, eSuccess, eSuccess, eSuccess, eSuccess, ⟨eSuccess, scenarioSurface []⟩⟩
      scenarioQueue 77
      (recreate ⟨eSuccess, scenarioSurface [201, 202, 203, 204]⟩ scenarioWindow).2).1 =
        .undefined ∧
    (setStaticCommands 5 scenarioWindow).1 = .ok ∧
    (recreate ⟨eSuccess, scenarioSurface [201, 202]⟩
      (setStaticCommands 5 scenarioWindow).2).1 = .undefined ∧
    (recreate ⟨eSuccess, scenarioSurface [201, 202]⟩
      (setStaticCommands 5 scenarioWindow).2).2.win.staticDrawBuffers_.length = 3 ∧
    (recreate ⟨eSuccess, scenarioSurface [201, 202]⟩
      (setStaticCommands 5 scenarioWindow).2).2.win.framebuffers_.length = 2 := by
  decide

/-! ### C12 -/

/-- C12, at the failing input: `init` of a default-constructed window on a surface whose
present modes are only `eImmediate`. `createSwapchain` prints its message, creates no
swapchain and returns normally; `init` goes on to `createImages`, which asks a null
swapchain for its images, so `init` does not come back with a window that reports not
ready. The sibling path of `init`, a device without a present queue, does return with
`ok_` false. -/
theorem init_without_fifo_runs_on :
    eFifo ∉ scenarioInitNoFifo.surface.presentModes ∧
    (createSwapchain scenarioInitNoFifo.surface State.start).1 = .ok ∧
    (createSwapchain scenarioInitNoFifo.surface State.start).2.win.swapchain_ = 0 ∧
    (createImages scenarioInitNoFifo.surface
      (createSwapchain scenarioInitNoFifo.surface State.start).2).1 = .undefined ∧
    (init scenarioInitNoFifo 1 2 3 1 4 State.start).1 = .undefined ∧
    (init scenarioInitNoFifo 1 2 3 1 4 State.start).2.trace =
      [.cerr "No fifo mode available\n"] ∧
    (init scenarioInitNoPresent 1 2 3 1 4 State.start).1 = .ok ∧
    (init scenarioInitNoPresent 1 2 3 1 4 State.start).2.win.ok_ = false := by
  decide

/-! ### Lemmas on the surface format -/

theorem Event.not_static_of_plain {e : Event} (h : e.isPlain = true) : e.isStatic = false := by
  cases e <;> first | rfl | cases h

theorem Keeps.same (s : State) : Keeps s s :=
  ⟨⟨[], by simp, by simp⟩, rfl, rfl, Nat.le_refl _⟩

theorem Keeps.andThen {a b c : State} (h1 : Keeps a b) (h2 : Keeps b c) : Keeps a c := by
  obtain ⟨⟨es, he, hes⟩, hv1, hf1, hn1⟩ := h1
  obtain ⟨⟨fs, hf, hfs⟩, hv2, hf2, hn2⟩ := h2
  refine ⟨⟨es ++ fs, by rw [hf, he, List.append_assoc], ?_⟩, hv2.trans hv1, hf2.trans hf1,
    Nat.le_trans hn1 hn2⟩
  intro e hm
  rcases List.mem_append.1 hm with h | h
  · exact hes e h
  · exact hfs e h

theorem emit_keeps (s : State) (es : List Event) (h : ∀ e ∈ es, e.isPlain = true) :
    Keeps s (s.emit es) :=
  ⟨⟨es, rfl, h⟩, rfl, rfl, Nat.le_refl _⟩

theorem createSwapchain_keeps (env : SurfaceEnv) (s : State) :
    Keeps s (createSwapchain env s).2 := by
  unfold createSwapchain
  split
  · exact Keeps.same s
  · split
    · refine ⟨⟨_, by simp only [List.append_assoc]; rfl, ?_⟩, rfl, rfl, Nat.le_succ _⟩
      intro e he
      simp only [List.mem_append, List.mem_singleton] at he
      rcases he with rfl | he
      · rfl
      · split at he
        · simp at he
        · simp only [List.mem_singleton] at he
          subst he
          rfl
    · exact emit_keeps s _ (by simp [Event.isPlain])

theorem createDepthStencil_keeps (s : State) : Keeps s (createDepthStencil s) := by
  unfold createDepthStencil
  refine ⟨⟨_, by simp only [List.append_assoc]; rfl, ?_⟩, rfl, rfl, Nat.le_succ _⟩
  intro e he
  simp only [List.mem_append, List.mem_singleton] at he
  rcases he with rfl | he
  · rfl
  · split at he
    · simp at he
    · simp only [List.mem_singleton] at he
      subst he
      rfl

theorem createFrameBuffers_keeps (s : State) : Keeps s (createFrameBuffers s) := by
  unfold createFrameBuffers
  refine ⟨⟨_, by simp only [List.append_assoc]; rfl, ?_⟩, rfl, rfl, Nat.le_add_right _ _⟩
  intro e he
  simp only [List.mem_append, List.mem_map] at he
  rcases he with ⟨iv, _, rfl⟩ | he
  · rfl
  · obtain ⟨a, b, rfl⟩ := mem_zipWith _ _ _ _ he
    rfl


theorem createImages_no_static (env : SurfaceEnv) (s : State) :
    ∃ es, (createImages env s).2.trace = s.trace ++ es ∧ ∀ e ∈ es, e.isStatic = false := by
  unfold createImages
  split
  · exact ⟨[], by simp, by simp⟩
  · refine ⟨_, by simp only [List.append_assoc]; rfl, ?_⟩
    intro e he
    simp only [List.mem_append, List.mem_map] at he
    rcases he with ⟨iv, _, rfl⟩ | he
    · rfl
    · obtain ⟨a, b, rfl⟩ := mem_zipWith _ _ _ _ he
      rfl

theorem rebuilt_no_static (env : SurfaceEnv) (s : State) :
    ∃ es, (rebuilt env s).trace = s.trace ++ es ∧ ∀ e ∈ es, e.isStatic = false := by
  unfold rebuilt
  obtain ⟨es1, h1, p1⟩ := (createSwapchain_keeps env s).plain
  obtain ⟨es2, h2, p2⟩ := createImages_no_static env (createSwapchain env s).2
  obtain ⟨es3, h3, p3⟩ :=
    (createDepthStencil_keeps (createImages env (createSwapchain env s).2).2).plain
  obtain ⟨es4, h4, p4⟩ := (createFrameBuffers_keeps
    (createDepthStencil (createImages env (createSwapchain env s).2).2)).plain
  refine ⟨es1 ++ (es2 ++ (es3 ++ es4)), ?_, ?_⟩
  · rw [h4, h3, h2, h1]
    simp only [List.append_assoc]
  · intro e he
    simp only [List.mem_append] at he
    rcases he with h | h | h | h
    · exact Event.not_static_of_plain (p1 e h)
    · exact p2 e h
    · exact Event.not_static_of_plain (p3 e h)
    · exact Event.not_static_of_plain (p4 e h)

theorem rebuilt_sameSlots (env : SurfaceEnv) (s : State) :
    SameSlots s.win (rebuilt env s).win := by
  unfold rebuilt
  exact ((createSwapchain_sameSlots env s).comp (createImages_sameSlots env _)).comp
    ((createDepthStencil_sameSlots _).comp (createFrameBuffers_sameSlots _))

theorem rebuilt_framebuffers_length (env : SurfaceEnv) (s : State)
    (hsc : (createSwapchain env s).2.win.swapchain_ ≠ 0) :
    (rebuilt env s).win.framebuffers_.length = env.swapchainImages.length := by
  unfold rebuilt
  rw [createImages_eq env _ hsc]
  simp [createFrameBuffers, createDepthStencil]

theorem recreate_reaches_build (env : RecreateEnv) (s : State)
    (hw : env.waitResult ∈ [eSuccess, eTimeout]) (hne : env.surface.presentModes ≠ [])
    (hsc : s.win.swapchain_ ≠ 0) (hfresh : s.fresh ≠ 0) :
    recreate env s =
      buildStaticCBs (rebuilt env.surface
        (s.emit [.recreate, .waitForFences s.win.commandBufferFences_ true umax])) ∧
    (createSwapchain env.surface
      (s.emit [.recreate, .waitForFences s.win.commandBufferFences_ true umax])).2.win.swapchain_
        ≠ 0 := by
  by_cases hfifo : eFifo ∈ env.surface.presentModes
  · refine ⟨recreate_fifo env s hw hfifo hfresh, ?_⟩
    rw [createSwapchain_fifo env.surface _ hfifo]
    exact hfresh
  · refine ⟨recreate_no_fifo env s hw hfifo hne hsc, ?_⟩
    rw [createSwapchain_no_fifo env.surface _ hfifo hne]
    exact hsc

theorem buildStaticCBsFrom_calls (w : Window) (f : Nat) :
    ∀ (cbs : List Nat) (i : Nat), i + cbs.length ≤ w.framebuffers_.length →
      (buildStaticCBsFrom w f i cbs).1 = .ok ∧
      (buildStaticCBsFrom w f i cbs).2.length = cbs.length ∧
      ∀ (k cb : Nat), cbs[k]? = some cb →
        ∃ fb, w.framebuffers_[i + k]? = some fb ∧
          (buildStaticCBsFrom w f i cbs).2[k]? = some (.func f cb (i + k) (w.rpbi fb)) := by
  intro cbs
  induction cbs with
  | nil =>
    intro i _
    exact ⟨rfl, rfl, fun k cb h => by simp at h⟩
  | cons c cbs ih =>
    intro i hi
    simp only [List.length_cons] at hi
    have hlt : i < w.framebuffers_.length := by omega
    obtain ⟨h1, h2, h3⟩ := ih (i + 1) (by omega)
    have hfb : w.framebuffers_[i]? = some (w.framebuffers_[i]) := List.getElem?_eq_getElem hlt
    unfold buildStaticCBsFrom
    simp only [hfb]
    refine ⟨h1, by simp [h2], ?_⟩
    intro k cb hk
    cases k with
    | zero =>
      simp only [List.getElem?_cons_zero, Option.some.injEq] at hk
      subst hk
      exact ⟨_, hfb, by simp⟩
    | succ k =>
      simp only [List.getElem?_cons_succ] at hk
      obtain ⟨fb, hfb', hc⟩ := h3 k cb hk
      refine ⟨fb, ?_, ?_⟩
      · rw [← hfb']; congr 1; omega
      · simp only [List.getElem?_cons_succ]
        rw [hc]
        congr 2
        omega

theorem recreate_state_cases (env : RecreateEnv) (s : State) :
    (recreate env s).2 =
        s.emit [.recreate, .waitForFences s.win.commandBufferFences_ true umax] ∨
    (recreate env s).2 = (createSwapchain env.surface
        (s.emit [.recreate, .waitForFences s.win.commandBufferFences_ true umax])).2 ∨
    (recreate env s).2 = (createImages env.surface (createSwapchain env.surface
        (s.emit [.recreate, .waitForFences s.win.commandBufferFences_ true umax])).2).2 ∨
    (recreate env s).2 = (buildStaticCBs (rebuilt env.surface
        (s.emit [.recreate, .waitForFences s.win.commandBufferFences_ true umax]))).2 := by
  unfold recreate
  simp only
  split
  · split
    · rename_i s1 h1
      have e1 : s1 = (createSwapchain env.surface
          (s.emit [.recreate, .waitForFences s.win.commandBufferFences_ true umax])).2 := by
        rw [h1]
      split
      · rename_i s2 h2
        have e2 : s2 = (createImages env.surface s1).2 := by rw [h2]
        right; right; right
        unfold rebuilt
        rw [e2, e1]
      · right; right; left
        rw [e1]
    · right; left
      rfl
  · left
    rfl

theorem recreate_no_callback (env : RecreateEnv) (s : State) (h : s.win.func = none) :
    ∀ e ∈ s.since (recreate env s).2, e.isStatic = false := by
  have key : ∃ es, (recreate env s).2.trace = s.trace ++ es ∧ ∀ e ∈ es, e.isStatic = false := by
    have h0 : ∀ e ∈ [Event.recreate, .waitForFences s.win.commandBufferFences_ true umax],
        e.isPlain = true := by
      intro e he
      simp only [List.mem_cons, List.mem_singleton, List.not_mem_nil, or_false] at he
      rcases he with rfl | rfl <;> rfl
    have k0 := emit_keeps s _ h0
    have k1 := k0.andThen (createSwapchain_keeps env.surface _)
    rcases recreate_state_cases env s with hc | hc | hc | hc <;> rw [hc]
    · obtain ⟨es, he, hp⟩ := k0.plain
      exact ⟨es, he, fun e hm => Event.not_static_of_plain (hp e hm)⟩
    · obtain ⟨es, he, hp⟩ := k1.plain
      exact ⟨es, he, fun e hm => Event.not_static_of_plain (hp e hm)⟩
    · obtain ⟨es, he, hp⟩ := k1.plain
      obtain ⟨es2, he2, hp2⟩ := createImages_no_static env.surface (createSwapchain env.surface
        (s.emit [.recreate, .waitForFences s.win.commandBufferFences_ true umax])).2
      refine ⟨es ++ es2, by rw [he2, he, List.append_assoc], ?_⟩
      intro e hm
      rcases List.mem_append.1 hm with hm | hm
      · exact Event.not_static_of_plain (hp e hm)
      · exact hp2 e hm
    · have hb : buildStaticCBs (rebuilt env.surface
          (s.emit [.recreate, .waitForFences s.win.commandBufferFences_ true umax])) =
          (.ok, rebuilt env.surface
            (s.emit [.recreate, .waitForFences s.win.commandBufferFences_ true umax])) := by
        have hs := rebuilt_sameSlots env.surface
          (s.emit [.recreate, .waitForFences s.win.commandBufferFences_ true umax])
        unfold buildStaticCBs
        rw [hs.func]
        simp only [State.emit_win, h]
      rw [hb]
      obtain ⟨es, he, hp⟩ := rebuilt_no_static env.surface
        (s.emit [.recreate, .waitForFences s.win.commandBufferFences_ true umax])
      refine ⟨.recreate :: .waitForFences s.win.commandBufferFences_ true umax :: es,
        by simpa using he, ?_⟩
      intro e hm
      simp only [List.mem_cons] at hm
      rcases hm with rfl | rfl | hm
      · rfl
      · rfl
      · exact hp e hm
  obtain ⟨es, he, hp⟩ := key
  unfold State.since
  rw [he]
  simpa using hp

/-- On a window with a framebuffer for each static command buffer, `setStaticCommands f`
registers `f` and appends exactly one call of `f` per static command buffer, in ascending
order, the call for index `i` being given static command buffer `i` and a render pass
begin info that names the window's render pass, framebuffer `i`, the render area from
(0,0) with the window's width and height, and the two clear values. A `recreate` that
gets through the fence wait and rebuilds at least as many images as there are static
command buffers appends, after events none of which is a call of the callback, again one
such call per static command buffer, with the new framebuffers and extent. When no
callback is registered, `buildStaticCBs` does nothing and `recreate` appends no call of a
callback. -/
theorem static_callback_once_per_static_buffer (f : Nat) (s : State)
    (hfb : s.win.staticDrawBuffers_.length ≤ s.win.framebuffers_.length) :
    (∃ calls,
      setStaticCommands f s =
        (.ok, { s with win := { s.win with func := some f }, trace := s.trace ++ calls }) ∧
      calls.length = s.win.staticDrawBuffers_.length ∧
      ∀ (i cb : Nat), s.win.staticDrawBuffers_[i]? = some cb →
        ∃ fb, s.win.framebuffers_[i]? = some fb ∧
          calls[i]? = some (.func f cb i
            ⟨s.win.renderPass_, fb, ((0, 0), (s.win.width_, s.win.height_)),
              [.color 75 75 75 100, .depthStencil 100 0]⟩)) ∧
    (∀ (env : RecreateEnv) (t : State), t.win.func = some f →
      env.waitResult ∈ [eSuccess, eTimeout] → env.surface.presentModes ≠ [] →
      t.win.swapchain_ ≠ 0 → t.fresh ≠ 0 →
      t.win.staticDrawBuffers_.length ≤ env.surface.swapchainImages.length →
      ∃ es calls,
        (recreate env t).1 = .ok ∧
        (recreate env t).2.trace = t.trace ++ es ++ calls ∧
        (∀ e ∈ es, e.isStatic = false) ∧
        calls.length = t.win.staticDrawBuffers_.length ∧
        ∀ (i cb : Nat), t.win.staticDrawBuffers_[i]? = some cb →
          ∃ fb, (recreate env t).2.win.framebuffers_[i]? = some fb ∧
            calls[i]? = some (.func f cb i
              ⟨(recreate env t).2.win.renderPass_, fb,
                ((0, 0), ((recreate env t).2.win.width_, (recreate env t).2.win.height_)),
                [.color 75 75 75 100, .depthStencil 100 0]⟩)) ∧
    (∀ (t : State), t.win.func = none →
      buildStaticCBs t = (.ok, t) ∧
      ∀ (env : RecreateEnv), ∀ e ∈ t.since (recreate env t).2, e.isStatic = false) := by
  refine ⟨?_, ?_, ?_⟩
  · obtain ⟨h1, h2, h3⟩ := buildStaticCBsFrom_calls { s.win with func := some f } f
      s.win.staticDrawBuffers_ 0 (by simpa using hfb)
    refine ⟨(buildStaticCBsFrom { s.win with func := some f } f 0 s.win.staticDrawBuffers_).2,
      ?_, h2, ?_⟩
    · unfold setStaticCommands buildStaticCBs
      simp only [h1]
      rfl
    · intro i cb hi
      obtain ⟨fb, hfb', hc⟩ := h3 i cb hi
      rw [Nat.zero_add] at hfb' hc
      exact ⟨fb, hfb', hc⟩
  · intro env t hfunc hw hne hsc hfresh hlen
    obtain ⟨hrec, hsc'⟩ := recreate_reaches_build env t hw hne hsc hfresh
    have hs := rebuilt_sameSlots env.surface
      (t.emit [.recreate, .waitForFences t.win.commandBufferFences_ true umax])
    have hfl := rebuilt_framebuffers_length env.surface
      (t.emit [.recreate, .waitForFences t.win.commandBufferFences_ true umax]) hsc'
    obtain ⟨es, he, hp⟩ := rebuilt_no_static env.surface
      (t.emit [.recreate, .waitForFences t.win.commandBufferFences_ true umax])
    have hf' : (rebuilt env.surface
        (t.emit [.recreate, .waitForFences t.win.commandBufferFences_ true umax])).win.func =
        some f := by
      rw [hs.func]
      exact hfunc
    have hst : (rebuilt env.surface
        (t.emit [.recreate, .waitForFences t.win.commandBufferFences_ true umax])).win.staticDrawBuffers_
        = t.win.staticDrawBuffers_ := hs.staticDrawBuffers_
    obtain ⟨h1, h2, h3⟩ := buildStaticCBsFrom_calls (rebuilt env.surface
      (t.emit [.recreate, .waitForFences t.win.commandBufferFences_ true umax])).win f
      t.win.staticDrawBuffers_ 0 (by rw [hfl]; simpa using hlen)
    have hb : buildStaticCBs (rebuilt env.surface
        (t.emit [.recreate, .waitForFences t.win.commandBufferFences_ true umax])) =
        (.ok, (rebuilt env.surface
          (t.emit [.recreate, .waitForFences t.win.commandBufferFences_ true umax])).emit
          (buildStaticCBsFrom (rebuilt env.surface
            (t.emit [.recreate, .waitForFences t.win.commandBufferFences_ true umax])).win f 0
            t.win.staticDrawBuffers_).2) := by
      unfold buildStaticCBs
      simp only [hf', hst, h1]
    rw [hrec, hb]
    refine ⟨.recreate :: .waitForFences t.win.commandBufferFences_ true umax :: es, _, rfl, ?_,
      ?_, h2, ?_⟩
    · simp only [State.emit_trace, he]
      simp
    · intro e hm
      simp only [List.mem_cons] at hm
      rcases hm with rfl | rfl | hm
      · rfl
      · rfl
      · exact hp e hm
    · intro i cb hi
      obtain ⟨fb, hfb', hc⟩ := h3 i cb hi
      rw [Nat.zero_add] at hfb' hc
      exact ⟨fb, hfb', hc⟩
  · intro t hnone
    refine ⟨?_, fun env => recreate_no_callback env t hnone⟩
    unfold buildStaticCBs
    rw [hnone]

/-! ### C14 -/

/-- C14, at the failing input: on the window of the scenario (three images),
`setStaticCommands 5` registers the callback and calls it once for each of the three image
slots, in ascending order, with the slot's static command buffer and framebuffer. A
`recreate` whose new swapchain reports four images then returns normally with four images
and four framebuffers, and calls the callback for slots 0, 1 and 2 only: image slot 3,
whose framebuffer is 32, gets no call. -/
theorem recreate_skips_new_image_slot :
    (setStaticCommands 5 scenarioWindow).1 = .ok ∧
    (setStaticCommands 5 scenarioWindow).2.win.func = some 5 ∧
    (setStaticCommands 5 scenarioWindow).2.trace =
      [.func 5 14 0 ⟨6, 7, ((0, 0), (800, 600)), [.color 75 75 75 100, .depthStencil 100 0]⟩,
       .func 5 15 1 ⟨6, 8, ((0, 0), (800, 600)), [.color 75 75 75 100, .depthStencil 100 0]⟩,
       .func 5 16 2
        ⟨6, 9, ((0, 0), (800, 600)), [.color 75 75 75 100, .depthStencil 100 0]⟩] ∧
    (recreate ⟨eSuccess, scenarioSurface [201, 202, 203, 204]⟩
      (setStaticCommands 5 scenarioWindow).2).1 = .ok ∧
    (recreate ⟨eSuccess, scenarioSurface [201, 202, 203, 204]⟩
      (setStaticCommands 5 scenarioWindow).2).2.win.images_ = [201, 202, 203, 204] ∧
    (recreate ⟨eSuccess, scenarioSurface [201, 202, 203, 204]⟩
      (setStaticCommands 5 scenarioWindow).2).2.win.framebuffers_ = [29, 30, 31, 32] ∧
    ((setStaticCommands 5 scenarioWindow).2.since
      (recreate ⟨eSuccess, scenarioSurface [201, 202, 203, 204]⟩
        (setStaticCommands 5 scenarioWindow).2).2).filter Event.isStatic =
      [.func 5 14 0 ⟨6, 29, ((0, 0), (800, 600)), [.color 75 75 75 100, .depthStencil 100 0]⟩,
       .func 5 15 1 ⟨6, 30, ((0, 0), (800, 600)), [.color 75 75 75 100, .depthStencil 100 0]⟩,
       .func 5 16 2
        ⟨6, 31, ((0, 0), (800, 600)), [.color 75 75 75 100, .depthStencil 100 0]⟩] := by
  decide

/-! ### Lifetime of image views and fences -/

theorem createdViews_append (a b : List Event) :
    createdViews (a ++ b) = createdViews a ++ createdViews b := by
  simp [createdViews, List.filterMap_append]

theorem destroyedViews_append (a b : List Event) :
    destroyedViews (a ++ b) = destroyedViews a ++ destroyedViews b := by
  simp [destroyedViews, List.filterMap_append]

theorem createdFences_append (a b : List Event) :
    createdFences (a ++ b) = createdFences a ++ createdFences b := by
  simp [createdFences, List.filterMap_append]

theorem destroyedFences_append (a b : List Event) :
    destroyedFences (a ++ b) = destroyedFences a ++ destroyedFences b := by
  simp [destroyedFences, List.filterMap_append]

theorem ViewsDelta.append {a b c : State} {dv cv dv' cv' : List Nat}
    (h1 : ViewsDelta a b dv cv) (h2 : ViewsDelta b c dv' cv') :
    ViewsDelta a c (dv ++ dv') (cv ++ cv') := by
  obtain ⟨es, ht, e1, e2, e3, e4⟩ := h1
  obtain ⟨fs, hu, f1, f2, f3, f4⟩ := h2
  refine ⟨es ++ fs, by rw [hu, ht, List.append_assoc], ?_, ?_, ?_, ?_⟩
  · rw [destroyedViews_append, e1, f1]
  · rw [createdViews_append, e2, f2]
  · rw [createdFences_append, e3, f3]; rfl
  · rw [destroyedFences_append, e4, f4]; rfl

/-- C17: destroying a `Framework` that owns a device, an instance, a debug callback and a
live table appends, in this order: the device wait-idle, the release of the pipeline cache
if there is one, the lock of the table, the release of every pool of the table, the release
of the device, the unlock, the release of the debug callback, the release of the instance.
Afterwards the table no longer exists and holds no pool, so that an exit hook bound to it
releases nothing. -/
theorem framework_teardown_order (this : Framework) (h : Heap)
    (hdevice : this.device_ ≠ 0) (hinstance : this.instance_ ≠ 0)
    (hcallback : this.callback_ ≠ 0) (hpools : this.livePools_ ≠ 0)
    (halive : (h.tables this.livePools_).alive = true) :
    (this.destroy h).1 = .ok ∧
    (this.destroy h).2.2.trace =
      h.trace ++ [.waitIdle this.device_] ++
        (if this.pipelineCache_ = 0 then [] else [.destroyPipelineCache this.pipelineCache_]) ++
        [.lock this.livePools_, .clear this.livePools_] ++
        (h.tables this.livePools_).second.map (fun e => PoolEvent.destroyDescriptorPool e.2) ++
        [.destroyDevice this.device_, .unlock this.livePools_,
         .destroyDebugCallback this.callback_, .destroyInstance this.instance_] ∧
    (this.destroy h).2.2.tables this.livePools_ = { alive := false, second := [] } ∧
    ∀ (threadID : Nat),
      cleanupHook (threadID, this.livePools_) (this.destroy h).2.2 = (this.destroy h).2.2 := by
  have hd : this.destroy h =
      (.ok, {},
        { h with
          tables := Function.update
            (Function.update h.tables this.livePools_
              { h.tables this.livePools_ with second := [] })
            this.livePools_ { alive := false, second := [] }
          trace := h.trace ++ [.waitIdle this.device_] ++
            (if this.pipelineCache_ = 0 then []
             else [.destroyPipelineCache this.pipelineCache_]) ++
            [.lock this.livePools_, .clear this.livePools_] ++
            (h.tables this.livePools_).second.map
              (fun e => PoolEvent.destroyDescriptorPool e.2) ++
            [.destroyDevice this.device_, .unlock this.livePools_] ++
            [.destroyDebugCallback this.callback_] ++ [.destroyInstance this.instance_] ++
            [] }) := by
    unfold Framework.destroy
    simp only [hdevice, hinstance, hpools, halive, if_false, false_or, Bool.true_eq_false,
      DebugCallback.reset, hcallback, Function.update_same, List.map_nil]
  rw [hd]
  refine ⟨rfl, by simp, by simp, ?_⟩
  intro threadID
  unfold cleanupHook
  simp

theorem framework_teardown_order_witness :
    (scenarioFrameworkA.destroy scenarioProcess.heap).2.2.trace =
      scenarioProcess.heap.trace ++
        [.waitIdle 4, .destroyPipelineCache 5, .lock 1, .clear 1, .destroyDescriptorPool 11,
         .destroyDevice 4, .unlock 1, .destroyDebugCallback 3, .destroyInstance 2] := by
  have h := (framework_teardown_order scenarioFrameworkA scenarioProcess.heap (by decide)
    (by decide) (by decide) (by decide) (by decide)).2.1
  rw [h]
  decide

/-! ### C19 -/

/-- C19, at the failing input: thread 7 made its pool 11 through the first `Framework` of
the scenario, whose table and mutex are at address 1. The insert into the table happened
between the lock and the unlock of that mutex, and so does the clear of the destructor.
When thread 7 ends, its exit hook erases the entry and releases the pool with no lock
taken: the events of the thread exit are the erase and the release only, and no run of the
hook ever appends a lock. -/
theorem exit_hook_erases_without_lock :
    scenarioProcess.heap.trace =
      [.createDescriptorPool 4
        ⟨eFreeDescriptorSet, 256,
          [(eUniformBuffer, 128), (eCombinedImageSampler, 128), (eStorageBuffer, 128)]⟩ 11,
       .lock 1, .insert 1 7 11, .unlock 1] ∧
    (scenarioProcess.heap.tables 1).alive = true ∧
    (threadExit 7 scenarioProcess.heap).trace =
      scenarioProcess.heap.trace ++ [.erase 1 7, .destroyDescriptorPool 11] ∧
    (scenarioFrameworkA.destroy scenarioProcess.heap).2.2.trace =
      scenarioProcess.heap.trace ++
        [.waitIdle 4, .destroyPipelineCache 5, .lock 1, .clear 1, .destroyDescriptorPool 11,
         .destroyDevice 4, .unlock 1, .destroyDebugCallback 3, .destroyInstance 2] ∧
    ∀ (f : Nat × Nat) (h : Heap) (table : Nat),
      PoolEvent.lock table ∉ (cleanupHook f h).trace.drop h.trace.length := by
  refine ⟨by decide, by decide, by decide, by decide, ?_⟩
  intro f h table
  unfold cleanupHook
  by_cases ha : (h.tables f.2).alive = true
  · simp only [ha, if_true, List.append_assoc, List.drop_left]
    simp
  · simp only [ha]
    simp

/-! ### C20 -/

/-- C20, at the failing input: two `Framework` objects are alive, and thread 7 has called
`descriptorPool` of the first, which made pool 11 on device 4 and recorded it in table 1.
The call of `descriptorPool` of the second `Framework` by thread 7 returns pool 11 again,
creates no pool and leaves table 6, the table of the second `Framework`, without an entry
for thread 7. Thread 8, which has not called `descriptorPool` before, gets pool 12, made
on device 9 and recorded in table 6. -/
theorem descriptorPool_of_second_context_returns_first_pool :
    scenarioProcess.frameworks = [some scenarioFrameworkA, some scenarioFrameworkB] ∧
    (scenarioProcess.heap.tables scenarioFrameworkA.livePools_).second = [(7, 11)] ∧
    (scenarioProcess.heap.tables scenarioFrameworkB.livePools_).alive = true ∧
    (descriptorPool scenarioFrameworkB 7 scenarioProcess.heap).1 = .ok ∧
    (descriptorPool scenarioFrameworkB 7 scenarioProcess.heap).2.1 = 11 ∧
    (descriptorPool scenarioFrameworkB 7 scenarioProcess.heap).2.2.trace =
      scenarioProcess.heap.trace ∧
    ((descriptorPool scenarioFrameworkB 7 scenarioProcess.heap).2.2.tables
      scenarioFrameworkB.livePools_).second = [] ∧
    (descriptorPool scenarioFrameworkB 8 scenarioProcess.heap).2.1 = 12 ∧
    ((descriptorPool scenarioFrameworkB 8 scenarioProcess.heap).2.2.tables
      scenarioFrameworkB.livePools_).second = [(8, 12)] := by
  decide

/-! ### Lemmas on the per-thread pools -/

theorem descriptorPool_later (this : Framework) (threadID pool : Nat) (h : Heap)
    (hp : (h.threads threadID).desc_pool = some pool) :
    descriptorPool this threadID h = (.ok, pool, h) := by
  unfold descriptorPool
  rw [hp]

theorem descriptorPool_first (this : Framework) (threadID : Nat) (h : Heap)
    (hp : (h.threads threadID).desc_pool = none) (hc : (h.threads threadID).cleanup = none)
    (hk : threadID ∉ (h.tables this.livePools_).second.map Prod.fst)
    (hdevice : this.device_ ≠ 0) (hpools : this.livePools_ ≠ 0)
    (halive : (h.tables this.livePools_).alive = true) :
    descriptorPool this threadID h =
      (.ok, h.fresh,
        { tables := Function.update h.tables this.livePools_
            { alive := true
              second := (h.tables this.livePools_).second ++ [(threadID, h.fresh)] }
          threads := Function.update h.threads threadID
            { desc_pool := some h.fresh, cleanup := some (on_death (threadID, this.livePools_)) }
          fresh := h.fresh + 1
          trace := h.trace ++
            [.createDescriptorPool this.device_
              ⟨eFreeDescriptorSet, 256,
                [(eUniformBuffer, 128), (eCombinedImageSampler, 128), (eStorageBuffer, 128)]⟩
              h.fresh,
             .lock this.livePools_, .insert this.livePools_ threadID h.fresh,
             .unlock this.livePools_] }) := by
  unfold descriptorPool makeDescPool
  simp only [hp, hdevice, hpools, halive, hk, hc, if_false, false_or, Bool.true_eq_false,
    Function.update_same, Function.update_idem, List.append_assoc, List.singleton_append]

theorem threadExit_no_hook (threadID : Nat) (h : Heap)
    (hc : (h.threads threadID).cleanup = none) :
    threadExit threadID h = { h with threads := Function.update h.threads threadID {} } := by
  unfold threadExit
  simp only [hc]

theorem threadExit_dead (threadID table : Nat) (h : Heap)
    (hc : (h.threads threadID).cleanup = some (on_death (threadID, table)))
    (hdead : (h.tables table).alive = false) :
    threadExit threadID h = { h with threads := Function.update h.threads threadID {} } := by
  unfold threadExit
  simp only [hc, final_act.destroy, on_death, cleanupHook, hdead, if_true, Bool.false_eq_true,
    if_false]

theorem threadExit_alive (threadID table : Nat) (h : Heap)
    (hc : (h.threads threadID).cleanup = some (on_death (threadID, table)))
    (halive : (h.tables table).alive = true) :
    threadExit threadID h =
      { tables := Function.update h.tables table
          { alive := true
            second := (h.tables table).second.filter (fun e => e.1 ≠ threadID) }
        threads := Function.update h.threads threadID {}
        fresh := h.fresh
        trace := h.trace ++ [.erase table threadID] ++
          ((h.tables table).second.filter (fun e => e.1 = threadID)).map
            (fun e => PoolEvent.destroyDescriptorPool e.2) } := by
  unfold threadExit
  simp only [hc, final_act.destroy, on_death, cleanupHook, halive, if_true]

theorem Framework.destroy_live (this : Framework) (h : Heap)
    (hdevice : this.device_ ≠ 0) (hpools : this.livePools_ ≠ 0)
    (halive : (h.tables this.livePools_).alive = true) :
    (this.destroy h).1 = .ok ∧
    (this.destroy h).2.2.tables =
      Function.update h.tables this.livePools_ { alive := false, second := [] } ∧
    (this.destroy h).2.2.threads = h.threads ∧
    (this.destroy h).2.2.fresh = h.fresh := by
  unfold Framework.destroy
  simp only [hdevice, hpools, halive, if_false, false_or, Bool.true_eq_false]
  by_cases hi : this.instance_ = 0
  · simp [hi, hpools]
  · simp [hi, hpools]

theorem filter_key_eq (threadID pool : Nat) :
    ∀ (l : List (Nat × Nat)), (l.map Prod.fst).Nodup → (threadID, pool) ∈ l →
      l.filter (fun e => e.1 = threadID) = [(threadID, pool)] ∧
      (l.filter (fun e => e.1 ≠ threadID)).length + 1 = l.length := by
  intro l
  induction l with
  | nil => intro _ h; cases h
  | cons a l ih =>
    intro hnd hm
    simp only [List.map_cons, List.nodup_cons] at hnd
    rcases List.mem_cons.1 hm with rfl | hm
    · have hnone : ∀ e ∈ l, e.1 ≠ threadID := by
        intro e he heq
        exact hnd.1 (List.mem_map.2 ⟨e, he, heq⟩)
      have h1 : l.filter (fun e => e.1 = threadID) = [] := by
        rw [List.filter_eq_nil_iff]
        intro e he
        simpa using hnone e he
      simp [h1]
      intro a b hab
      exact hnone _ hab
    · have hne : a.1 ≠ threadID := by
        intro heq
        exact hnd.1 (List.mem_map.2 ⟨(threadID, pool), hm, heq.symm⟩)
      obtain ⟨i1, i2⟩ := ih hnd.2 hm
      simp [hne, i1]
      simpa using i2

theorem Heap.OK.afterCreate {h : Heap} (ok : h.OK) : (Framework.create h).2.OK := by
  obtain ⟨hP, hN, hE, hD, hK, hB, hF⟩ := ok
  unfold Framework.create
  refine ⟨?_, hN, ?_, ?_, ?_, ?_, ?_⟩
  · intro T pool hp
    obtain ⟨table, hc, hin⟩ := hP T pool hp
    have hne : table ≠ h.fresh := Nat.ne_of_lt (hB T _ hc)
    refine ⟨table, hc, ?_⟩
    simp only [Function.update_noteq hne]
    exact hin
  · intro table T pool hm
    by_cases ht : table = h.fresh
    · subst ht
      simp at hm
    · simp only [Function.update_noteq ht] at hm
      exact hE table T pool hm
  · intro table ha
    by_cases ht : table = h.fresh
    · subst ht
      simp at ha
    · simp only [Function.update_noteq ht] at ha ⊢
      exact hD table ha
  · intro table
    by_cases ht : table = h.fresh
    · subst ht
      simp
    · simp only [Function.update_noteq ht]
      exact hK table
  · intro T f hc
    exact Nat.lt_of_lt_of_le (hB T f hc) (Nat.le_add_right _ _)
  · exact Nat.lt_of_lt_of_le hF (Nat.le_add_right _ _)

theorem Heap.OK.no_entry {h : Heap} (ok : h.OK) (threadID : Nat)
    (hp : (h.threads threadID).desc_pool = none) (table : Nat) :
    threadID ∉ (h.tables table).second.map Prod.fst := by
  intro hm
  obtain ⟨e, he, rfl⟩ := List.mem_map.1 hm
  have := (ok.entry table e.1 e.2 he).1
  rw [hp] at this
  cases this

theorem Heap.OK.afterCall {h : Heap} (ok : h.OK) (this : Framework) (threadID : Nat)
    (hdevice : this.device_ ≠ 0) (hpools : this.livePools_ ≠ 0)
    (hlt : this.livePools_ < h.fresh) (halive : (h.tables this.livePools_).alive = true) :
    (descriptorPool this threadID h).2.2.OK := by
  cases hp : (h.threads threadID).desc_pool with
  | some pool =>
    rw [descriptorPool_later this threadID pool h hp]
    exact ok
  | none =>
    have hk := ok.no_entry threadID hp
    rw [descriptorPool_first this threadID h hp (ok.nohook threadID hp) (hk _) hdevice hpools
      halive]
    obtain ⟨hP, hN, hE, hD, hK, hB, hF⟩ := ok
    refine ⟨?_, ?_, ?_, ?_, ?_, ?_, Nat.lt_succ_of_lt hF⟩
    · intro T pool hq
      by_cases hT : T = threadID
      · subst hT
        simp only [Function.update_same, Option.some.injEq] at hq
        subst hq
        exact ⟨this.livePools_, by simp, by simp⟩
      · simp only [Function.update_noteq hT] at hq ⊢
        obtain ⟨table, hc, hin⟩ := hP T pool hq
        refine ⟨table, hc, ?_⟩
        by_cases ht : table = this.livePools_
        · subst ht
          intro _
          simp only [Function.update_same]
          exact List.mem_append_left _ (hin halive)
        · simp only [Function.update_noteq ht]
          exact hin
    · intro T hq
      by_cases hT : T = threadID
      · subst hT
        simp at hq
      · simp only [Function.update_noteq hT] at hq ⊢
        exact hN T hq
    · intro table T pool hm
      have old : (T, pool) ∈ (h.tables table).second →
          ((Function.update h.threads threadID
            { desc_pool := some h.fresh,
              cleanup := some (on_death (threadID, this.livePools_)) }) T).desc_pool =
            some pool ∧
          ((Function.update h.threads threadID
            { desc_pool := some h.fresh,
              cleanup := some (on_death (threadID, this.livePools_)) }) T).cleanup =
            some (on_death (T, table)) := by
        intro hm'
        have hT : T ≠ threadID := by
          rintro rfl
          exact hk table (List.mem_map.2 ⟨(T, pool), hm', rfl⟩)
        simp only [Function.update_noteq hT]
        exact hE table T pool hm'
      by_cases ht : table = this.livePools_
      · subst ht
        simp only [Function.update_same, List.mem_append, List.mem_singleton] at hm
        rcases hm with hm | hm
        · exact old hm
        · cases hm
          simp
      · simp only [Function.update_noteq ht] at hm
        exact old hm
    · intro table ha
      by_cases ht : table = this.livePools_
      · subst ht
        simp at ha
      · simp only [Function.update_noteq ht] at ha ⊢
        exact hD table ha
    · intro table
      by_cases ht : table = this.livePools_
      · subst ht
        simp only [Function.update_same, List.map_append, List.map_cons, List.map_nil]
        refine List.Nodup.append (hK _) (List.nodup_singleton _) ?_
        intro x hx hx'
        simp only [List.mem_singleton] at hx'
        subst hx'
        exact hk _ hx
      · simp only [Function.update_noteq ht]
        exact hK table
    · intro T f hc
      by_cases hT : T = threadID
      · subst hT
        simp only [Function.update_same, Option.some.injEq] at hc
        subst hc
        exact Nat.lt_succ_of_lt hlt
      · simp only [Function.update_noteq hT] at hc
        exact Nat.lt_succ_of_lt (hB T f hc)

theorem Heap.OK.hook {h : Heap} (ok : h.OK) (threadID : Nat) :
    (h.threads threadID).cleanup = none ∨
    ∃ pool table, (h.threads threadID).desc_pool = some pool ∧
      (h.threads threadID).cleanup = some (on_death (threadID, table)) ∧
      ((h.tables table).alive = true → (threadID, pool) ∈ (h.tables table).second) := by
  cases hp : (h.threads threadID).desc_pool with
  | none => exact Or.inl (ok.nohook threadID hp)
  | some pool =>
    obtain ⟨table, hc, hin⟩ := ok.pool threadID pool hp
    exact Or.inr ⟨pool, table, rfl, hc, hin⟩

theorem Heap.OK.reset {h : Heap} (ok : h.OK) (threadID : Nat)
    (hnone : ∀ (table pool : Nat), (threadID, pool) ∉ (h.tables table).second) :
    Heap.OK { h with threads := Function.update h.threads threadID {} } := by
  obtain ⟨hP, hN, hE, hD, hK, hB, hF⟩ := ok
  refine ⟨?_, ?_, ?_, hD, hK, ?_, hF⟩
  · intro T pool hq
    by_cases hT : T = threadID
    · subst hT
      simp at hq
    · simp only [Function.update_noteq hT] at hq ⊢
      exact hP T pool hq
  · intro T hq
    by_cases hT : T = threadID
    · subst hT
      simp
    · simp only [Function.update_noteq hT] at hq ⊢
      exact hN T hq
  · intro table T pool hm
    have hT : T ≠ threadID := by
      rintro rfl
      exact hnone table pool hm
    simp only [Function.update_noteq hT]
    exact hE table T pool hm
  · intro T f hc
    by_cases hT : T = threadID
    · subst hT
      simp at hc
    · simp only [Function.update_noteq hT] at hc
      exact hB T f hc

theorem Heap.OK.afterExit {h : Heap} (ok : h.OK) (threadID : Nat) :
    (threadExit threadID h).OK := by
  rcases ok.hook threadID with hc | ⟨pool, table, hp, hc, hin⟩
  · rw [threadExit_no_hook threadID h hc]
    refine ok.reset threadID ?_
    intro table pool hm
    have := (ok.entry table threadID pool hm).2
    rw [hc] at this
    cases this
  · have hother : ∀ (table' pool' : Nat), (threadID, pool') ∈ (h.tables table').second →
        table' = table := by
      intro table' pool' hm
      have := (ok.entry table' threadID pool' hm).2
      rw [hc] at this
      simp only [on_death, Option.some.injEq, final_act.mk.injEq, Prod.mk.injEq, true_and,
        and_true] at this
      exact this.symm
    cases ha : (h.tables table).alive with
    | false =>
      rw [threadExit_dead threadID table h hc ha]
      refine ok.reset threadID ?_
      intro table' pool' hm
      have ht := hother table' pool' hm
      subst ht
      rw [ok.dead _ ha] at hm
      cases hm
    | true =>
      rw [threadExit_alive threadID table h hc ha]
      obtain ⟨hP, hN, hE, hD, hK, hB, hF⟩ := ok
      refine ⟨?_, ?_, ?_, ?_, ?_, ?_, hF⟩
      · intro T pool' hq
        by_cases hT : T = threadID
        · subst hT
          simp at hq
        · simp only [Function.update_noteq hT] at hq ⊢
          obtain ⟨table', hc', hin'⟩ := hP T pool' hq
          refine ⟨table', hc', ?_⟩
          by_cases ht : table' = table
          · subst ht
            intro _
            simp only [Function.update_same]
            exact List.mem_filter.2 ⟨hin' ha, by simpa using hT⟩
          · simp only [Function.update_noteq ht]
            exact hin'
      · intro T hq
        by_cases hT : T = threadID
        · subst hT
          simp
        · simp only [Function.update_noteq hT] at hq ⊢
          exact hN T hq
      · intro table' T pool' hm
        have key : (T, pool') ∈ (h.tables table').second ∧ T ≠ threadID := by
          by_cases ht : table' = table
          · subst ht
            simp only [Function.update_same] at hm
            obtain ⟨h1, h2⟩ := List.mem_filter.1 hm
            exact ⟨h1, by simpa using h2⟩
          · simp only [Function.update_noteq ht] at hm
            refine ⟨hm, ?_⟩
            rintro rfl
            exact ht (hother table' pool' hm)
        simp only [Function.update_noteq key.2]
        exact hE table' T pool' key.1
      · intro table' ha'
        by_cases ht : table' = table
        · subst ht
          simp at ha'
        · simp only [Function.update_noteq ht] at ha' ⊢
          exact hD table' ha'
      · intro table'
        by_cases ht : table' = table
        · subst ht
          simp only [Function.update_same]
          exact ((List.filter_sublist _).map Prod.fst).nodup (hK _)
        · simp only [Function.update_noteq ht]
          exact hK table'
      · intro T f hc'
        by_cases hT : T = threadID
        · subst hT
          simp at hc'
        · simp only [Function.update_noteq hT] at hc'
          exact hB T f hc'

theorem Heap.OK.afterDestroy {h : Heap} (ok : h.OK) (this : Framework)
    (hdevice : this.device_ ≠ 0) (hpools : this.livePools_ ≠ 0)
    (halive : (h.tables this.livePools_).alive = true) :
    (this.destroy h).2.2.OK := by
  obtain ⟨-, ht, hth, hfr⟩ := Framework.destroy_live this h hdevice hpools halive
  obtain ⟨hP, hN, hE, hD, hK, hB, hF⟩ := ok
  refine ⟨?_, ?_, ?_, ?_, ?_, ?_, ?_⟩
  · intro T pool hq
    rw [hth] at hq
    obtain ⟨table, hc, hin⟩ := hP T pool hq
    refine ⟨table, by rw [hth]; exact hc, ?_⟩
    rw [ht]
    by_cases hne : table = this.livePools_
    · subst hne
      simp
    · simp only [Function.update_noteq hne]
      exact hin
  · intro T hq
    rw [hth] at hq ⊢
    exact hN T hq
  · intro table T pool hm
    rw [ht] at hm
    rw [hth]
    by_cases hne : table = this.livePools_
    · subst hne
      simp at hm
    · simp only [Function.update_noteq hne] at hm
      exact hE table T pool hm
  · intro table ha
    rw [ht] at ha ⊢
    by_cases hne : table = this.livePools_
    · subst hne
      simp
    · simp only [Function.update_noteq hne] at ha ⊢
      exact hD table ha
  · intro table
    rw [ht]
    by_cases hne : table = this.livePools_
    · subst hne
      simp
    · simp only [Function.update_noteq hne]
      exact hK table
  · intro T f hc
    rw [hth] at hc
    rw [hfr]
    exact hB T f hc
  · rw [hfr]
    exact hF

theorem descriptorPool_tables_alive {h : Heap} (ok : h.OK) (this : Framework)
    (threadID : Nat) (hdevice : this.device_ ≠ 0) (hpools : this.livePools_ ≠ 0)
    (halive : (h.tables this.livePools_).alive = true) :
    (∀ (table : Nat),
      ((descriptorPool this threadID h).2.2.tables table).alive = (h.tables table).alive) ∧
    h.fresh ≤ (descriptorPool this threadID h).2.2.fresh := by
  cases hp : (h.threads threadID).desc_pool with
  | some pool =>
    rw [descriptorPool_later this threadID pool h hp]
    exact ⟨fun _ => rfl, Nat.le_refl _⟩
  | none =>
    rw [descriptorPool_first this threadID h hp (ok.nohook threadID hp)
      (ok.no_entry threadID hp _) hdevice hpools halive]
    refine ⟨?_, Nat.le_succ _⟩
    intro table
    by_cases ht : table = this.livePools_
    · subst ht
      simp [halive]
    · simp only [Function.update_noteq ht]

theorem threadExit_tables_alive {h : Heap} (ok : h.OK) (threadID : Nat) :
    (∀ (table : Nat), ((threadExit threadID h).tables table).alive = (h.tables table).alive) ∧
    (threadExit threadID h).fresh = h.fresh := by
  rcases ok.hook threadID with hc | ⟨pool, table, hp, hc, hin⟩
  · rw [threadExit_no_hook threadID h hc]
    exact ⟨fun _ => rfl, rfl⟩
  · cases ha : (h.tables table).alive with
    | false =>
      rw [threadExit_dead threadID table h hc ha]
      exact ⟨fun _ => rfl, rfl⟩
    | true =>
      rw [threadExit_alive threadID table h hc ha]
      refine ⟨?_, rfl⟩
      intro table'
      by_cases ht : table' = table
      · subst ht
        simp [ha]
      · simp only [Function.update_noteq ht]

theorem Process.OK.afterOp {p : Process} (ok : p.OK) (op : Op) : (p.step op).OK := by
  obtain ⟨hH, hL, hD⟩ := ok
  cases op with
  | construct =>
    simp only [Process.step]
    have hlen : ∀ (i : Nat) (fw : Framework),
        (p.frameworks ++ [some (Framework.create p.heap).1])[i]? = some (some fw) →
        p.frameworks[i]? = some (some fw) ∨
          (i = p.frameworks.length ∧ fw = (Framework.create p.heap).1) := by
      intro i fw hi
      by_cases hlt : i < p.frameworks.length
      · rw [List.getElem?_append_left hlt] at hi
        exact Or.inl hi
      · right
        rw [List.getElem?_append_right (Nat.le_of_not_lt hlt)] at hi
        cases hk : i - p.frameworks.length with
        | zero =>
          rw [hk] at hi
          simp only [List.getElem?_cons_zero, Option.some.injEq] at hi
          exact ⟨by omega, hi.symm⟩
        | succ k =>
          rw [hk] at hi
          simp at hi
    refine ⟨hH.afterCreate, ?_, ?_⟩
    · intro i fw hi
      rcases hlen i fw hi with hold | ⟨-, rfl⟩
      · obtain ⟨h1, h2, h3, h4⟩ := hL i fw hold
        refine ⟨h1, h2, ?_, ?_⟩
        · simp only [Framework.create]
          omega
        · simp only [Framework.create, Function.update_noteq (Nat.ne_of_lt h3)]
          exact h4
      · have := hH.fresh
        simp only [Framework.create, Function.update_same]
        exact ⟨by omega, by omega, by omega, trivial⟩
    · intro i j fw fw' hi hj heq
      rcases hlen i fw hi with hold | ⟨hi', rfl⟩ <;> rcases hlen j fw' hj with hold' | ⟨hj', rfl⟩
      · exact hD i j fw fw' hold hold' heq
      · have := (hL i fw hold).2.2.1
        simp only [Framework.create] at heq
        omega
      · have := (hL j fw' hold').2.2.1
        simp only [Framework.create] at heq
        omega
      · omega
  | descriptorPool i threadID =>
    simp only [Process.step]
    cases hi : p.frameworks[i]? with
    | none => exact ⟨hH, hL, hD⟩
    | some o =>
      cases o with
      | none => exact ⟨hH, hL, hD⟩
      | some fw =>
        simp only
        obtain ⟨h1, h2, h3, h4⟩ := hL i fw hi
        obtain ⟨ha, hf⟩ := descriptorPool_tables_alive hH fw threadID h1 h2 h4
        refine ⟨hH.afterCall fw threadID h1 h2 h3 h4, ?_, hD⟩
        intro j fw' hj
        obtain ⟨g1, g2, g3, g4⟩ := hL j fw' hj
        exact ⟨g1, g2, Nat.lt_of_lt_of_le g3 hf, by rw [ha]; exact g4⟩
  | threadExit threadID =>
    simp only [Process.step]
    obtain ⟨ha, hf⟩ := threadExit_tables_alive hH threadID
    refine ⟨hH.afterExit threadID, ?_, hD⟩
    intro j fw' hj
    obtain ⟨g1, g2, g3, g4⟩ := hL j fw' hj
    exact ⟨g1, g2, by rw [hf]; exact g3, by rw [ha]; exact g4⟩
  | destroy i =>
    simp only [Process.step]
    cases hi : p.frameworks[i]? with
    | none => exact ⟨hH, hL, hD⟩
    | some o =>
      cases o with
      | none => exact ⟨hH, hL, hD⟩
      | some fw =>
        simp only
        obtain ⟨h1, h2, h3, h4⟩ := hL i fw hi
        obtain ⟨-, ht, -, hfr⟩ := Framework.destroy_live fw p.heap h1 h2 h4
        have hset : ∀ (j : Nat) (fw' : Framework),
            (p.frameworks.set i none)[j]? = some (some fw') →
            p.frameworks[j]? = some (some fw') ∧ j ≠ i := by
          intro j fw' hj
          by_cases hji : j = i
          · subst hji
            rw [List.getElem?_set_self (by
              by_contra hlt
              rw [List.getElem?_eq_none (Nat.le_of_not_lt hlt)] at hi
              cases hi)] at hj
            cases hj
          · rw [List.getElem?_set_ne (Ne.symm hji)] at hj
            exact ⟨hj, hji⟩
        refine ⟨hH.afterDestroy fw h1 h2 h4, ?_, ?_⟩
        · intro j fw' hj
          obtain ⟨hj', hji⟩ := hset j fw' hj
          obtain ⟨g1, g2, g3, g4⟩ := hL j fw' hj'
          have hne : fw'.livePools_ ≠ fw.livePools_ := fun heq =>
            hji (hD j i fw' fw hj' hi heq)
          refine ⟨g1, g2, by rw [hfr]; exact g3, ?_⟩
          rw [ht, Function.update_noteq hne]
          exact g4
        · intro j k fw' fw'' hj hk heq
          exact hD j k fw' fw'' (hset j fw' hj).1 (hset k fw'' hk).1 heq

theorem Process.OK.begin : Process.start.OK := by
  refine ⟨⟨?_, ?_, ?_, ?_, ?_, ?_, ?_⟩, ?_, ?_⟩
  · intro T pool h; cases h
  · intro T _; rfl
  · intro table T pool h; cases h
  · intro table _; rfl
  · intro table; exact List.nodup_nil
  · intro T f h; cases h
  · exact Nat.one_pos
  · intro i fw h; simp [Process.start] at h
  · intro i j fw fw' h; simp [Process.start] at h

theorem Process.OK.ofRun (ops : List Op) : ∀ {p : Process}, p.OK → (Process.run ops p).OK := by
  induction ops with
  | nil => intro p ok; exact ok
  | cons op ops ih =>
    intro p ok
    exact ih (ok.afterOp op)

theorem threadExit_threads (threadID : Nat) (h : Heap) :
    (threadExit threadID h).threads = Function.update h.threads threadID {} := by
  unfold threadExit
  cases hc : (h.threads threadID).cleanup with
  | none => rfl
  | some f =>
    simp only [final_act.destroy, cleanupHook]
    by_cases hi : f.invoke_ = true
    · by_cases ha : (h.tables f.f_.2).alive = true
      · simp only [hi, ha, if_true]
      · simp [hi, ha]
    · simp [hi]

theorem Process.OK.keeps_pool {p : Process} (ok : p.OK) (op : Op) (threadID pool : Nat)
    (hq : (p.heap.threads threadID).desc_pool = some pool) (hop : op ≠ .threadExit threadID) :
    ((p.step op).heap.threads threadID).desc_pool = some pool := by
  obtain ⟨hH, hL, hD⟩ := ok
  cases op with
  | construct => exact hq
  | descriptorPool i T =>
    simp only [Process.step]
    cases hi : p.frameworks[i]? with
    | none => exact hq
    | some o =>
      cases o with
      | none => exact hq
      | some fw =>
        simp only
        obtain ⟨h1, h2, h3, h4⟩ := hL i fw hi
        cases hp : (p.heap.threads T).desc_pool with
        | some pool' =>
          rw [descriptorPool_later fw T pool' p.heap hp]
          exact hq
        | none =>
          rw [descriptorPool_first fw T p.heap hp (hH.nohook T hp) (hH.no_entry T hp _) h1 h2 h4]
          have hT : threadID ≠ T := by
            rintro rfl
            rw [hp] at hq
            cases hq
          simp only [Function.update_noteq hT]
          exact hq
  | threadExit T =>
    simp only [Process.step]
    rw [threadExit_threads]
    have hT : threadID ≠ T := by
      rintro rfl
      exact hop rfl
    simp only [Function.update_noteq hT]
    exact hq
  | destroy i =>
    simp only [Process.step]
    cases hi : p.frameworks[i]? with
    | none => exact hq
    | some o =>
      cases o with
      | none => exact hq
      | some fw =>
        simp only
        obtain ⟨h1, h2, h3, h4⟩ := hL i fw hi
        rw [(Framework.destroy_live fw p.heap h1 h2 h4).2.2.1]
        exact hq

theorem Process.OK.run_keeps_pool (ops : List Op) (threadID pool : Nat)
    (hops : Op.threadExit threadID ∉ ops) :
    ∀ {p : Process}, p.OK → (p.heap.threads threadID).desc_pool = some pool →
      ((Process.run ops p).heap.threads threadID).desc_pool = some pool := by
  induction ops with
  | nil => intro p _ hq; exact hq
  | cons op ops ih =>
    intro p ok hq
    have hop : op ≠ .threadExit threadID := by
      rintro rfl
      exact hops (List.mem_cons_self _ _)
    exact ih (fun hm => hops (List.mem_cons_of_mem _ hm)) (ok.afterOp op)
      (ok.keeps_pool op threadID pool hq hop)

/-- The pool is per thread, not per `Framework`: in a process reached by any run of
operations, let `this` be a `Framework` that has not been destroyed. If the calling thread
has no pool yet, `descriptorPool` creates one pool on the device of `this` with `maxSets`
256 and 128 uniform-buffer, 128 combined-image-sampler and 128 storage-buffer descriptors,
inserts it into the table of `this` under the thread's id between the lock and the unlock
of the table's mutex, changes no other table, and returns it. If the thread has a pool,
`descriptorPool` of any `Framework` returns that pool and leaves the whole state as it
was, and the thread keeps the pool over every run of operations that does not end the
thread. -/
theorem descriptorPool_once_per_thread (ops : List Op) (p : Process) (i threadID : Nat)
    (this : Framework) (hp : p = Process.run ops Process.start)
    (hthis : p.frameworks[i]? = some (some this)) :
    ((p.heap.threads threadID).desc_pool = none →
      (∀ (table pool : Nat), (threadID, pool) ∉ (p.heap.tables table).second) ∧
      ∃ h', descriptorPool this threadID p.heap = (.ok, p.heap.fresh, h') ∧
        h'.trace = p.heap.trace ++
          [.createDescriptorPool this.device_
            ⟨eFreeDescriptorSet, 256,
              [(eUniformBuffer, 128), (eCombinedImageSampler, 128), (eStorageBuffer, 128)]⟩
            p.heap.fresh,
           .lock this.livePools_, .insert this.livePools_ threadID p.heap.fresh,
           .unlock this.livePools_] ∧
        (h'.tables this.livePools_).second =
          (p.heap.tables this.livePools_).second ++ [(threadID, p.heap.fresh)] ∧
        (∀ (table : Nat), table ≠ this.livePools_ → h'.tables table = p.heap.tables table) ∧
        (h'.threads threadID).desc_pool = some p.heap.fresh) ∧
    (∀ (pool : Nat), (p.heap.threads threadID).desc_pool = some pool →
      (∀ (that : Framework), descriptorPool that threadID p.heap = (.ok, pool, p.heap)) ∧
      ∀ (later : List Op), Op.threadExit threadID ∉ later →
        ((Process.run later p).heap.threads threadID).desc_pool = some pool) := by
  have ok : p.OK := by
    rw [hp]
    exact Process.OK.begin.ofRun ops
  obtain ⟨h1, h2, h3, h4⟩ := ok.live i this hthis
  refine ⟨?_, ?_⟩
  · intro hq
    refine ⟨?_, _, descriptorPool_first this threadID p.heap hq (ok.heap.nohook threadID hq)
      (ok.heap.no_entry threadID hq _) h1 h2 h4, rfl, by simp, ?_, by simp⟩
    · intro table pool hm
      exact ok.heap.no_entry threadID hq table (List.mem_map.2 ⟨(threadID, pool), hm, rfl⟩)
    · intro table hne
      simp only [Function.update_noteq hne]
  · intro pool hq
    exact ⟨fun that => descriptorPool_later that threadID pool p.heap hq,
      fun later hl => ok.run_keeps_pool later threadID pool hl hq⟩

/-! ### C15 -/

/-- C15, at the failing input: two `Framework` objects are alive, and the only call of
`descriptorPool` so far is that of thread 7 on the first, which created pool 11 with the
fixed capacities on device 4 and inserted it into table 1 between lock and unlock. The
first call of thread 7 on the second `Framework` creates no pool, takes no lock and
inserts nothing: the trace and the next fresh handle are as before and table 6, the table
of the second `Framework`, is still empty. The first call of thread 8 on the second
`Framework` does create a pool on device 9 and inserts it into table 6 under the lock. -/
theorem first_call_on_second_context_creates_no_pool :
    scenarioProcess.frameworks = [some scenarioFrameworkA, some scenarioFrameworkB] ∧
    scenarioProcess.heap.trace =
      [.createDescriptorPool 4
        ⟨eFreeDescriptorSet, 256,
          [(eUniformBuffer, 128), (eCombinedImageSampler, 128), (eStorageBuffer, 128)]⟩ 11,
       .lock 1, .insert 1 7 11, .unlock 1] ∧
    (scenarioProcess.heap.tables 6).second = [] ∧
    (descriptorPool scenarioFrameworkB 7 scenarioProcess.heap).1 = .ok ∧
    (descriptorPool scenarioFrameworkB 7 scenarioProcess.heap).2.2.trace =
      scenarioProcess.heap.trace ∧
    (descriptorPool scenarioFrameworkB 7 scenarioProcess.heap).2.2.fresh =
      scenarioProcess.heap.fresh ∧
    ((descriptorPool scenarioFrameworkB 7 scenarioProcess.heap).2.2.tables 6).second = [] ∧
    (descriptorPool scenarioFrameworkB 8 scenarioProcess.heap).2.2.trace =
      scenarioProcess.heap.trace ++
        [.createDescriptorPool 9
          ⟨eFreeDescriptorSet, 256,
            [(eUniformBuffer, 128), (eCombinedImageSampler, 128), (eStorageBuffer, 128)]⟩ 12,
         .lock 6, .insert 6 8 12, .unlock 6] := by
  decide

/-! ### C16 -/

/-- C16: in a process reached by any run of operations, a thread that has its pool has an
armed exit hook bound to one table. If that table still exists when the thread ends, the
table holds the pool under the thread's id, the exit appends the erase and the release of
that one pool, removes exactly that entry and keeps every entry of another thread, and
leaves every other table as it was. If the table no longer exists, the exit appends no
event and changes no table. In both cases the thread-local variables are gone afterwards,
those of other threads are untouched, and a second exit of a thread with that id removes
nothing. -/
theorem exit_hook_removes_own_entry_once (ops : List Op) (p : Process) (threadID pool : Nat)
    (hp : p = Process.run ops Process.start)
    (hpool : (p.heap.threads threadID).desc_pool = some pool) :
    ∃ table, (p.heap.threads threadID).cleanup = some (on_death (threadID, table)) ∧
      ((p.heap.tables table).alive = true →
        (threadID, pool) ∈ (p.heap.tables table).second ∧
        (threadExit threadID p.heap).trace =
          p.heap.trace ++ [.erase table threadID, .destroyDescriptorPool pool] ∧
        ((threadExit threadID p.heap).tables table).second =
          (p.heap.tables table).second.filter (fun e => e.1 ≠ threadID) ∧
        ((threadExit threadID p.heap).tables table).second.length + 1 =
          (p.heap.tables table).second.length ∧
        ∀ (other : Nat), other ≠ table →
          (threadExit threadID p.heap).tables other = p.heap.tables other) ∧
      ((p.heap.tables table).alive = false →
        (threadExit threadID p.heap).trace = p.heap.trace ∧
        (threadExit threadID p.heap).tables = p.heap.tables ∧
        (threadExit threadID p.heap).fresh = p.heap.fresh) ∧
      (threadExit threadID p.heap).threads threadID = {} ∧
      (∀ (T : Nat), T ≠ threadID →
        (threadExit threadID p.heap).threads T = p.heap.threads T) ∧
      (threadExit threadID (threadExit threadID p.heap)).trace =
        (threadExit threadID p.heap).trace ∧
      (threadExit threadID (threadExit threadID p.heap)).tables =
        (threadExit threadID p.heap).tables := by
  have ok : p.OK := by
    rw [hp]
    exact Process.OK.begin.ofRun ops
  obtain ⟨table, hc, hin⟩ := ok.heap.pool threadID pool hpool
  have hreset : (threadExit threadID p.heap).threads threadID = {} := by
    rw [threadExit_threads]
    simp
  have hagain := threadExit_no_hook threadID (threadExit threadID p.heap) (by rw [hreset])
  refine ⟨table, hc, ?_, ?_, hreset, ?_, by rw [hagain], by rw [hagain]⟩
  · intro ha
    obtain ⟨f1, f2⟩ := filter_key_eq threadID pool _ (ok.heap.keys table) (hin ha)
    rw [threadExit_alive threadID table p.heap hc ha]
    refine ⟨hin ha, ?_, by simp, ?_, ?_⟩
    · simp only [f1, List.map_cons, List.map_nil, List.append_assoc, List.singleton_append]
    · simp only [Function.update_same]
      exact f2
    · intro other hne
      simp only [Function.update_noteq hne]
  · intro ha
    rw [threadExit_dead threadID table p.heap hc ha]
    exact ⟨rfl, rfl, rfl⟩
  · intro T hT
    rw [threadExit_threads]
    simp only [Function.update_noteq hT]

theorem exit_hook_removes_own_entry_once_witness :
    (scenarioProcess.heap.threads 7).desc_pool = some 11 ∧
    (threadExit 7 scenarioProcess.heap).trace =
      scenarioProcess.heap.trace ++ [.erase 1 7, .destroyDescriptorPool 11] := by
  have hpool : (scenarioProcess.heap.threads 7).desc_pool = some 11 := by decide
  obtain ⟨table, hc, halive, -⟩ := exit_hook_removes_own_entry_once
    [.construct, .construct, .descriptorPool 0 7] scenarioProcess 7 11 rfl hpool
  have hhook : (scenarioProcess.heap.threads 7).cleanup = some (on_death (7, 1)) := by decide
  rw [hhook] at hc
  have ht : table = 1 := by
    simp only [on_death, Option.some.injEq, final_act.mk.injEq, Prod.mk.injEq, true_and,
      and_true] at hc
    exact hc.symm
  subst ht
  exact ⟨hpool, (halive (by decide)).2.1⟩

end vku
